import Mathlib

/-!
# MS_Utils: block-rate crossfade and fade operators

A shallow embedding of the MetaSound operators of `Source/MS_Utils/Private`:

* `TEPXFHelper` / `TEPXFOperator`  (EqualPowerCrossfade.cpp), the N-input equal-power crossfader,
* `FEPXFOperator`                  (EPLightWeight.cpp), the two-input equal-power crossfader,
* `FCBPOperator`                   (CrossfadeByParam.cpp), the parameter-mapped fader,
* `FSimpleFIOperator`, `FSimpleFOOperator` (SimpleFadeIn.cpp, SimpleFadeOut.cpp), the
  trigger-driven fade-in and fade-out envelope generators.

`float` values are elements of a linearly ordered field `α` with a floor function (exact
arithmetic; `ℚ` for evaluation, `ℝ` for the trigonometric statements).  The one `float` division
of the sources, `FadeCounter / FadeBlockCount` in the envelope generators, can have a zero
divisor (a fade time of `0`): its value is a `FloatValue`, which adds the two infinities and NaN
of `float` to the field.  `int32` indices are integers.  A `TArray` / audio buffer is a `List`.  The read references of an operator (control
value, audio inputs) are arguments of each block call, the members are fields of a structure.

Engine routines that the operators call (`FMath::Cos`, `HALF_PI`, `Audio::ArrayMixIn`,
`Audio::ArrayFade`) are arguments named after the routine; the small arithmetic helpers of
`FMath` (`Clamp`, `IsNearlyEqual`, `Lerp`) are written out, and
`FMath::GetMappedRangeValueClamped` and the trigger streams (`FTrigger`) are modelled from the
spec.
-/

namespace MSUtils

/-! ## Engine arithmetic (`FMath`) -/

section FMath

variable {α : Type} [LinearOrderedField α]

/-- `FMath::Clamp(X, Min, Max)`, that is `Max(Min(X, MaxValue), MinValue)`. -/
def Clamp (X MinValue MaxValue : α) : α := max (min X MaxValue) MinValue

/-- `UE_SMALL_NUMBER` (1.e-8f), the default tolerance of `IsNearlyEqual`. -/
def SMALL_NUMBER : α := 1 / 100000000

/-- `FMath::IsNearlyEqual(A, B)`: `Abs(A - B) <= UE_SMALL_NUMBER`. -/
def IsNearlyEqual (A B : α) : Bool := decide (|A - B| ≤ SMALL_NUMBER)

/-- `FMath::Lerp(A, B, Alpha)`: `A + Alpha * (B - A)`. -/
def Lerp (A B Alpha : α) : α := A + Alpha * (B - A)

/-- Conversion `float → int32` of a C++ cast or assignment: truncation toward zero. -/
def TruncToInt [FloorRing α] (x : α) : ℤ := if 0 ≤ x then ⌊x⌋ else ⌈x⌉

/-- Values of a `float` expression that can leave the field: a finite value, the two
infinities and NaN. -/
inductive FloatValue (α : Type) where
  | finite (x : α)
  | posInf
  | negInf
  | nan

/-- The C++ division `A / B` of two finite `float` values: the quotient of the field for
`B ≠ 0`; for `B = 0` the infinity with the sign of `A`, and NaN for `0 / 0`.  (The field has one
zero: the divisor zero stands for `+0.0f`.) -/
def FloatDiv (A B : α) : FloatValue α :=
  if B = 0 then
    if 0 < A then FloatValue.posInf else if A < 0 then FloatValue.negInf else FloatValue.nan
  else FloatValue.finite (A / B)

/-- The C++ subtraction `A - X` of a `float` value `X` from a finite `A`. -/
def FloatSub (A : α) (X : FloatValue α) : FloatValue α :=
  match X with
  | FloatValue.finite x => FloatValue.finite (A - x)
  | FloatValue.posInf => FloatValue.negInf
  | FloatValue.negInf => FloatValue.posInf
  | FloatValue.nan => FloatValue.nan

/-- `FMath::Clamp(X, Min, Max)`, that is `Max(Min(X, MaxValue), MinValue)`, for a `float` `X`
that may be an infinity or NaN and finite bounds, with `Min(A, B) = (A < B) ? A : B` and
`Max(A, B) = (B < A) ? A : B`: `Min(+inf, MaxValue) = MaxValue`, `Min(-inf, MaxValue) = -inf`
and `Max(-inf, MinValue) = MinValue`; every comparison with NaN is false, so
`Min(NaN, MaxValue) = MaxValue`. -/
def ClampFloat (X : FloatValue α) (MinValue MaxValue : α) : α :=
  match X with
  | FloatValue.finite x => Clamp x MinValue MaxValue
  | FloatValue.posInf => max MaxValue MinValue
  | FloatValue.negInf => MinValue
  | FloatValue.nan => max MaxValue MinValue

end FMath

/-! ## EqualPowerCrossfade.cpp -/

/-- Members of `TEPXFHelper` (EqualPowerCrossfade.cpp:121-126). -/
structure TEPXFHelper (α : Type) where
  InputAmount : ℕ
  NumFramesPerBlock : ℕ
  PrevGains : List α
  CurrentGains : List α
  NeedsMixing : List Bool

/-- Members of `TEPXFOperator<NumInputs>` (EqualPowerCrossfade.cpp:292-301); the read references
`CrossfadeValue` and `InputValues` are arguments of `PerformCrossfadeOutput`. -/
structure TEPXFOperator (α : Type) where
  OutputValue : List α
  PrevCrossfadeValue : α
  IndexA : ℤ
  IndexB : ℤ
  Alpha : α
  Crossfader : TEPXFHelper α

section EqualPowerCrossfade

variable {α : Type} [LinearOrderedField α]

/-- Constructor `TEPXFHelper(InNumFramesPerBlock, NumInputs)`: the three arrays get `NumInputs`
zeroed entries (`AddZeroed`). -/
def TEPXFHelper.create (InNumFramesPerBlock NumInputs : ℕ) : TEPXFHelper α where
  InputAmount := NumInputs
  NumFramesPerBlock := InNumFramesPerBlock
  PrevGains := List.replicate NumInputs 0
  CurrentGains := List.replicate NumInputs 0
  NeedsMixing := List.replicate NumInputs false

/-- Body of the first loop of `GetCrossfadeOutput` ("Determine the gains", lines 68-94) for
index `i`. -/
def gainStep (IndexA IndexB : ℤ) (EPXFValueA EPXFValueB : α) (h : TEPXFHelper α) (i : ℕ) :
    TEPXFHelper α :=
  if (i : ℤ) = IndexA then
    { h with CurrentGains := h.CurrentGains.set i EPXFValueA
             NeedsMixing := h.NeedsMixing.set i true }
  else if (i : ℤ) = IndexB then
    { h with CurrentGains := h.CurrentGains.set i EPXFValueB
             NeedsMixing := h.NeedsMixing.set i true }
  else if h.PrevGains.getD i 0 = 0 then
    { h with CurrentGains := h.CurrentGains.set i 0
             NeedsMixing := h.NeedsMixing.set i false }
  else
    { h with CurrentGains := h.CurrentGains.set i 0 }

/-- Body of the second loop of `GetCrossfadeOutput` (lines 101-115) for index `i`: a flagged
channel is mixed into the output with the ramp `PrevGains[i] → CurrentGains[i]`. -/
def mixStep (ArrayMixIn : List α → List α → α → α → List α) (In : List (List α))
    (h : TEPXFHelper α) (Out : List α) (i : ℕ) : List α :=
  if h.NeedsMixing.getD i false then
    ArrayMixIn ((In.getD i []).take h.NumFramesPerBlock) Out
      (h.PrevGains.getD i 0) (h.CurrentGains.getD i 0)
  else Out

/-- Local `EPXFValueA` of `GetCrossfadeOutput` (line 61). -/
def EPXFValueA (Cos : α → α) (HALF_PI Alpha : α) : α := Clamp (Cos (Alpha * HALF_PI)) 0 1

/-- Local `EPXFValueB` of `GetCrossfadeOutput` (line 62). -/
def EPXFValueB (Cos : α → α) (HALF_PI Alpha : α) : α := Clamp (Cos ((1 - Alpha) * HALF_PI)) 0 1

/-- Closed form of the gain that one pass of `gainStep` writes to `CurrentGains[i]`. -/
def gainOf (IndexA IndexB : ℤ) (EPXFValueA EPXFValueB : α) (i : ℕ) : α :=
  if (i : ℤ) = IndexA then EPXFValueA else if (i : ℤ) = IndexB then EPXFValueB else 0

/-- Closed form of the flag that one pass of `gainStep` leaves in `NeedsMixing[i]`, given the
previous gains and the flag `old` found there. -/
def flagOf (IndexA IndexB : ℤ) (PrevGains : List α) (i : ℕ) (old : Bool) : Bool :=
  if (i : ℤ) = IndexA then true
  else if (i : ℤ) = IndexB then true
  else if PrevGains.getD i 0 = 0 then false
  else old

/-- First loop of `GetCrossfadeOutput` (lines 68-94), `for (i = 0; i < InputAmount; ++i)`. -/
def DetermineGains (Cos : α → α) (HALF_PI : α) (h : TEPXFHelper α) (IndexA IndexB : ℤ)
    (Alpha : α) : TEPXFHelper α :=
  (List.range h.InputAmount).foldl
    (gainStep IndexA IndexB (EPXFValueA Cos HALF_PI Alpha) (EPXFValueB Cos HALF_PI Alpha)) h

/-- Second loop of `GetCrossfadeOutput` (lines 101-115), started on the buffer `Out`. -/
def MixInputs (ArrayMixIn : List α → List α → α → α → List α) (In : List (List α))
    (h : TEPXFHelper α) (Out : List α) : List α :=
  (List.range h.InputAmount).foldl (mixStep ArrayMixIn In h) Out

/-- `TEPXFHelper::GetCrossfadeOutput` (lines 59-119): determine the gains, zero the output
buffer, mix the flagged inputs, copy `CurrentGains` to `PrevGains`.  Returns the helper and the
output buffer. -/
def GetCrossfadeOutput (Cos : α → α) (HALF_PI : α)
    (ArrayMixIn : List α → List α → α → α → List α)
    (h : TEPXFHelper α) (IndexA IndexB : ℤ) (Alpha : α)
    (InAudioBuffersValues : List (List α)) (OutAudioBuffer : List α) :
    TEPXFHelper α × List α :=
  let h1 := DetermineGains Cos HALF_PI h IndexA IndexB Alpha
  let Zeroed : List α := List.replicate OutAudioBuffer.length 0
  let Mixed := MixInputs ArrayMixIn InAudioBuffersValues h1 Zeroed
  ({ h1 with PrevGains := h1.CurrentGains }, Mixed)

variable [FloorRing α]

/-- The guarded block of `PerformCrossfadeOutput` (lines 263-275): clamp the control value and,
unless it is nearly equal to the stored one, store it and recompute `IndexA`, `IndexB`, `Alpha`.
`(int32)FMath::Floor(x)` is the integer floor; `IndexB` is assigned the `float` result of
`FMath::Clamp(IndexA + 1, 0.0f, (float)(NumInputs - 1))`. -/
def UpdateSelection (NumInputs : ℕ) (s : TEPXFOperator α) (CrossfadeValue : α) :
    TEPXFOperator α :=
  let CurrentCrossfadeValue := Clamp CrossfadeValue 0 (((NumInputs : ℤ) - 1 : ℤ) : α)
  if IsNearlyEqual CurrentCrossfadeValue s.PrevCrossfadeValue = false then
    let IndexA : ℤ := ⌊CurrentCrossfadeValue⌋
    { s with
      PrevCrossfadeValue := CurrentCrossfadeValue
      IndexA := IndexA
      IndexB := TruncToInt (Clamp ((IndexA + 1 : ℤ) : α) 0 (((NumInputs : ℤ) - 1 : ℤ) : α))
      Alpha := CurrentCrossfadeValue - (IndexA : α) }
  else s

/-- `TEPXFOperator::PerformCrossfadeOutput` (lines 260-280) for the template argument
`NumInputs`, the control value and the audio inputs of the block. -/
def PerformCrossfadeOutput (Cos : α → α) (HALF_PI : α)
    (ArrayMixIn : List α → List α → α → α → List α) (NumInputs : ℕ)
    (s : TEPXFOperator α) (CrossfadeValue : α) (InputValues : List (List α)) :
    TEPXFOperator α :=
  let s1 := UpdateSelection NumInputs s CrossfadeValue
  let r := GetCrossfadeOutput Cos HALF_PI ArrayMixIn s1.Crossfader s1.IndexA s1.IndexB s1.Alpha
    InputValues s1.OutputValue
  { s1 with Crossfader := r.1, OutputValue := r.2 }

/-- Member initialisers of `TEPXFOperator` before the constructor body runs: the output buffer
of `NumFramesPerBlock` samples, `PrevCrossfadeValue = -1.0f`, indices and alpha zero, and the
helper `Crossfader(NumFramesPerBlock, NumInputs)`. -/
def TEPXFOperator.fresh (NumFramesPerBlock NumInputs : ℕ) : TEPXFOperator α where
  OutputValue := List.replicate NumFramesPerBlock 0
  PrevCrossfadeValue := -1
  IndexA := 0
  IndexB := 0
  Alpha := 0
  Crossfader := TEPXFHelper.create NumFramesPerBlock NumInputs

/-- Constructor of `TEPXFOperator` (lines 214-222): the body calls `PerformCrossfadeOutput`. -/
def TEPXFOperator.construct (Cos : α → α) (HALF_PI : α)
    (ArrayMixIn : List α → List α → α → α → List α) (NumFramesPerBlock NumInputs : ℕ)
    (CrossfadeValue : α) (InputValues : List (List α)) : TEPXFOperator α :=
  PerformCrossfadeOutput Cos HALF_PI ArrayMixIn NumInputs
    (TEPXFOperator.fresh NumFramesPerBlock NumInputs) CrossfadeValue InputValues

/-- `TEPXFOperator::Execute` (lines 287-290). -/
def TEPXFOperator.Execute (Cos : α → α) (HALF_PI : α)
    (ArrayMixIn : List α → List α → α → α → List α) (NumInputs : ℕ)
    (s : TEPXFOperator α) (CrossfadeValue : α) (InputValues : List (List α)) :
    TEPXFOperator α :=
  PerformCrossfadeOutput Cos HALF_PI ArrayMixIn NumInputs s CrossfadeValue InputValues

/-- `TEPXFOperator::Reset` (lines 282-285): the body calls `PerformCrossfadeOutput`. -/
def TEPXFOperator.Reset (Cos : α → α) (HALF_PI : α)
    (ArrayMixIn : List α → List α → α → α → List α) (NumInputs : ℕ)
    (s : TEPXFOperator α) (CrossfadeValue : α) (InputValues : List (List α)) :
    TEPXFOperator α :=
  PerformCrossfadeOutput Cos HALF_PI ArrayMixIn NumInputs s CrossfadeValue InputValues

/-- State of a `TEPXFOperator<NumInputs>` after one `PerformCrossfadeOutput` per element of
`blocks` (control value and audio inputs), started on the member initialisers: the first block
is the call made by the constructor, the later ones are calls of `Execute`. -/
def TEPXFOperator.run (Cos : α → α) (HALF_PI : α)
    (ArrayMixIn : List α → List α → α → α → List α) (NumFramesPerBlock NumInputs : ℕ)
    (blocks : List (α × List (List α))) : TEPXFOperator α :=
  blocks.foldl
    (fun t b => PerformCrossfadeOutput Cos HALF_PI ArrayMixIn NumInputs t b.1 b.2)
    (TEPXFOperator.fresh NumFramesPerBlock NumInputs)

/-- Reference for the skip optimisation, not in the source: the second loop of
`GetCrossfadeOutput` without the test of `NeedsMixing`, every one of the `InputAmount` channels
is mixed in with its ramp `PrevGains[i] → CurrentGains[i]`. -/
def MixAllInputs (ArrayMixIn : List α → List α → α → α → List α) (In : List (List α))
    (h : TEPXFHelper α) (Out : List α) : List α :=
  (List.range h.InputAmount).foldl
    (fun Acc i => ArrayMixIn ((In.getD i []).take h.NumFramesPerBlock) Acc
      (h.PrevGains.getD i 0) (h.CurrentGains.getD i 0)) Out

end EqualPowerCrossfade

/-! ## EPLightWeight.cpp -/

/-- Members of `FEPXFOperator` (EPLightWeight.h:54-63); the read references `FloatIn`,
`AudioInput`, `AudioInput2` are arguments of `Execute`. -/
structure FEPXFOperator (α : Type) where
  AudioOutput : List α
  NumFramesPerBlock : ℕ
  SignalOnePreviousGain : α
  SignalTwoPreviousGain : α
  FloatInPrev : α
  SignalOneFloat : α
  SignalTwoFloat : α

section EPLightWeight

variable {α : Type} [LinearOrderedField α]

/-- Constructor of `FEPXFOperator` (EPLightWeight.cpp:22-33, member initialisers of
EPLightWeight.h:58-63).  `SignalOneFloat` and `SignalTwoFloat` have no initialiser and the
constructor body is empty: their indeterminate start values are the arguments `u1`, `u2`. -/
def FEPXFOperator.construct (NumFramesPerBlock : ℕ) (u1 u2 : α) : FEPXFOperator α where
  AudioOutput := List.replicate NumFramesPerBlock 0
  NumFramesPerBlock := NumFramesPerBlock
  SignalOnePreviousGain := 0
  SignalTwoPreviousGain := 0
  FloatInPrev := 11 / 10
  SignalOneFloat := u1
  SignalTwoFloat := u2

/-- `FEPXFOperator::MixInInput` (EPLightWeight.cpp:58-62); returns the output view. -/
def FEPXFOperator.MixInInput (ArrayMixIn : List α → List α → α → α → List α)
    (s : FEPXFOperator α) (InBuffer OutBufferView : List α) (PrevGain NewGain : α) : List α :=
  ArrayMixIn (InBuffer.take s.NumFramesPerBlock) OutBufferView PrevGain NewGain

/-- `FEPXFOperator::Execute` (EPLightWeight.cpp:35-56). -/
def FEPXFOperator.Execute (Cos : α → α) (HALF_PI : α)
    (ArrayMixIn : List α → List α → α → α → List α)
    (s : FEPXFOperator α) (FloatIn : α) (AudioInput AudioInput2 : List α) : FEPXFOperator α :=
  let s1 : FEPXFOperator α :=
    if FloatIn ≠ s.FloatInPrev then
      { s with
        SignalOneFloat := Clamp (Cos (FloatIn * HALF_PI)) 0 1
        SignalTwoFloat := Clamp (Cos ((1 - FloatIn) * HALF_PI)) 0 1 }
    else s
  let Zeroed : List α := List.replicate s1.AudioOutput.length 0
  let Out1 := s1.MixInInput ArrayMixIn AudioInput Zeroed s1.SignalOnePreviousGain s1.SignalOneFloat
  let Out2 := s1.MixInInput ArrayMixIn AudioInput2 Out1 s1.SignalTwoPreviousGain s1.SignalTwoFloat
  let s2 : FEPXFOperator α := { s1 with AudioOutput := Out2 }
  if FloatIn ≠ s2.FloatInPrev then
    { s2 with
      FloatInPrev := FloatIn
      SignalOnePreviousGain := s2.SignalOneFloat
      SignalTwoPreviousGain := s2.SignalTwoFloat }
  else s2

end EPLightWeight

/-! ## CrossfadeByParam.cpp -/

/-- Members of `FCBPOperator` (CrossfadeByParam.h:54-67); the read references are arguments of
`Execute`. -/
structure FCBPOperator (α : Type) where
  AudioOutput : List α
  NumFramesPerBlock : ℕ
  SignalOnePreviousGain : α
  SignalTwoPreviousGain : α
  FloatInPrev : α
  Amplitude : α
  AmplitudePrev : α
  bInit : Bool

section CrossfadeByParam

variable {α : Type} [LinearOrderedField α]

/-- Modelled from the spec: the engine routine `FMath::GetMappedRangeValueClamped(InputRange,
OutputRange, Value)` is not part of the repository.  The spec (section 4.4) describes it as the
clamped map of the domain `InputRange` onto `OutputRange`, values outside the domain saturating
to the range endpoints: the fraction of the way of `Value` through the domain, clamped to
`[0, 1]`, interpolates the range.  What the engine does for a domain of (nearly) zero width is
outside this description. -/
def GetMappedRangeValueClamped (InputRange OutputRange : α × α) (Value : α) : α :=
  Lerp OutputRange.1 OutputRange.2
    (Clamp ((Value - InputRange.1) / (InputRange.2 - InputRange.1)) 0 1)

/-- Constructor of `FCBPOperator` (CrossfadeByParam.cpp:25-42, member initialisers of
CrossfadeByParam.h:61-67). -/
def FCBPOperator.construct (NumFramesPerBlock : ℕ) : FCBPOperator α where
  AudioOutput := List.replicate NumFramesPerBlock 0
  NumFramesPerBlock := NumFramesPerBlock
  SignalOnePreviousGain := 0
  SignalTwoPreviousGain := 0
  FloatInPrev := 0
  Amplitude := 0
  AmplitudePrev := 0
  bInit := false

/-- `FCBPOperator::Execute` (CrossfadeByParam.cpp:44-69).  The `Memcpy` overwrites the first
`AudioInput->Num()` samples of the output; `Audio::ArrayFade(Buffer, Start, End)` is the
argument `ArrayFade`. -/
def FCBPOperator.Execute (ArrayFade : List α → α → α → List α)
    (s : FCBPOperator α) (FloatIn FadeInStart FadeInEnd FadeOutStart FadeOutEnd : α)
    (AudioInput : List α) : FCBPOperator α :=
  let s0 : FCBPOperator α :=
    { s with AudioOutput := AudioInput ++ s.AudioOutput.drop AudioInput.length }
  if FloatIn ≠ s0.FloatInPrev ∨ s0.bInit = false then
    let s1 : FCBPOperator α := if s0.bInit = false then { s0 with bInit := true } else s0
    let FadeInValue := GetMappedRangeValueClamped (FadeInStart, FadeInEnd) (0, 1) FloatIn
    let FadeOutValue := GetMappedRangeValueClamped (FadeOutStart, FadeOutEnd) (1, 0) FloatIn
    let s2 : FCBPOperator α := { s1 with Amplitude := FadeInValue * FadeOutValue }
    let s3 : FCBPOperator α :=
      { s2 with AudioOutput := ArrayFade s2.AudioOutput s2.AmplitudePrev s2.Amplitude }
    { s3 with FloatInPrev := FloatIn, AmplitudePrev := s3.Amplitude }
  else
    { s0 with AudioOutput := ArrayFade s0.AudioOutput s0.AmplitudePrev s0.Amplitude }

/-- Values of the read references of `FCBPOperator` (CrossfadeByParam.h:54-59) in one block. -/
structure FCBPInputs (α : Type) where
  FloatIn : α
  FadeInStart : α
  FadeInEnd : α
  FadeOutStart : α
  FadeOutEnd : α
  AudioInput : List α

/-- State of an `FCBPOperator` constructed for `NumFramesPerBlock` frames after one `Execute`
per element of `blocks`. -/
def FCBPOperator.run (ArrayFade : List α → α → α → List α) (NumFramesPerBlock : ℕ)
    (blocks : List (FCBPInputs α)) : FCBPOperator α :=
  blocks.foldl
    (fun t b => t.Execute ArrayFade b.FloatIn b.FadeInStart b.FadeInEnd b.FadeOutStart
      b.FadeOutEnd b.AudioInput)
    (FCBPOperator.construct NumFramesPerBlock)

end CrossfadeByParam

/-! ## SimpleFadeIn.cpp, SimpleFadeOut.cpp -/

/-- Modelled from the spec: the engine routine `FTrigger::ExecuteBlock(InPreTrigger,
InOnTrigger)` is not part of the repository.  The spec (sections 3, 4.5 and 9) describes a
trigger stream as carrying at most one actionable edge per block, at a frame of the block
(`Edge`), and the block scan as running the continuation first, whether or not an edge occurred,
and the edge handling after it: `InPreTrigger` gets the frames before the edge (the whole block
when there is none), `InOnTrigger` the frames from the edge to the end of the block. -/
def ExecuteBlock {σ : Type} (NumFramesPerBlock : ℕ) (Edge : Option ℕ)
    (InPreTrigger InOnTrigger : ℕ → ℕ → σ → σ) (s : σ) : σ :=
  match Edge with
  | none => InPreTrigger 0 NumFramesPerBlock s
  | some Frame => InOnTrigger Frame NumFramesPerBlock (InPreTrigger 0 Frame s)

/-- Modelled from the spec: the engine routine `FTrigger::AdvanceBlock` is not part of the
repository.  An output trigger stream is the list of the frames triggered by the operator in
the current block; the spec (section 4.5) describes `AdvanceBlock` as the move of the stream to
the next block with no visible effect by itself: the list of the new block starts empty. -/
def AdvanceBlock (_TriggeredFrames : List ℕ) : List ℕ := []

/-- Modelled from the spec: the engine routine `FTrigger::TriggerFrame(Frame)` is not part of
the repository; it emits a trigger event at `Frame` on an output trigger stream. -/
def TriggerFrame (TriggeredFrames : List ℕ) (Frame : ℕ) : List ℕ := TriggeredFrames ++ [Frame]

/-- Members of `FSimpleFIOperator` (SimpleFadeIn.h:49-60); the read references `TriggerFadeIn`,
`ResetFadeIn`, `FadeInTime` are arguments of `Execute`, the write references hold their
current value. -/
structure FSimpleFIOperator (α : Type) where
  TriggerStartIn : List ℕ
  TriggerFinished : List ℕ
  OutEnvelope : α
  BlockRate : α
  FadeBlockCount : α
  OutEnvelopeValue : α
  FadeCounter : α
  ProcessFade : Bool

/-- Members of `FSimpleFOOperator` (SimpleFadeOut.h:48-59). -/
structure FSimpleFOOperator (α : Type) where
  TriggerStartOut : List ℕ
  TriggerFinished : List ℕ
  OutEnvelope : α
  BlockRate : α
  FadeBlockCount : α
  OutEnvelopeValue : α
  FadeCounter : α
  ProcessFade : Bool

section SimpleFade

variable {α : Type} [LinearOrderedField α]

/-- Constructor of `FSimpleFIOperator` (SimpleFadeIn.cpp:26-39, member initialisers of
SimpleFadeIn.h:57-60): `OutEnvelope` is created with `0.0f`, `BlockRate` is the block rate of
the operator settings. -/
def FSimpleFIOperator.construct (ActualBlockRate : α) : FSimpleFIOperator α where
  TriggerStartIn := []
  TriggerFinished := []
  OutEnvelope := 0
  BlockRate := ActualBlockRate
  FadeBlockCount := 0
  OutEnvelopeValue := 0
  FadeCounter := 1
  ProcessFade := false

/-- `FSimpleFIOperator::Execute` (SimpleFadeIn.cpp:41-84) for the reset edge, the start edge
and the fade time (in seconds) of the block.  `FadeCounter / FadeBlockCount` (line 65) is the
`float` division `FloatDiv`, clamped by `ClampFloat`. -/
def FSimpleFIOperator.Execute (NumFramesPerBlock : ℕ) (s : FSimpleFIOperator α)
    (ResetFadeIn TriggerFadeIn : Option ℕ) (FadeInTime : α) : FSimpleFIOperator α :=
  let s0 : FSimpleFIOperator α :=
    { s with
      TriggerStartIn := AdvanceBlock s.TriggerStartIn
      TriggerFinished := AdvanceBlock s.TriggerFinished }
  let s1 : FSimpleFIOperator α :=
    ExecuteBlock NumFramesPerBlock ResetFadeIn
      (fun _StartFrame _EndFrame t => t)
      (fun _StartFrame _EndFrame t =>
        { t with ProcessFade := false, OutEnvelopeValue := 0, OutEnvelope := 0, FadeCounter := 1 })
      s0
  ExecuteBlock NumFramesPerBlock TriggerFadeIn
    (fun _StartFrame EndFrame t =>
      if t.ProcessFade = true then
        let t1 : FSimpleFIOperator α :=
          { t with OutEnvelopeValue := ClampFloat (FloatDiv t.FadeCounter t.FadeBlockCount) 0 1 }
        let t2 : FSimpleFIOperator α := { t1 with OutEnvelope := t1.OutEnvelopeValue }
        let t3 : FSimpleFIOperator α := { t2 with FadeCounter := t2.FadeCounter + 1 }
        if t3.FadeCounter - 1 ≥ t3.FadeBlockCount then
          { t3 with
            FadeCounter := 1
            TriggerFinished := TriggerFrame t3.TriggerFinished EndFrame
            ProcessFade := false }
        else t3
      else t)
    (fun StartFrame _EndFrame t =>
      { t with
        TriggerStartIn := TriggerFrame t.TriggerStartIn StartFrame
        ProcessFade := true
        FadeBlockCount := t.BlockRate * FadeInTime })
    s1

/-- Constructor of `FSimpleFOOperator` (SimpleFadeOut.cpp:26-39, member initialisers of
SimpleFadeOut.h:56-59): `OutEnvelope` is created with `1.0f`, `OutEnvelopeValue` starts at
`0.0f`. -/
def FSimpleFOOperator.construct (ActualBlockRate : α) : FSimpleFOOperator α where
  TriggerStartOut := []
  TriggerFinished := []
  OutEnvelope := 1
  BlockRate := ActualBlockRate
  FadeBlockCount := 0
  OutEnvelopeValue := 0
  FadeCounter := 1
  ProcessFade := false

/-- `FSimpleFOOperator::Execute` (SimpleFadeOut.cpp:41-84) for the reset edge, the start edge
and the fade time (in seconds) of the block.  `1.0f - (FadeCounter / FadeBlockCount)` (line 65)
is `FloatSub 1 (FloatDiv ..)`, clamped by `ClampFloat`. -/
def FSimpleFOOperator.Execute (NumFramesPerBlock : ℕ) (s : FSimpleFOOperator α)
    (ResetFadeOut TriggerFadeOut : Option ℕ) (FadeOutTime : α) : FSimpleFOOperator α :=
  let s0 : FSimpleFOOperator α :=
    { s with
      TriggerStartOut := AdvanceBlock s.TriggerStartOut
      TriggerFinished := AdvanceBlock s.TriggerFinished }
  let s1 : FSimpleFOOperator α :=
    ExecuteBlock NumFramesPerBlock ResetFadeOut
      (fun _StartFrame _EndFrame t => t)
      (fun _StartFrame _EndFrame t =>
        { t with ProcessFade := false, OutEnvelopeValue := 1, OutEnvelope := 1, FadeCounter := 1 })
      s0
  ExecuteBlock NumFramesPerBlock TriggerFadeOut
    (fun _StartFrame EndFrame t =>
      if t.ProcessFade = true then
        let t1 : FSimpleFOOperator α :=
          { t with OutEnvelopeValue := ClampFloat (FloatSub 1 (FloatDiv t.FadeCounter t.FadeBlockCount)) 0 1 }
        let t2 : FSimpleFOOperator α := { t1 with OutEnvelope := t1.OutEnvelopeValue }
        let t3 : FSimpleFOOperator α := { t2 with FadeCounter := t2.FadeCounter + 1 }
        if t3.FadeCounter - 1 ≥ t3.FadeBlockCount then
          { t3 with
            FadeCounter := 1
            TriggerFinished := TriggerFrame t3.TriggerFinished EndFrame
            ProcessFade := false }
        else t3
      else t)
    (fun StartFrame _EndFrame t =>
      { t with
        TriggerStartOut := TriggerFrame t.TriggerStartOut StartFrame
        ProcessFade := true
        FadeBlockCount := t.BlockRate * FadeOutTime })
    s1

/-- Values of the read references of an envelope generator in one block: the reset edge, the
start edge (the frame of the edge, when there is one) and the fade time in seconds. -/
structure FadeInputs (α : Type) where
  Reset : Option ℕ
  Trigger : Option ℕ
  Time : α

/-- State of an `FSimpleFIOperator` constructed with the given block rate after one `Execute`
per element of `blocks`. -/
def FSimpleFIOperator.run (NumFramesPerBlock : ℕ) (ActualBlockRate : α)
    (blocks : List (FadeInputs α)) : FSimpleFIOperator α :=
  blocks.foldl (fun t b => t.Execute NumFramesPerBlock b.Reset b.Trigger b.Time)
    (FSimpleFIOperator.construct ActualBlockRate)

/-- State of an `FSimpleFOOperator` constructed with the given block rate after one `Execute`
per element of `blocks`. -/
def FSimpleFOOperator.run (NumFramesPerBlock : ℕ) (ActualBlockRate : α)
    (blocks : List (FadeInputs α)) : FSimpleFOOperator α :=
  blocks.foldl (fun t b => t.Execute NumFramesPerBlock b.Reset b.Trigger b.Time)
    (FSimpleFOOperator.construct ActualBlockRate)

end SimpleFade

/-! ## Lemmas on the engine arithmetic -/

section FMathLemmas

variable {α : Type} [LinearOrderedField α]

theorem Clamp_ge {x lo hi : α} : lo ≤ Clamp x lo hi := le_max_right _ _

theorem Clamp_le {x lo hi : α} (h : lo ≤ hi) : Clamp x lo hi ≤ hi :=
  max_le (min_le_right _ _) h

theorem Clamp_of_mem {x lo hi : α} (h1 : lo ≤ x) (h2 : x ≤ hi) : Clamp x lo hi = x := by
  unfold Clamp
  rw [min_eq_left h2, max_eq_left h1]

theorem Clamp_of_le {x lo hi : α} (h1 : x ≤ lo) : Clamp x lo hi = lo := by
  unfold Clamp
  exact max_eq_right ((min_le_left _ _).trans h1)

theorem Clamp_of_ge {x lo hi : α} (h : lo ≤ hi) (h2 : hi ≤ x) : Clamp x lo hi = hi := by
  unfold Clamp
  rw [min_eq_right h2, max_eq_left h]

/-- Division by a non-zero value: the clamped `float` quotient is the clamped quotient of the
field. -/
theorem ClampFloat_FloatDiv (k n lo hi : α) (hn : n ≠ 0) :
    ClampFloat (FloatDiv k n) lo hi = Clamp (k / n) lo hi := by
  unfold FloatDiv
  rw [if_neg hn]
  rfl

theorem ClampFloat_FloatSub_FloatDiv (a k n lo hi : α) (hn : n ≠ 0) :
    ClampFloat (FloatSub a (FloatDiv k n)) lo hi = Clamp (a - k / n) lo hi := by
  unfold FloatDiv
  rw [if_neg hn]
  rfl

/-- Division of a positive value by zero: `+inf`, clamped to the upper bound. -/
theorem ClampFloat_FloatDiv_zero (k : α) (hk : 0 < k) :
    ClampFloat (FloatDiv k 0) 0 1 = 1 := by
  unfold FloatDiv
  rw [if_pos rfl, if_pos hk]
  exact max_eq_left zero_le_one

/-- One minus the division of a positive value by zero: `-inf`, clamped to the lower bound. -/
theorem ClampFloat_FloatSub_FloatDiv_zero (k : α) (hk : 0 < k) :
    ClampFloat (FloatSub 1 (FloatDiv k 0)) 0 1 = 0 := by
  unfold FloatDiv
  rw [if_pos rfl, if_pos hk]
  rfl

theorem SMALL_NUMBER_lt_one : (SMALL_NUMBER : α) < 1 := by
  unfold SMALL_NUMBER
  rw [div_lt_one (by norm_num)]
  norm_num

theorem SMALL_NUMBER_pos : (0 : α) < SMALL_NUMBER := by
  unfold SMALL_NUMBER
  positivity

theorem IsNearlyEqual_self (a : α) : IsNearlyEqual a a = true := by
  simp [IsNearlyEqual, SMALL_NUMBER_pos.le]

/-- A value that is at least zero is never nearly equal to the sentinel `-1`. -/
theorem IsNearlyEqual_neg_one {a : α} (h : 0 ≤ a) : IsNearlyEqual a (-1) = false := by
  simp only [IsNearlyEqual, decide_eq_false_iff_not, not_le]
  have h1 : |a - -1| = a + 1 := by
    rw [sub_neg_eq_add]
    exact abs_of_nonneg (by linarith)
  rw [h1]
  have := SMALL_NUMBER_lt_one (α := α)
  linarith

theorem TruncToInt_intCast [FloorRing α] (z : ℤ) : TruncToInt (z : α) = z := by
  unfold TruncToInt
  split <;> simp

end FMathLemmas

/-! ## The gain loop of `GetCrossfadeOutput` -/

section GainLoop

variable {α : Type} [LinearOrderedField α]

theorem getElem?_set_map {β : Type} (l : List β) (i j : ℕ) (a : β) :
    (l.set i a)[j]? = if i = j then l[j]?.map (fun _ => a) else l[j]? := by
  rw [List.getElem?_set]
  by_cases hij : i = j
  · subst hij
    by_cases hi : i < l.length
    · simp [hi]
    · simp [hi, List.getElem?_eq_none (not_lt.mp hi)]
  · simp [hij]

theorem gainStep_frame (ia ib : ℤ) (A B : α) (h : TEPXFHelper α) (i : ℕ) :
    (gainStep ia ib A B h i).PrevGains = h.PrevGains ∧
    (gainStep ia ib A B h i).InputAmount = h.InputAmount ∧
    (gainStep ia ib A B h i).NumFramesPerBlock = h.NumFramesPerBlock := by
  unfold gainStep
  split_ifs <;> exact ⟨rfl, rfl, rfl⟩

theorem gainStep_currentGains (ia ib : ℤ) (A B : α) (h : TEPXFHelper α) (i : ℕ) :
    (gainStep ia ib A B h i).CurrentGains = h.CurrentGains.set i (gainOf ia ib A B i) := by
  unfold gainStep gainOf
  split_ifs <;> rfl

theorem gainStep_needsMixing (ia ib : ℤ) (A B : α) (h : TEPXFHelper α) (i j : ℕ) :
    (gainStep ia ib A B h i).NeedsMixing[j]? =
      if i = j then h.NeedsMixing[j]?.map (flagOf ia ib h.PrevGains i) else h.NeedsMixing[j]? := by
  unfold gainStep flagOf
  split_ifs with h1 h2 h3 h4 <;> simp_all [getElem?_set_map]

theorem flagOf_idem (ia ib : ℤ) (P : List α) (i : ℕ) (old : Bool) :
    flagOf ia ib P i (flagOf ia ib P i old) = flagOf ia ib P i old := by
  unfold flagOf
  split_ifs <;> rfl

theorem foldl_gainStep_frame (ia ib : ℤ) (A B : α) (l : List ℕ) (h : TEPXFHelper α) :
    (l.foldl (gainStep ia ib A B) h).PrevGains = h.PrevGains ∧
    (l.foldl (gainStep ia ib A B) h).InputAmount = h.InputAmount ∧
    (l.foldl (gainStep ia ib A B) h).NumFramesPerBlock = h.NumFramesPerBlock := by
  induction l generalizing h with
  | nil => exact ⟨rfl, rfl, rfl⟩
  | cons i t ih =>
    rw [List.foldl_cons]
    obtain ⟨h1, h2, h3⟩ := ih (gainStep ia ib A B h i)
    obtain ⟨g1, g2, g3⟩ := gainStep_frame ia ib A B h i
    exact ⟨h1.trans g1, h2.trans g2, h3.trans g3⟩

theorem foldl_gainStep_currentGains (ia ib : ℤ) (A B : α) (l : List ℕ) (h : TEPXFHelper α)
    (j : ℕ) :
    (l.foldl (gainStep ia ib A B) h).CurrentGains[j]? =
      if j ∈ l then h.CurrentGains[j]?.map (fun _ => gainOf ia ib A B j)
      else h.CurrentGains[j]? := by
  induction l generalizing h with
  | nil => simp
  | cons i t ih =>
    rw [List.foldl_cons, ih, gainStep_currentGains, getElem?_set_map]
    by_cases hij : i = j
    · subst hij
      by_cases ht : i ∈ t
      · simp only [ht, if_true, List.mem_cons, true_or, Option.map_map]
        rfl
      · simp [ht]
    · have hji : ¬ j = i := fun e => hij e.symm
      by_cases ht : j ∈ t <;> simp [ht, hij, hji]

theorem foldl_gainStep_needsMixing (ia ib : ℤ) (A B : α) (l : List ℕ) (h : TEPXFHelper α)
    (j : ℕ) :
    (l.foldl (gainStep ia ib A B) h).NeedsMixing[j]? =
      if j ∈ l then h.NeedsMixing[j]?.map (flagOf ia ib h.PrevGains j)
      else h.NeedsMixing[j]? := by
  induction l generalizing h with
  | nil => simp
  | cons i t ih =>
    rw [List.foldl_cons, ih, gainStep_needsMixing, (gainStep_frame ia ib A B h i).1]
    by_cases hij : i = j
    · subst hij
      by_cases ht : i ∈ t
      · simp only [ht, if_true, List.mem_cons, true_or, Option.map_map]
        congr 1
        funext old
        exact flagOf_idem ia ib h.PrevGains i old
      · simp [ht]
    · have hji : ¬ j = i := fun e => hij e.symm
      by_cases ht : j ∈ t <;> simp [ht, hij, hji]

end GainLoop

/-! ## The selection of `PerformCrossfadeOutput` -/

section Selection

variable {α : Type} [LinearOrderedField α] [FloorRing α]

omit [FloorRing α] in
theorem Clamp_intCast (a b : ℤ) :
    Clamp ((a : ℤ) : α) 0 ((b : ℤ) : α) = ((max (min a b) 0 : ℤ) : α) := by
  unfold Clamp
  push_cast
  rfl

theorem UpdateSelection_of_change (N : ℕ) (s : TEPXFOperator α) (c : α)
    (h : IsNearlyEqual (Clamp c 0 (((N : ℤ) - 1 : ℤ) : α)) s.PrevCrossfadeValue = false) :
    UpdateSelection N s c =
      { s with
        PrevCrossfadeValue := Clamp c 0 (((N : ℤ) - 1 : ℤ) : α)
        IndexA := ⌊Clamp c 0 (((N : ℤ) - 1 : ℤ) : α)⌋
        IndexB := TruncToInt (Clamp ((⌊Clamp c 0 (((N : ℤ) - 1 : ℤ) : α)⌋ + 1 : ℤ) : α) 0
          (((N : ℤ) - 1 : ℤ) : α))
        Alpha := Clamp c 0 (((N : ℤ) - 1 : ℤ) : α) - (⌊Clamp c 0 (((N : ℤ) - 1 : ℤ) : α)⌋ : α) } := by
  unfold UpdateSelection
  simp only [h, if_true]

theorem UpdateSelection_of_same (N : ℕ) (s : TEPXFOperator α) (c : α)
    (h : IsNearlyEqual (Clamp c 0 (((N : ℤ) - 1 : ℤ) : α)) s.PrevCrossfadeValue = true) :
    UpdateSelection N s c = s := by
  unfold UpdateSelection
  rw [if_neg (by rw [h]; decide)]

/-- Facts on the selection computed from a clamped control value. -/
theorem selection_facts (N : ℕ) (hN : 1 ≤ N) (c : α) :
    let cc := Clamp c 0 (((N : ℤ) - 1 : ℤ) : α)
    let ia : ℤ := ⌊cc⌋
    let ib : ℤ := TruncToInt (Clamp ((ia + 1 : ℤ) : α) 0 (((N : ℤ) - 1 : ℤ) : α))
    cc = Clamp c 0 ((N : α) - 1) ∧ 0 ≤ cc ∧ cc ≤ (N : α) - 1 ∧
    ib = min (ia + 1) ((N : ℤ) - 1) ∧ 0 ≤ cc - (ia : α) ∧ cc - (ia : α) < 1 ∧
    0 ≤ ia ∧ ia ≤ ib ∧ ib ≤ (N : ℤ) - 1 := by
  intro cc ia ib
  have hN1 : (0 : ℤ) ≤ (N : ℤ) - 1 := by omega
  have hN1c : (0 : α) ≤ (((N : ℤ) - 1 : ℤ) : α) := by exact_mod_cast hN1
  have hcast : (((N : ℤ) - 1 : ℤ) : α) = (N : α) - 1 := by push_cast; rfl
  have h0 : 0 ≤ cc := Clamp_ge
  have h1 : cc ≤ (((N : ℤ) - 1 : ℤ) : α) := Clamp_le hN1c
  have hia0 : 0 ≤ ia := Int.floor_nonneg.mpr h0
  have hia1 : ia ≤ (N : ℤ) - 1 := by
    have := Int.floor_mono h1
    rwa [Int.floor_intCast] at this
  have hib : ib = min (ia + 1) ((N : ℤ) - 1) := by
    show TruncToInt (Clamp ((ia + 1 : ℤ) : α) 0 (((N : ℤ) - 1 : ℤ) : α)) = _
    rw [Clamp_intCast, TruncToInt_intCast]
    exact max_eq_left (le_min (by omega) hN1)
  refine ⟨by rw [← hcast], h0, by rw [← hcast]; exact h1, hib, ?_, ?_, hia0, ?_, ?_⟩
  · exact sub_nonneg.mpr (Int.floor_le cc)
  · have := Int.lt_floor_add_one cc
    linarith
  · rw [hib]; exact le_min (by omega) hia1
  · rw [hib]; exact min_le_right _ _

theorem PerformCrossfadeOutput_fields (Cos : α → α) (HALF_PI : α)
    (ArrayMixIn : List α → List α → α → α → List α) (N : ℕ) (s : TEPXFOperator α) (c : α)
    (In : List (List α)) :
    (PerformCrossfadeOutput Cos HALF_PI ArrayMixIn N s c In).IndexA
      = (UpdateSelection N s c).IndexA ∧
    (PerformCrossfadeOutput Cos HALF_PI ArrayMixIn N s c In).IndexB
      = (UpdateSelection N s c).IndexB ∧
    (PerformCrossfadeOutput Cos HALF_PI ArrayMixIn N s c In).Alpha
      = (UpdateSelection N s c).Alpha ∧
    (PerformCrossfadeOutput Cos HALF_PI ArrayMixIn N s c In).PrevCrossfadeValue
      = (UpdateSelection N s c).PrevCrossfadeValue :=
  ⟨rfl, rfl, rfl, rfl⟩

omit [FloorRing α] in
/-- On a freshly initialised operator the clamped control value is never nearly equal to the
stored sentinel. -/
theorem fresh_detects_change (F N : ℕ) (c : α) :
    IsNearlyEqual (Clamp c 0 (((N : ℤ) - 1 : ℤ) : α))
      (TEPXFOperator.fresh F N : TEPXFOperator α).PrevCrossfadeValue = false :=
  IsNearlyEqual_neg_one Clamp_ge

end Selection

/-! ## C1 -/

section C1

variable {α : Type} [LinearOrderedField α] [FloorRing α]

/-- C1. Multi-input crossfader selection: for every `N ≥ 2` and every control value `c`, a call
of `PerformCrossfadeOutput` that detects a change (the stored control value is not nearly equal
to the clamped one; in particular the call made on the freshly initialised operator) stores
`IndexA = floor(clamp(c, 0, N-1))`, `IndexB = min(IndexA + 1, N-1)` and
`Alpha = clamp(c, 0, N-1) - IndexA`, with `0 ≤ Alpha < 1` and `0 ≤ IndexA ≤ IndexB ≤ N-1`. -/
theorem C1_selection (Cos : α → α) (HALF_PI : α)
    (ArrayMixIn : List α → List α → α → α → List α) (F N : ℕ) (hN : 2 ≤ N) (c : α)
    (s : TEPXFOperator α) (In : List (List α))
    (hs : s = TEPXFOperator.fresh F N ∨
      IsNearlyEqual (Clamp c 0 ((N : α) - 1)) s.PrevCrossfadeValue = false) :
    (PerformCrossfadeOutput Cos HALF_PI ArrayMixIn N s c In).IndexA
        = ⌊Clamp c 0 ((N : α) - 1)⌋ ∧
    (PerformCrossfadeOutput Cos HALF_PI ArrayMixIn N s c In).IndexB
        = min ((PerformCrossfadeOutput Cos HALF_PI ArrayMixIn N s c In).IndexA + 1)
            ((N : ℤ) - 1) ∧
    (PerformCrossfadeOutput Cos HALF_PI ArrayMixIn N s c In).Alpha
        = Clamp c 0 ((N : α) - 1)
          - ((PerformCrossfadeOutput Cos HALF_PI ArrayMixIn N s c In).IndexA : α) ∧
    0 ≤ (PerformCrossfadeOutput Cos HALF_PI ArrayMixIn N s c In).Alpha ∧
    (PerformCrossfadeOutput Cos HALF_PI ArrayMixIn N s c In).Alpha < 1 ∧
    0 ≤ (PerformCrossfadeOutput Cos HALF_PI ArrayMixIn N s c In).IndexA ∧
    (PerformCrossfadeOutput Cos HALF_PI ArrayMixIn N s c In).IndexA
        ≤ (PerformCrossfadeOutput Cos HALF_PI ArrayMixIn N s c In).IndexB ∧
    (PerformCrossfadeOutput Cos HALF_PI ArrayMixIn N s c In).IndexB ≤ (N : ℤ) - 1 := by
  have hcast : (((N : ℤ) - 1 : ℤ) : α) = (N : α) - 1 := by push_cast; rfl
  have hne : IsNearlyEqual (Clamp c 0 (((N : ℤ) - 1 : ℤ) : α)) s.PrevCrossfadeValue = false := by
    rcases hs with rfl | hs
    · exact fresh_detects_change F N c
    · rw [hcast]; exact hs
  obtain ⟨e1, e2, e3, -⟩ := PerformCrossfadeOutput_fields Cos HALF_PI ArrayMixIn N s c In
  rw [e1, e2, e3, UpdateSelection_of_change N s c hne]
  obtain ⟨f0, -, -, f1, f2, f3, f4, f5, f6⟩ := selection_facts N (by omega) c
  simp only [] at f0 f1 f2 f3 f4 f5 f6 ⊢
  rw [← hcast]
  exact ⟨rfl, f1, rfl, f2, f3, f4, f5, f6⟩

/-- Witness of C1: four inputs, control value 5/2, the freshly initialised operator. -/
theorem C1_selection_witness :
    (2 ≤ 4) ∧
    (PerformCrossfadeOutput (fun x : ℚ => x) 1 (fun _ o _ _ => o) 4
        (TEPXFOperator.fresh 2 4) (5 / 2) []).IndexA = ⌊Clamp (5 / 2 : ℚ) 0 (((4 : ℕ) : ℚ) - 1)⌋ ∧
    (PerformCrossfadeOutput (fun x : ℚ => x) 1 (fun _ o _ _ => o) 4
        (TEPXFOperator.fresh 2 4) (5 / 2) []).Alpha < 1 :=
  have h := C1_selection (fun x : ℚ => x) 1 (fun _ o _ _ => o) 2 4 (by decide) (5 / 2)
    (TEPXFOperator.fresh 2 4) [] (Or.inl rfl)
  ⟨by decide, h.1, h.2.2.2.2.1⟩

end C1

/-! ## Closed form of `DetermineGains` -/

section DetermineGainsLemmas

variable {α : Type} [LinearOrderedField α]

theorem DetermineGains_frame (Cos : α → α) (HALF_PI : α) (h : TEPXFHelper α) (ia ib : ℤ)
    (alpha : α) :
    (DetermineGains Cos HALF_PI h ia ib alpha).PrevGains = h.PrevGains ∧
    (DetermineGains Cos HALF_PI h ia ib alpha).InputAmount = h.InputAmount ∧
    (DetermineGains Cos HALF_PI h ia ib alpha).NumFramesPerBlock = h.NumFramesPerBlock :=
  foldl_gainStep_frame _ _ _ _ _ _

theorem DetermineGains_currentGains_getElem? (Cos : α → α) (HALF_PI : α) (h : TEPXFHelper α)
    (ia ib : ℤ) (alpha : α) (j : ℕ) :
    (DetermineGains Cos HALF_PI h ia ib alpha).CurrentGains[j]? =
      if j < h.InputAmount then
        h.CurrentGains[j]?.map
          (fun _ => gainOf ia ib (EPXFValueA Cos HALF_PI alpha) (EPXFValueB Cos HALF_PI alpha) j)
      else h.CurrentGains[j]? := by
  unfold DetermineGains
  rw [foldl_gainStep_currentGains]
  simp only [List.mem_range]

theorem DetermineGains_needsMixing_getElem? (Cos : α → α) (HALF_PI : α) (h : TEPXFHelper α)
    (ia ib : ℤ) (alpha : α) (j : ℕ) :
    (DetermineGains Cos HALF_PI h ia ib alpha).NeedsMixing[j]? =
      if j < h.InputAmount then h.NeedsMixing[j]?.map (flagOf ia ib h.PrevGains j)
      else h.NeedsMixing[j]? := by
  unfold DetermineGains
  rw [foldl_gainStep_needsMixing]
  simp only [List.mem_range]

/-- With `InputAmount` entries in `CurrentGains`, the first loop overwrites every one of them. -/
theorem DetermineGains_currentGains (Cos : α → α) (HALF_PI : α) (h : TEPXFHelper α)
    (ia ib : ℤ) (alpha : α) (hlen : h.CurrentGains.length = h.InputAmount) :
    (DetermineGains Cos HALF_PI h ia ib alpha).CurrentGains =
      (List.range h.InputAmount).map
        (gainOf ia ib (EPXFValueA Cos HALF_PI alpha) (EPXFValueB Cos HALF_PI alpha)) := by
  apply List.ext_getElem?
  intro j
  rw [DetermineGains_currentGains_getElem?, List.getElem?_map]
  by_cases hj : j < h.InputAmount
  · have hj2 : j < h.CurrentGains.length := hlen ▸ hj
    simp [hj, List.getElem?_range hj, List.getElem?_eq_getElem hj2]
  · have hj2 : h.CurrentGains.length ≤ j := by omega
    simp [hj, List.getElem?_eq_none hj2, List.getElem?_eq_none (l := List.range h.InputAmount)
      (by simpa using not_lt.mp hj)]

/-- With `InputAmount` entries in `NeedsMixing`, the first loop passes over every one of them. -/
theorem DetermineGains_needsMixing (Cos : α → α) (HALF_PI : α) (h : TEPXFHelper α)
    (ia ib : ℤ) (alpha : α) (hlen : h.NeedsMixing.length = h.InputAmount) :
    (DetermineGains Cos HALF_PI h ia ib alpha).NeedsMixing =
      (List.range h.InputAmount).map
        (fun j => flagOf ia ib h.PrevGains j (h.NeedsMixing.getD j false)) := by
  apply List.ext_getElem?
  intro j
  rw [DetermineGains_needsMixing_getElem?, List.getElem?_map]
  by_cases hj : j < h.InputAmount
  · have hj2 : j < h.NeedsMixing.length := hlen ▸ hj
    simp [hj, List.getElem?_range hj, List.getElem?_eq_getElem hj2, List.getD_eq_getElem?_getD]
  · have hj2 : h.NeedsMixing.length ≤ j := by omega
    simp [hj, List.getElem?_eq_none hj2, List.getElem?_eq_none (l := List.range h.InputAmount)
      (by simpa using not_lt.mp hj)]

end DetermineGainsLemmas

/-! ## C2, C3 -/

section EqualPowerCurve

theorem cos_quarter_mem (alpha : ℝ) (h0 : 0 ≤ alpha) (h1 : alpha ≤ 1) :
    0 ≤ Real.cos (alpha * (Real.pi / 2)) ∧ Real.cos (alpha * (Real.pi / 2)) ≤ 1 := by
  have hpi := Real.pi_pos
  refine ⟨Real.cos_nonneg_of_mem_Icc ⟨?_, ?_⟩, Real.cos_le_one _⟩
  · have : 0 ≤ alpha * (Real.pi / 2) := by positivity
    linarith
  · nlinarith

theorem EPXFValueA_real (alpha : ℝ) (h0 : 0 ≤ alpha) (h1 : alpha ≤ 1) :
    EPXFValueA Real.cos (Real.pi / 2) alpha = Real.cos (alpha * (Real.pi / 2)) := by
  obtain ⟨a, b⟩ := cos_quarter_mem alpha h0 h1
  exact Clamp_of_mem a b

theorem EPXFValueB_real (alpha : ℝ) (h0 : 0 ≤ alpha) (h1 : alpha ≤ 1) :
    EPXFValueB Real.cos (Real.pi / 2) alpha = Real.sin (alpha * (Real.pi / 2)) := by
  obtain ⟨a, b⟩ := cos_quarter_mem (1 - alpha) (by linarith) (by linarith)
  unfold EPXFValueB
  rw [Clamp_of_mem a b, ← Real.cos_pi_div_two_sub]
  congr 1
  ring

/-- C2. Equal-power curve: for every `alpha` in `[0, 1]` the two gains
`clamp(cos(alpha*pi/2), 0, 1)` and `clamp(cos((1-alpha)*pi/2), 0, 1)` computed in
`GetCrossfadeOutput`, and the two target gains that `FEPXFOperator::Execute` computes with the
same expressions for a changed control value `alpha`, have squares that sum to `1`
(exact real arithmetic). -/
theorem C2_equal_power (alpha : ℝ) (h0 : 0 ≤ alpha) (h1 : alpha ≤ 1) :
    EPXFValueA Real.cos (Real.pi / 2) alpha = Clamp (Real.cos (alpha * (Real.pi / 2))) 0 1 ∧
    EPXFValueB Real.cos (Real.pi / 2) alpha
      = Clamp (Real.cos ((1 - alpha) * (Real.pi / 2))) 0 1 ∧
    EPXFValueA Real.cos (Real.pi / 2) alpha ^ 2 + EPXFValueB Real.cos (Real.pi / 2) alpha ^ 2
      = 1 ∧
    ∀ (ArrayMixIn : List ℝ → List ℝ → ℝ → ℝ → List ℝ) (s : FEPXFOperator ℝ) (In1 In2 : List ℝ),
      alpha ≠ s.FloatInPrev →
      (s.Execute Real.cos (Real.pi / 2) ArrayMixIn alpha In1 In2).SignalOneFloat
        = EPXFValueA Real.cos (Real.pi / 2) alpha ∧
      (s.Execute Real.cos (Real.pi / 2) ArrayMixIn alpha In1 In2).SignalTwoFloat
        = EPXFValueB Real.cos (Real.pi / 2) alpha ∧
      (s.Execute Real.cos (Real.pi / 2) ArrayMixIn alpha In1 In2).SignalOneFloat ^ 2
        + (s.Execute Real.cos (Real.pi / 2) ArrayMixIn alpha In1 In2).SignalTwoFloat ^ 2 = 1 := by
  have hsum : EPXFValueA Real.cos (Real.pi / 2) alpha ^ 2
      + EPXFValueB Real.cos (Real.pi / 2) alpha ^ 2 = 1 := by
    rw [EPXFValueA_real alpha h0 h1, EPXFValueB_real alpha h0 h1]
    exact Real.cos_sq_add_sin_sq _
  refine ⟨rfl, rfl, hsum, ?_⟩
  intro mix s In1 In2 hne
  have e1 : (s.Execute Real.cos (Real.pi / 2) mix alpha In1 In2).SignalOneFloat
      = EPXFValueA Real.cos (Real.pi / 2) alpha := by
    simp [FEPXFOperator.Execute, hne, EPXFValueA]
  have e2 : (s.Execute Real.cos (Real.pi / 2) mix alpha In1 In2).SignalTwoFloat
      = EPXFValueB Real.cos (Real.pi / 2) alpha := by
    simp [FEPXFOperator.Execute, hne, EPXFValueB]
  exact ⟨e1, e2, by rw [e1, e2]; exact hsum⟩

/-- Witness of C2 at `alpha = 1/2`. -/
theorem C2_equal_power_witness :
    (0 : ℝ) ≤ 1 / 2 ∧ (1 / 2 : ℝ) ≤ 1 ∧
    EPXFValueA Real.cos (Real.pi / 2) (1 / 2) ^ 2
      + EPXFValueB Real.cos (Real.pi / 2) (1 / 2) ^ 2 = 1 :=
  ⟨by norm_num, by norm_num, (C2_equal_power (1 / 2) (by norm_num) (by norm_num)).2.2.1⟩

end EqualPowerCurve

section Symmetry

variable {α : Type} [LinearOrderedField α]

/-- C3. Equal-power curve bounds and symmetry: for all `alpha` in `[0, 1]` both gains of the
equal-power curve lie in `[0, 1]`, and `gainA(alpha) = gainB(1 - alpha)`.  It holds for every
cosine routine `Cos` and constant `HALF_PI`, in particular for `Real.cos` and `Real.pi / 2`. -/
theorem C3_bounds_symmetry (Cos : α → α) (HALF_PI alpha : α) (_h0 : 0 ≤ alpha)
    (_h1 : alpha ≤ 1) :
    (0 ≤ EPXFValueA Cos HALF_PI alpha ∧ EPXFValueA Cos HALF_PI alpha ≤ 1) ∧
    (0 ≤ EPXFValueB Cos HALF_PI alpha ∧ EPXFValueB Cos HALF_PI alpha ≤ 1) ∧
    EPXFValueA Cos HALF_PI alpha = EPXFValueB Cos HALF_PI (1 - alpha) := by
  refine ⟨⟨Clamp_ge, Clamp_le zero_le_one⟩, ⟨Clamp_ge, Clamp_le zero_le_one⟩, ?_⟩
  unfold EPXFValueA EPXFValueB
  rw [sub_sub_cancel]

/-- Witness of C3 at `alpha = 1/4` with the real cosine. -/
theorem C3_bounds_symmetry_witness :
    (0 : ℝ) ≤ 1 / 4 ∧ (1 / 4 : ℝ) ≤ 1 ∧
    EPXFValueA Real.cos (Real.pi / 2) (1 / 4) = EPXFValueB Real.cos (Real.pi / 2) (1 - 1 / 4) :=
  ⟨by norm_num, by norm_num,
    (C3_bounds_symmetry Real.cos (Real.pi / 2) (1 / 4) (by norm_num) (by norm_num)).2.2⟩

end Symmetry

/-! ## C4 -/

section Hold
variable {α : Type} [LinearOrderedField α] [FloorRing α]

theorem UpdateSelection_idem (N : ℕ) (s : TEPXFOperator α) (c : α) :
    UpdateSelection N (UpdateSelection N s c) c = UpdateSelection N s c := by
  cases hne : IsNearlyEqual (Clamp c 0 (((N : ℤ) - 1 : ℤ) : α)) s.PrevCrossfadeValue
  · rw [UpdateSelection_of_change N s c hne]
    exact UpdateSelection_of_same N _ c (IsNearlyEqual_self _)
  · rw [UpdateSelection_of_same N s c hne]
    exact UpdateSelection_of_same N s c hne

theorem PerformCrossfadeOutput_UpdateSelection (Cos : α → α) (HALF_PI : α)
    (ArrayMixIn : List α → List α → α → α → List α) (N : ℕ) (s : TEPXFOperator α) (c : α)
    (In : List (List α)) :
    PerformCrossfadeOutput Cos HALF_PI ArrayMixIn N (UpdateSelection N s c) c In
      = PerformCrossfadeOutput Cos HALF_PI ArrayMixIn N s c In := by
  unfold PerformCrossfadeOutput
  rw [UpdateSelection_idem]

theorem PerformCrossfadeOutput_outputs (Cos : α → α) (HALF_PI : α)
    (ArrayMixIn : List α → List α → α → α → List α) (N : ℕ) (s : TEPXFOperator α) (c : α)
    (In : List (List α)) :
    (PerformCrossfadeOutput Cos HALF_PI ArrayMixIn N s c In).Crossfader =
      { DetermineGains Cos HALF_PI (UpdateSelection N s c).Crossfader
          (UpdateSelection N s c).IndexA (UpdateSelection N s c).IndexB
          (UpdateSelection N s c).Alpha with
        PrevGains := (DetermineGains Cos HALF_PI (UpdateSelection N s c).Crossfader
          (UpdateSelection N s c).IndexA (UpdateSelection N s c).IndexB
          (UpdateSelection N s c).Alpha).CurrentGains } ∧
    (PerformCrossfadeOutput Cos HALF_PI ArrayMixIn N s c In).OutputValue =
      MixInputs ArrayMixIn In
        (DetermineGains Cos HALF_PI (UpdateSelection N s c).Crossfader
          (UpdateSelection N s c).IndexA (UpdateSelection N s c).IndexB
          (UpdateSelection N s c).Alpha)
        (List.replicate (UpdateSelection N s c).OutputValue.length 0) :=
  ⟨rfl, rfl⟩

/-- The selection is kept by a call whose control value is nearly equal to the stored one. -/
theorem UpdateSelection_PerformCrossfadeOutput (Cos : α → α) (HALF_PI : α)
    (ArrayMixIn : List α → List α → α → α → List α) (N : ℕ) (s : TEPXFOperator α) (c : α)
    (In : List (List α)) :
    UpdateSelection N (PerformCrossfadeOutput Cos HALF_PI ArrayMixIn N s c In) c
      = PerformCrossfadeOutput Cos HALF_PI ArrayMixIn N s c In := by
  apply UpdateSelection_of_same
  rw [(PerformCrossfadeOutput_fields Cos HALF_PI ArrayMixIn N s c In).2.2.2]
  cases hne : IsNearlyEqual (Clamp c 0 (((N : ℤ) - 1 : ℤ) : α)) s.PrevCrossfadeValue
  · rw [UpdateSelection_of_change N s c hne]
    exact IsNearlyEqual_self _
  · rw [UpdateSelection_of_same N s c hne]
    exact hne

end Hold

section C4

theorem EPXFValueA_zero : EPXFValueA Real.cos (Real.pi / 2) 0 = 1 := by
  simp [EPXFValueA, Clamp]

theorem EPXFValueB_zero : EPXFValueB Real.cos (Real.pi / 2) 0 = 0 := by
  simp [EPXFValueB, Clamp]

/-- One block of the four-input crossfader held on channel 3. -/
theorem hold3_step (ArrayMixIn : List ℝ → List ℝ → ℝ → ℝ → List ℝ) (F : ℕ)
    (s : TEPXFOperator ℝ) (In : List (List ℝ)) (p : ℝ) (b : Bool)
    (hU : UpdateSelection 4 s 3 = s)
    (hA : s.IndexA = 3) (hB : s.IndexB = 3) (hα : s.Alpha = 0)
    (hn : s.Crossfader.InputAmount = 4) (hF : s.Crossfader.NumFramesPerBlock = F)
    (hC : s.Crossfader.CurrentGains.length = 4)
    (hP : s.Crossfader.PrevGains = [0, 0, 0, p])
    (hM : s.Crossfader.NeedsMixing = [false, false, false, b]) :
    UpdateSelection 4 (PerformCrossfadeOutput Real.cos (Real.pi / 2) ArrayMixIn 4 s 3 In) 3
      = PerformCrossfadeOutput Real.cos (Real.pi / 2) ArrayMixIn 4 s 3 In ∧
    (PerformCrossfadeOutput Real.cos (Real.pi / 2) ArrayMixIn 4 s 3 In).IndexA = 3 ∧
    (PerformCrossfadeOutput Real.cos (Real.pi / 2) ArrayMixIn 4 s 3 In).IndexB = 3 ∧
    (PerformCrossfadeOutput Real.cos (Real.pi / 2) ArrayMixIn 4 s 3 In).Alpha = 0 ∧
    (PerformCrossfadeOutput Real.cos (Real.pi / 2) ArrayMixIn 4 s 3 In).Crossfader.InputAmount
      = 4 ∧
    (PerformCrossfadeOutput Real.cos (Real.pi / 2) ArrayMixIn 4 s 3
      In).Crossfader.NumFramesPerBlock = F ∧
    (PerformCrossfadeOutput Real.cos (Real.pi / 2) ArrayMixIn 4 s 3 In).Crossfader.CurrentGains
      = [0, 0, 0, 1] ∧
    (PerformCrossfadeOutput Real.cos (Real.pi / 2) ArrayMixIn 4 s 3 In).Crossfader.PrevGains
      = [0, 0, 0, 1] ∧
    (PerformCrossfadeOutput Real.cos (Real.pi / 2) ArrayMixIn 4 s 3 In).Crossfader.NeedsMixing
      = [false, false, false, true] ∧
    (PerformCrossfadeOutput Real.cos (Real.pi / 2) ArrayMixIn 4 s 3 In).OutputValue
      = ArrayMixIn ((In.getD 3 []).take F) (List.replicate s.OutputValue.length 0) p 1 := by
  have hfr := DetermineGains_frame Real.cos (Real.pi / 2) s.Crossfader 3 3 0
  have hcur : (DetermineGains Real.cos (Real.pi / 2) s.Crossfader 3 3 0).CurrentGains
      = [0, 0, 0, 1] := by
    rw [DetermineGains_currentGains _ _ _ _ _ _ (hC.trans hn.symm), hn, EPXFValueA_zero,
      EPXFValueB_zero]
    simp [List.range_succ, gainOf]
  have hmix : (DetermineGains Real.cos (Real.pi / 2) s.Crossfader 3 3 0).NeedsMixing
      = [false, false, false, true] := by
    rw [DetermineGains_needsMixing _ _ _ _ _ _ (by rw [hM, hn]; rfl), hn, hP, hM]
    simp [List.range_succ, flagOf]
  obtain ⟨e1, e2, e3, -⟩ := PerformCrossfadeOutput_fields Real.cos (Real.pi / 2) ArrayMixIn 4 s 3 In
  obtain ⟨g1, g2⟩ := PerformCrossfadeOutput_outputs Real.cos (Real.pi / 2) ArrayMixIn 4 s 3 In
  rw [hU, hA, hB, hα] at g1 g2
  rw [hU] at e1 e2 e3
  refine ⟨UpdateSelection_PerformCrossfadeOutput _ _ _ _ _ _ _, e1.trans hA, e2.trans hB,
    e3.trans hα, ?_, ?_, ?_, ?_, ?_, ?_⟩
  · rw [g1]; exact hfr.2.1.trans hn
  · rw [g1]; exact hfr.2.2.trans hF
  · rw [g1]; exact hcur
  · rw [g1]; exact hcur
  · rw [g1]; exact hmix
  · rw [g2]
    unfold MixInputs
    rw [hfr.2.1, hn]
    simp [List.range_succ, mixStep, hmix, hcur, hfr.1, hP, hfr.2.2, hF]

/-- The selection stored by the constructor call for four inputs and control value `3`. -/
theorem fresh_selection3 (F : ℕ) :
    UpdateSelection 4 (TEPXFOperator.fresh F 4 : TEPXFOperator ℝ) 3 =
      { (TEPXFOperator.fresh F 4 : TEPXFOperator ℝ) with
        PrevCrossfadeValue := 3, IndexA := 3, IndexB := 3, Alpha := 0 } := by
  have hcc : Clamp (3 : ℝ) 0 ((((4 : ℕ) : ℤ) - 1 : ℤ) : ℝ) = 3 := by
    apply Clamp_of_mem <;> norm_num
  have hfl : ⌊(3 : ℝ)⌋ = 3 := by
    have : (3 : ℝ) = ((3 : ℤ) : ℝ) := by norm_num
    rw [this, Int.floor_intCast]
  rw [UpdateSelection_of_change 4 _ 3 (fresh_detects_change F 4 3), hcc, hfl, Clamp_intCast,
    TruncToInt_intCast]
  have h3 : max (min ((3 : ℤ) + 1) (((4 : ℕ) : ℤ) - 1)) 0 = 3 := by decide
  rw [h3]
  norm_num

/-- The hold on channel 3 is kept by every further block with control value `3`. -/
theorem hold3_run (ArrayMixIn : List ℝ → List ℝ → ℝ → ℝ → List ℝ) (F : ℕ)
    (Ins : List (List (List ℝ))) (s : TEPXFOperator ℝ)
    (hs : s.IndexA = 3 ∧ s.IndexB = 3 ∧ s.Alpha = 0 ∧
      s.Crossfader = ⟨4, F, [0, 0, 0, 1], [0, 0, 0, 1], [false, false, false, true]⟩ ∧
      UpdateSelection 4 s 3 = s) :
    (Ins.foldl (fun t In => TEPXFOperator.Execute Real.cos (Real.pi / 2) ArrayMixIn 4 t 3 In)
        s).IndexA = 3 ∧
    (Ins.foldl (fun t In => TEPXFOperator.Execute Real.cos (Real.pi / 2) ArrayMixIn 4 t 3 In)
        s).IndexB = 3 ∧
    (Ins.foldl (fun t In => TEPXFOperator.Execute Real.cos (Real.pi / 2) ArrayMixIn 4 t 3 In)
        s).Alpha = 0 ∧
    (Ins.foldl (fun t In => TEPXFOperator.Execute Real.cos (Real.pi / 2) ArrayMixIn 4 t 3 In)
        s).Crossfader = ⟨4, F, [0, 0, 0, 1], [0, 0, 0, 1], [false, false, false, true]⟩ ∧
    UpdateSelection 4
      (Ins.foldl (fun t In => TEPXFOperator.Execute Real.cos (Real.pi / 2) ArrayMixIn 4 t 3 In)
        s) 3 =
      Ins.foldl (fun t In => TEPXFOperator.Execute Real.cos (Real.pi / 2) ArrayMixIn 4 t 3 In)
        s := by
  induction Ins generalizing s with
  | nil => exact hs
  | cons In rest ih =>
    rw [List.foldl_cons]
    apply ih
    obtain ⟨hA, hB, hα, hC, hU⟩ := hs
    obtain ⟨k0, k1, k2, k3, k4, k5, k6, k7, k8, -⟩ :=
      hold3_step ArrayMixIn F s In 1 true hU hA hB hα (by rw [hC]) (by rw [hC]) (by rw [hC]; rfl)
        (by rw [hC]) (by rw [hC])
    refine ⟨k1, k2, k3, ?_, k0⟩
    unfold TEPXFOperator.Execute
    generalize (PerformCrossfadeOutput Real.cos (Real.pi / 2) ArrayMixIn 4 s 3 In).Crossfader
      = h at k4 k5 k6 k7 k8
    cases h
    simp only at k4 k5 k6 k7 k8
    simp only [k4, k5, k6, k7, k8]

/-- C4. Boundary scenario: a four-input crossfader constructed with control value `3`, and
then executed any number of times with control value `3`, has `IndexA = 3`, `IndexB = 3`,
`Alpha = 0`, `CurrentGains = [0, 0, 0, 1]` and only channel 3 flagged in `NeedsMixing`.  The
output buffer of the constructor call is channel 3 alone mixed into the zeroed buffer (ramp
`0 → 1`), and so is the output buffer of every later `Execute` (ramp `1 → 1`): channels 0, 1, 2
are not mixed in. -/
theorem C4_boundary (ArrayMixIn : List ℝ → List ℝ → ℝ → ℝ → List ℝ) (F : ℕ)
    (In0 : List (List ℝ)) (Ins : List (List (List ℝ))) :
    ((Ins.foldl (fun t In => TEPXFOperator.Execute Real.cos (Real.pi / 2) ArrayMixIn 4 t 3 In)
        (TEPXFOperator.construct Real.cos (Real.pi / 2) ArrayMixIn F 4 3 In0)).IndexA = 3 ∧
     (Ins.foldl (fun t In => TEPXFOperator.Execute Real.cos (Real.pi / 2) ArrayMixIn 4 t 3 In)
        (TEPXFOperator.construct Real.cos (Real.pi / 2) ArrayMixIn F 4 3 In0)).IndexB = 3 ∧
     (Ins.foldl (fun t In => TEPXFOperator.Execute Real.cos (Real.pi / 2) ArrayMixIn 4 t 3 In)
        (TEPXFOperator.construct Real.cos (Real.pi / 2) ArrayMixIn F 4 3 In0)).Alpha = 0 ∧
     (Ins.foldl (fun t In => TEPXFOperator.Execute Real.cos (Real.pi / 2) ArrayMixIn 4 t 3 In)
        (TEPXFOperator.construct Real.cos (Real.pi / 2) ArrayMixIn F 4 3
          In0)).Crossfader.CurrentGains = [0, 0, 0, 1] ∧
     (Ins.foldl (fun t In => TEPXFOperator.Execute Real.cos (Real.pi / 2) ArrayMixIn 4 t 3 In)
        (TEPXFOperator.construct Real.cos (Real.pi / 2) ArrayMixIn F 4 3
          In0)).Crossfader.NeedsMixing = [false, false, false, true]) ∧
    (TEPXFOperator.construct Real.cos (Real.pi / 2) ArrayMixIn F 4 3 In0).OutputValue
      = ArrayMixIn ((In0.getD 3 []).take F) (List.replicate F 0) 0 1 ∧
    ∀ In : List (List ℝ),
      (TEPXFOperator.Execute Real.cos (Real.pi / 2) ArrayMixIn 4
        (Ins.foldl (fun t In => TEPXFOperator.Execute Real.cos (Real.pi / 2) ArrayMixIn 4 t 3 In)
          (TEPXFOperator.construct Real.cos (Real.pi / 2) ArrayMixIn F 4 3 In0)) 3
        In).OutputValue
      = ArrayMixIn ((In.getD 3 []).take F)
          (List.replicate
            (Ins.foldl
              (fun t In => TEPXFOperator.Execute Real.cos (Real.pi / 2) ArrayMixIn 4 t 3 In)
              (TEPXFOperator.construct Real.cos (Real.pi / 2) ArrayMixIn F 4 3
                In0)).OutputValue.length 0) 1 1 := by
  have hc : TEPXFOperator.construct Real.cos (Real.pi / 2) ArrayMixIn F 4 3 In0
      = PerformCrossfadeOutput Real.cos (Real.pi / 2) ArrayMixIn 4
          (UpdateSelection 4 (TEPXFOperator.fresh F 4) 3) 3 In0 := by
    unfold TEPXFOperator.construct
    rw [PerformCrossfadeOutput_UpdateSelection]
  obtain ⟨k0, k1, k2, k3, k4, k5, k6, k7, k8, k9⟩ :=
    hold3_step ArrayMixIn F (UpdateSelection 4 (TEPXFOperator.fresh F 4) 3) In0 0 false
      (UpdateSelection_idem 4 _ 3) (by rw [fresh_selection3]) (by rw [fresh_selection3])
      (by rw [fresh_selection3]) (by rw [fresh_selection3]; rfl) (by rw [fresh_selection3]; rfl)
      (by rw [fresh_selection3]; rfl) (by rw [fresh_selection3]; rfl)
      (by rw [fresh_selection3]; rfl)
  rw [← hc] at k0 k1 k2 k3 k4 k5 k6 k7 k8 k9
  have hpost : (TEPXFOperator.construct Real.cos (Real.pi / 2) ArrayMixIn F 4 3 In0).Crossfader
      = ⟨4, F, [0, 0, 0, 1], [0, 0, 0, 1], [false, false, false, true]⟩ := by
    generalize (TEPXFOperator.construct Real.cos (Real.pi / 2) ArrayMixIn F 4 3 In0).Crossfader
      = h at k4 k5 k6 k7 k8
    cases h
    simp only at k4 k5 k6 k7 k8
    simp only [k4, k5, k6, k7, k8]
  obtain ⟨r1, r2, r3, r4, r5⟩ := hold3_run ArrayMixIn F Ins _ ⟨k1, k2, k3, hpost, k0⟩
  refine ⟨⟨r1, r2, r3, by rw [r4], by rw [r4]⟩, ?_, ?_⟩
  · rw [k9, fresh_selection3]
    simp [TEPXFOperator.fresh]
  · intro In
    exact (hold3_step ArrayMixIn F _ In 1 true r5 r1 r2 r3 (by rw [r4]) (by rw [r4])
      (by rw [r4]; rfl) (by rw [r4]) (by rw [r4])).2.2.2.2.2.2.2.2.2

end C4

/-! ## C5, C6 -/

section Continuity

variable {α : Type} [LinearOrderedField α]

theorem DetermineGains_currentGains_congr (Cos : α → α) (HALF_PI : α) (h h' : TEPXFHelper α)
    (ia ib : ℤ) (alpha : α) (hn : h'.InputAmount = h.InputAmount)
    (hc : h'.CurrentGains = h.CurrentGains) :
    (DetermineGains Cos HALF_PI h' ia ib alpha).CurrentGains
      = (DetermineGains Cos HALF_PI h ia ib alpha).CurrentGains := by
  apply List.ext_getElem?
  intro j
  rw [DetermineGains_currentGains_getElem?, DetermineGains_currentGains_getElem?, hn, hc]

theorem DetermineGains_currentGains_idem (Cos : α → α) (HALF_PI : α) (h : TEPXFHelper α)
    (ia ib : ℤ) (alpha : α) :
    (DetermineGains Cos HALF_PI (DetermineGains Cos HALF_PI h ia ib alpha) ia ib
        alpha).CurrentGains
      = (DetermineGains Cos HALF_PI h ia ib alpha).CurrentGains := by
  apply List.ext_getElem?
  intro j
  rw [DetermineGains_currentGains_getElem?, (DetermineGains_frame Cos HALF_PI h ia ib alpha).2.1,
    DetermineGains_currentGains_getElem?]
  by_cases hj : j < h.InputAmount
  · simp only [hj, if_true, Option.map_map]
    rfl
  · simp only [hj, if_false]

variable [FloorRing α]

/-- C5. Multi-input continuity: after every block (from any state, hence for every sequence of
control values) `PrevGains = CurrentGains`; in the next block the helper that the mixing loop
reads has, for every channel `i`, the start gain `PrevGains[i]` equal to the end gain
`CurrentGains[i]` of the block before, and the output of the next block is the mix of the
flagged channels with exactly those ramps. -/
theorem C5_continuity (Cos : α → α) (HALF_PI : α)
    (ArrayMixIn : List α → List α → α → α → List α) (N : ℕ) (s : TEPXFOperator α)
    (c1 c2 : α) (In1 In2 : List (List α)) (i : ℕ) :
    (TEPXFOperator.Execute Cos HALF_PI ArrayMixIn N s c1 In1).Crossfader.PrevGains
      = (TEPXFOperator.Execute Cos HALF_PI ArrayMixIn N s c1 In1).Crossfader.CurrentGains ∧
    (DetermineGains Cos HALF_PI
        (UpdateSelection N (TEPXFOperator.Execute Cos HALF_PI ArrayMixIn N s c1 In1) c2).Crossfader
        (UpdateSelection N (TEPXFOperator.Execute Cos HALF_PI ArrayMixIn N s c1 In1) c2).IndexA
        (UpdateSelection N (TEPXFOperator.Execute Cos HALF_PI ArrayMixIn N s c1 In1) c2).IndexB
        (UpdateSelection N (TEPXFOperator.Execute Cos HALF_PI ArrayMixIn N s c1 In1)
          c2).Alpha).PrevGains.getD i 0
      = (TEPXFOperator.Execute Cos HALF_PI ArrayMixIn N s c1 In1).Crossfader.CurrentGains.getD
          i 0 ∧
    (TEPXFOperator.Execute Cos HALF_PI ArrayMixIn N
        (TEPXFOperator.Execute Cos HALF_PI ArrayMixIn N s c1 In1) c2 In2).OutputValue
      = MixInputs ArrayMixIn In2
          (DetermineGains Cos HALF_PI
            (UpdateSelection N (TEPXFOperator.Execute Cos HALF_PI ArrayMixIn N s c1 In1)
              c2).Crossfader
            (UpdateSelection N (TEPXFOperator.Execute Cos HALF_PI ArrayMixIn N s c1 In1) c2).IndexA
            (UpdateSelection N (TEPXFOperator.Execute Cos HALF_PI ArrayMixIn N s c1 In1) c2).IndexB
            (UpdateSelection N (TEPXFOperator.Execute Cos HALF_PI ArrayMixIn N s c1 In1) c2).Alpha)
          (List.replicate
            (TEPXFOperator.Execute Cos HALF_PI ArrayMixIn N s c1 In1).OutputValue.length 0) := by
  have hcross : ∀ t : TEPXFOperator α, (UpdateSelection N t c2).Crossfader = t.Crossfader ∧
      (UpdateSelection N t c2).OutputValue = t.OutputValue := by
    intro t
    cases hne : IsNearlyEqual (Clamp c2 0 (((N : ℤ) - 1 : ℤ) : α)) t.PrevCrossfadeValue
    · rw [UpdateSelection_of_change N t c2 hne]
      exact ⟨rfl, rfl⟩
    · rw [UpdateSelection_of_same N t c2 hne]
      exact ⟨rfl, rfl⟩
  refine ⟨rfl, ?_, ?_⟩
  · rw [(DetermineGains_frame _ _ _ _ _ _).1, (hcross _).1]
    rfl
  · unfold TEPXFOperator.Execute
    rw [(PerformCrossfadeOutput_outputs Cos HALF_PI ArrayMixIn N _ c2 In2).2, (hcross _).2]

end Continuity

section Idempotence

variable {α : Type} [LinearOrderedField α] [FloorRing α]

/-- A state whose selection and gains are already those of control value `c` is reproduced by
every further block with control value `c`. -/
theorem idem_run (Cos : α → α) (HALF_PI : α)
    (ArrayMixIn : List α → List α → α → α → List α) (N : ℕ) (c : α)
    (Ins : List (List (List α))) (t : TEPXFOperator α)
    (hU : UpdateSelection N t c = t)
    (hS : (DetermineGains Cos HALF_PI t.Crossfader t.IndexA t.IndexB t.Alpha).CurrentGains
      = t.Crossfader.CurrentGains)
    (hP : t.Crossfader.PrevGains = t.Crossfader.CurrentGains) :
    (Ins.foldl (fun u In => TEPXFOperator.Execute Cos HALF_PI ArrayMixIn N u c In) t).IndexA
      = t.IndexA ∧
    (Ins.foldl (fun u In => TEPXFOperator.Execute Cos HALF_PI ArrayMixIn N u c In) t).IndexB
      = t.IndexB ∧
    (Ins.foldl (fun u In => TEPXFOperator.Execute Cos HALF_PI ArrayMixIn N u c In) t).Alpha
      = t.Alpha ∧
    (Ins.foldl (fun u In => TEPXFOperator.Execute Cos HALF_PI ArrayMixIn N u c In)
      t).Crossfader.PrevGains = t.Crossfader.PrevGains ∧
    (Ins.foldl (fun u In => TEPXFOperator.Execute Cos HALF_PI ArrayMixIn N u c In)
      t).Crossfader.CurrentGains = t.Crossfader.CurrentGains := by
  induction Ins generalizing t with
  | nil => exact ⟨rfl, rfl, rfl, rfl, rfl⟩
  | cons In rest ih =>
    rw [List.foldl_cons]
    obtain ⟨e1, e2, e3, -⟩ := PerformCrossfadeOutput_fields Cos HALF_PI ArrayMixIn N t c In
    obtain ⟨g1, -⟩ := PerformCrossfadeOutput_outputs Cos HALF_PI ArrayMixIn N t c In
    rw [hU] at e1 e2 e3 g1
    have hcur : (PerformCrossfadeOutput Cos HALF_PI ArrayMixIn N t c In).Crossfader.CurrentGains
        = t.Crossfader.CurrentGains := by rw [g1]; exact hS
    have hprev : (PerformCrossfadeOutput Cos HALF_PI ArrayMixIn N t c In).Crossfader.PrevGains
        = t.Crossfader.CurrentGains := by rw [g1]; exact hS
    have hamt : (PerformCrossfadeOutput Cos HALF_PI ArrayMixIn N t c In).Crossfader.InputAmount
        = t.Crossfader.InputAmount := by
      rw [g1]; exact (DetermineGains_frame _ _ _ _ _ _).2.1
    obtain ⟨r1, r2, r3, r4, r5⟩ := ih (PerformCrossfadeOutput Cos HALF_PI ArrayMixIn N t c In)
      (UpdateSelection_PerformCrossfadeOutput _ _ _ _ _ _ _)
      (by
        rw [e1, e2, e3, DetermineGains_currentGains_congr Cos HALF_PI t.Crossfader _ _ _ _ hamt
          hcur, hS, hcur])
      (by rw [hprev, hcur])
    unfold TEPXFOperator.Execute
    exact ⟨r1.trans e1, r2.trans e2, r3.trans e3, r4.trans (hprev.trans hP.symm), r5.trans hcur⟩

/-- C6. Multi-input idempotence: after one `Execute` with control value `c` (from any state),
every further `Execute` with the same `c` leaves `IndexA`, `IndexB`, `Alpha`, `PrevGains` and
`CurrentGains` unchanged, and `PrevGains = CurrentGains`. -/
theorem C6_idempotence (Cos : α → α) (HALF_PI : α)
    (ArrayMixIn : List α → List α → α → α → List α) (N : ℕ) (s : TEPXFOperator α) (c : α)
    (In1 : List (List α)) (Ins : List (List (List α))) :
    (Ins.foldl (fun u In => TEPXFOperator.Execute Cos HALF_PI ArrayMixIn N u c In)
      (TEPXFOperator.Execute Cos HALF_PI ArrayMixIn N s c In1)).IndexA
      = (TEPXFOperator.Execute Cos HALF_PI ArrayMixIn N s c In1).IndexA ∧
    (Ins.foldl (fun u In => TEPXFOperator.Execute Cos HALF_PI ArrayMixIn N u c In)
      (TEPXFOperator.Execute Cos HALF_PI ArrayMixIn N s c In1)).IndexB
      = (TEPXFOperator.Execute Cos HALF_PI ArrayMixIn N s c In1).IndexB ∧
    (Ins.foldl (fun u In => TEPXFOperator.Execute Cos HALF_PI ArrayMixIn N u c In)
      (TEPXFOperator.Execute Cos HALF_PI ArrayMixIn N s c In1)).Alpha
      = (TEPXFOperator.Execute Cos HALF_PI ArrayMixIn N s c In1).Alpha ∧
    (Ins.foldl (fun u In => TEPXFOperator.Execute Cos HALF_PI ArrayMixIn N u c In)
      (TEPXFOperator.Execute Cos HALF_PI ArrayMixIn N s c In1)).Crossfader.PrevGains
      = (TEPXFOperator.Execute Cos HALF_PI ArrayMixIn N s c In1).Crossfader.PrevGains ∧
    (Ins.foldl (fun u In => TEPXFOperator.Execute Cos HALF_PI ArrayMixIn N u c In)
      (TEPXFOperator.Execute Cos HALF_PI ArrayMixIn N s c In1)).Crossfader.CurrentGains
      = (TEPXFOperator.Execute Cos HALF_PI ArrayMixIn N s c In1).Crossfader.CurrentGains ∧
    (Ins.foldl (fun u In => TEPXFOperator.Execute Cos HALF_PI ArrayMixIn N u c In)
      (TEPXFOperator.Execute Cos HALF_PI ArrayMixIn N s c In1)).Crossfader.PrevGains
      = (Ins.foldl (fun u In => TEPXFOperator.Execute Cos HALF_PI ArrayMixIn N u c In)
        (TEPXFOperator.Execute Cos HALF_PI ArrayMixIn N s c In1)).Crossfader.CurrentGains := by
  obtain ⟨e1, e2, e3, -⟩ := PerformCrossfadeOutput_fields Cos HALF_PI ArrayMixIn N s c In1
  have hS : (DetermineGains Cos HALF_PI
      (PerformCrossfadeOutput Cos HALF_PI ArrayMixIn N s c In1).Crossfader
      (PerformCrossfadeOutput Cos HALF_PI ArrayMixIn N s c In1).IndexA
      (PerformCrossfadeOutput Cos HALF_PI ArrayMixIn N s c In1).IndexB
      (PerformCrossfadeOutput Cos HALF_PI ArrayMixIn N s c In1).Alpha).CurrentGains
      = (PerformCrossfadeOutput Cos HALF_PI ArrayMixIn N s c In1).Crossfader.CurrentGains := by
    rw [e1, e2, e3]
    rw [DetermineGains_currentGains_congr Cos HALF_PI
      (DetermineGains Cos HALF_PI (UpdateSelection N s c).Crossfader
        (UpdateSelection N s c).IndexA (UpdateSelection N s c).IndexB
        (UpdateSelection N s c).Alpha)
      (PerformCrossfadeOutput Cos HALF_PI ArrayMixIn N s c In1).Crossfader
      (UpdateSelection N s c).IndexA (UpdateSelection N s c).IndexB
      (UpdateSelection N s c).Alpha rfl rfl]
    exact DetermineGains_currentGains_idem _ _ _ _ _ _
  obtain ⟨r1, r2, r3, r4, r5⟩ := idem_run Cos HALF_PI ArrayMixIn N c Ins
    (PerformCrossfadeOutput Cos HALF_PI ArrayMixIn N s c In1)
    (UpdateSelection_PerformCrossfadeOutput _ _ _ _ _ _ _) hS rfl
  unfold TEPXFOperator.Execute at *
  refine ⟨r1, r2, r3, r4, r5, ?_⟩
  rw [r4, r5]
  rfl

end Idempotence

/-! ## C7, C8: the two-input crossfader -/

section TwoInput

variable {α : Type} [LinearOrderedField α]

/-- An `Execute` that sees a changed control value ends with the previous gains equal to the
target gains. -/
theorem FEPXFOperator.Execute_of_change (Cos : α → α) (HALF_PI : α)
    (ArrayMixIn : List α → List α → α → α → List α) (s : FEPXFOperator α) (c : α)
    (In1 In2 : List α) (hne : c ≠ s.FloatInPrev) :
    (s.Execute Cos HALF_PI ArrayMixIn c In1 In2).SignalOneFloat
      = Clamp (Cos (c * HALF_PI)) 0 1 ∧
    (s.Execute Cos HALF_PI ArrayMixIn c In1 In2).SignalTwoFloat
      = Clamp (Cos ((1 - c) * HALF_PI)) 0 1 ∧
    (s.Execute Cos HALF_PI ArrayMixIn c In1 In2).SignalOnePreviousGain
      = (s.Execute Cos HALF_PI ArrayMixIn c In1 In2).SignalOneFloat ∧
    (s.Execute Cos HALF_PI ArrayMixIn c In1 In2).SignalTwoPreviousGain
      = (s.Execute Cos HALF_PI ArrayMixIn c In1 In2).SignalTwoFloat ∧
    (s.Execute Cos HALF_PI ArrayMixIn c In1 In2).FloatInPrev = c := by
  simp [FEPXFOperator.Execute, hne]

/-- An `Execute` that sees the stored control value changes nothing but the output buffer. -/
theorem FEPXFOperator.Execute_of_same (Cos : α → α) (HALF_PI : α)
    (ArrayMixIn : List α → List α → α → α → List α) (s : FEPXFOperator α) (c : α)
    (In1 In2 : List α) (he : c = s.FloatInPrev) :
    (s.Execute Cos HALF_PI ArrayMixIn c In1 In2).SignalOneFloat = s.SignalOneFloat ∧
    (s.Execute Cos HALF_PI ArrayMixIn c In1 In2).SignalTwoFloat = s.SignalTwoFloat ∧
    (s.Execute Cos HALF_PI ArrayMixIn c In1 In2).SignalOnePreviousGain
      = s.SignalOnePreviousGain ∧
    (s.Execute Cos HALF_PI ArrayMixIn c In1 In2).SignalTwoPreviousGain
      = s.SignalTwoPreviousGain ∧
    (s.Execute Cos HALF_PI ArrayMixIn c In1 In2).FloatInPrev = s.FloatInPrev := by
  simp [FEPXFOperator.Execute, he]

/-- Once the previous gains equal the target gains, every further block keeps them equal. -/
theorem FEPXFOperator.run_prev_eq (Cos : α → α) (HALF_PI : α)
    (ArrayMixIn : List α → List α → α → α → List α)
    (blocks : List (α × List α × List α)) (s : FEPXFOperator α)
    (h1 : s.SignalOnePreviousGain = s.SignalOneFloat)
    (h2 : s.SignalTwoPreviousGain = s.SignalTwoFloat) :
    (blocks.foldl (fun t b => t.Execute Cos HALF_PI ArrayMixIn b.1 b.2.1 b.2.2)
      s).SignalOnePreviousGain
      = (blocks.foldl (fun t b => t.Execute Cos HALF_PI ArrayMixIn b.1 b.2.1 b.2.2)
        s).SignalOneFloat ∧
    (blocks.foldl (fun t b => t.Execute Cos HALF_PI ArrayMixIn b.1 b.2.1 b.2.2)
      s).SignalTwoPreviousGain
      = (blocks.foldl (fun t b => t.Execute Cos HALF_PI ArrayMixIn b.1 b.2.1 b.2.2)
        s).SignalTwoFloat := by
  induction blocks generalizing s with
  | nil => exact ⟨h1, h2⟩
  | cons b rest ih =>
    rw [List.foldl_cons]
    by_cases hne : b.1 = s.FloatInPrev
    · obtain ⟨e1, e2, e3, e4, -⟩ :=
        FEPXFOperator.Execute_of_same Cos HALF_PI ArrayMixIn s b.1 b.2.1 b.2.2 hne
      exact ih _ (by rw [e1, e3, h1]) (by rw [e2, e4, h2])
    · obtain ⟨-, -, e3, e4, -⟩ :=
        FEPXFOperator.Execute_of_change Cos HALF_PI ArrayMixIn s b.1 b.2.1 b.2.2 hne
      exact ih _ e3 e4

/-- A new operator whose first control value differs from the initialiser `1.1f` of
`FloatInPrev` has, after every block of every control sequence, previous gains equal to the
target gains. -/
theorem FEPXFOperator.run_from_construct (Cos : α → α) (HALF_PI : α)
    (ArrayMixIn : List α → List α → α → α → List α) (F : ℕ) (u1 u2 c : α) (In1 In2 : List α)
    (blocks : List (α × List α × List α)) (hc : c ≠ 11 / 10) :
    (blocks.foldl (fun t b => t.Execute Cos HALF_PI ArrayMixIn b.1 b.2.1 b.2.2)
      ((FEPXFOperator.construct F u1 u2).Execute Cos HALF_PI ArrayMixIn c In1
        In2)).SignalOnePreviousGain
      = (blocks.foldl (fun t b => t.Execute Cos HALF_PI ArrayMixIn b.1 b.2.1 b.2.2)
        ((FEPXFOperator.construct F u1 u2).Execute Cos HALF_PI ArrayMixIn c In1
          In2)).SignalOneFloat ∧
    (blocks.foldl (fun t b => t.Execute Cos HALF_PI ArrayMixIn b.1 b.2.1 b.2.2)
      ((FEPXFOperator.construct F u1 u2).Execute Cos HALF_PI ArrayMixIn c In1
        In2)).SignalTwoPreviousGain
      = (blocks.foldl (fun t b => t.Execute Cos HALF_PI ArrayMixIn b.1 b.2.1 b.2.2)
        ((FEPXFOperator.construct F u1 u2).Execute Cos HALF_PI ArrayMixIn c In1
          In2)).SignalTwoFloat := by
  obtain ⟨-, -, e3, e4, -⟩ := FEPXFOperator.Execute_of_change Cos HALF_PI ArrayMixIn
    (FEPXFOperator.construct F u1 u2) c In1 In2 hc
  exact FEPXFOperator.run_prev_eq Cos HALF_PI ArrayMixIn blocks _ e3 e4

/-- C7. Two-input crossfader, previous gains against target gains: when the first control
value is `1.1f`, the initialiser of `FloatInPrev`, the first `Execute` of a new operator sees no
change, computes no gains, and leaves the previous gains at `0` while the target gains are the
indeterminate start values `u1`, `u2` of the uninitialised members; for `u1 = 1` the previous
gain and the target gain differ after that `Execute`. -/
theorem C7_sentinel_first_block (Cos : α → α) (HALF_PI : α)
    (ArrayMixIn : List α → List α → α → α → List α) (F : ℕ) (u1 u2 : α) (In1 In2 : List α) :
    ((FEPXFOperator.construct F u1 u2).Execute Cos HALF_PI ArrayMixIn (11 / 10) In1
      In2).SignalOnePreviousGain = 0 ∧
    ((FEPXFOperator.construct F u1 u2).Execute Cos HALF_PI ArrayMixIn (11 / 10) In1
      In2).SignalOneFloat = u1 ∧
    ((FEPXFOperator.construct F u1 u2).Execute Cos HALF_PI ArrayMixIn (11 / 10) In1
      In2).SignalTwoPreviousGain = 0 ∧
    ((FEPXFOperator.construct F u1 u2).Execute Cos HALF_PI ArrayMixIn (11 / 10) In1
      In2).SignalTwoFloat = u2 ∧
    ((FEPXFOperator.construct F 1 u2).Execute Cos HALF_PI ArrayMixIn (11 / 10) In1
      In2).SignalOnePreviousGain
      ≠ ((FEPXFOperator.construct F 1 u2).Execute Cos HALF_PI ArrayMixIn (11 / 10) In1
        In2).SignalOneFloat := by
  have h : ∀ v1 : α, (11 / 10 : α) = (FEPXFOperator.construct F v1 u2).FloatInPrev :=
    fun _ => rfl
  obtain ⟨e1, e2, e3, e4, -⟩ := FEPXFOperator.Execute_of_same Cos HALF_PI ArrayMixIn
    (FEPXFOperator.construct F u1 u2) (11 / 10) In1 In2 (h u1)
  obtain ⟨f1, -, f3, -, -⟩ := FEPXFOperator.Execute_of_same Cos HALF_PI ArrayMixIn
    (FEPXFOperator.construct F 1 u2) (11 / 10) In1 In2 (h 1)
  refine ⟨e3, e1, e4, e2, ?_⟩
  rw [f1, f3]
  exact zero_ne_one

end TwoInput

section TwoInputReal

/-- C8. Two-input crossfader, control value outside `[0, 1]`: the control value is not
clamped.  On a new operator the control value `2` gives the target gains `(0, 0)`, while its
clamped value `clamp(2, 0, 1) = 1` gives `(0, 1)`. -/
theorem C8_control_not_clamped (ArrayMixIn : List ℝ → List ℝ → ℝ → ℝ → List ℝ) (F : ℕ)
    (u1 u2 : ℝ) (In1 In2 : List ℝ) :
    ((FEPXFOperator.construct F u1 u2).Execute Real.cos (Real.pi / 2) ArrayMixIn 2 In1
      In2).SignalOneFloat = 0 ∧
    ((FEPXFOperator.construct F u1 u2).Execute Real.cos (Real.pi / 2) ArrayMixIn 2 In1
      In2).SignalTwoFloat = 0 ∧
    Clamp (2 : ℝ) 0 1 = 1 ∧
    ((FEPXFOperator.construct F u1 u2).Execute Real.cos (Real.pi / 2) ArrayMixIn (Clamp 2 0 1)
      In1 In2).SignalOneFloat = 0 ∧
    ((FEPXFOperator.construct F u1 u2).Execute Real.cos (Real.pi / 2) ArrayMixIn (Clamp 2 0 1)
      In1 In2).SignalTwoFloat = 1 := by
  have hc : Clamp (2 : ℝ) 0 1 = 1 := Clamp_of_ge zero_le_one (by norm_num)
  have h2 : (2 : ℝ) ≠ (FEPXFOperator.construct F u1 u2).FloatInPrev := by
    show (2 : ℝ) ≠ 11 / 10
    norm_num
  have h1 : (1 : ℝ) ≠ (FEPXFOperator.construct F u1 u2).FloatInPrev := by
    show (1 : ℝ) ≠ 11 / 10
    norm_num
  obtain ⟨a1, a2, -⟩ := FEPXFOperator.Execute_of_change Real.cos (Real.pi / 2) ArrayMixIn
    (FEPXFOperator.construct F u1 u2) 2 In1 In2 h2
  obtain ⟨b1, b2, -⟩ := FEPXFOperator.Execute_of_change Real.cos (Real.pi / 2) ArrayMixIn
    (FEPXFOperator.construct F u1 u2) 1 In1 In2 h1
  rw [hc, a1, a2, b1, b2]
  have e1 : Real.cos (2 * (Real.pi / 2)) = -1 := by
    rw [show 2 * (Real.pi / 2) = Real.pi by ring]
    exact Real.cos_pi
  have e2 : Real.cos ((1 - 2) * (Real.pi / 2)) = 0 := by
    rw [show (1 - 2) * (Real.pi / 2) = -(Real.pi / 2) by ring, Real.cos_neg]
    exact Real.cos_pi_div_two
  have e3 : Real.cos (1 * (Real.pi / 2)) = 0 := by
    rw [one_mul]
    exact Real.cos_pi_div_two
  have e4 : Real.cos ((1 - 1) * (Real.pi / 2)) = 1 := by
    rw [sub_self, zero_mul]
    exact Real.cos_zero
  rw [e1, e2, e3, e4]
  refine ⟨?_, ?_, rfl, ?_, ?_⟩
  · exact Clamp_of_le (by norm_num)
  · exact Clamp_of_mem le_rfl zero_le_one
  · exact Clamp_of_mem le_rfl zero_le_one
  · exact Clamp_of_mem zero_le_one le_rfl

end TwoInputReal

/-! ## C9: two inputs as the case `N = 2` -/

section Specialization

/-- C9. Two-input is the `N = 2` specialisation: for every control value `c` in `[0, 1]`, a
two-input crossfader that sees `c` as a changed control value and a multi-input crossfader with
two inputs that detects `c` as a change (both hold for new operators) compute the same target
gains: `CurrentGains = [SignalOneFloat, SignalTwoFloat]`, over exact real arithmetic.  At
`c = 1` the multi-input crossfader selects `IndexA = IndexB = 1`. -/
theorem C9_two_input_specialization (ArrayMixIn : List ℝ → List ℝ → ℝ → ℝ → List ℝ) (c : ℝ)
    (h0 : 0 ≤ c) (h1 : c ≤ 1) (s2 : FEPXFOperator ℝ) (s : TEPXFOperator ℝ) (In1 In2 : List ℝ)
    (In : List (List ℝ)) (hchg2 : c ≠ s2.FloatInPrev)
    (hchg : IsNearlyEqual c s.PrevCrossfadeValue = false)
    (hn : s.Crossfader.InputAmount = 2) (hlen : s.Crossfader.CurrentGains.length = 2) :
    (PerformCrossfadeOutput Real.cos (Real.pi / 2) ArrayMixIn 2 s c In).Crossfader.CurrentGains
      = [(s2.Execute Real.cos (Real.pi / 2) ArrayMixIn c In1 In2).SignalOneFloat,
         (s2.Execute Real.cos (Real.pi / 2) ArrayMixIn c In1 In2).SignalTwoFloat] ∧
    (c = 1 →
      (PerformCrossfadeOutput Real.cos (Real.pi / 2) ArrayMixIn 2 s c In).IndexA = 1 ∧
      (PerformCrossfadeOutput Real.cos (Real.pi / 2) ArrayMixIn 2 s c In).IndexB = 1) := by
  have hcc : Clamp c 0 ((((2 : ℕ) : ℤ) - 1 : ℤ) : ℝ) = c := by
    apply Clamp_of_mem h0
    norm_num
    exact h1
  have hne : IsNearlyEqual (Clamp c 0 ((((2 : ℕ) : ℤ) - 1 : ℤ) : ℝ)) s.PrevCrossfadeValue
      = false := by rw [hcc]; exact hchg
  obtain ⟨-, -, -, f1, -⟩ := selection_facts (α := ℝ) 2 (by decide) c
  rw [hcc] at f1
  obtain ⟨e1, e2, -, -⟩ := PerformCrossfadeOutput_fields Real.cos (Real.pi / 2) ArrayMixIn 2 s c In
  obtain ⟨g1, -⟩ := PerformCrossfadeOutput_outputs Real.cos (Real.pi / 2) ArrayMixIn 2 s c In
  obtain ⟨a1, a2, -⟩ := FEPXFOperator.Execute_of_change Real.cos (Real.pi / 2) ArrayMixIn s2 c
    In1 In2 hchg2
  rw [UpdateSelection_of_change 2 s c hne, hcc] at e1 e2 g1
  simp only [] at e1 e2 g1
  rw [f1] at e2 g1
  rw [e1, e2, g1, a1, a2]
  simp only []
  rw [DetermineGains_currentGains _ _ _ _ _ _ (hlen.trans hn.symm), hn]
  rcases h1.lt_or_eq with hlt | heq
  · have hfl : ⌊c⌋ = 0 := Int.floor_eq_zero_iff.mpr ⟨h0, hlt⟩
    rw [hfl]
    refine ⟨?_, fun h => absurd h hlt.ne⟩
    simp [List.range_succ, gainOf, EPXFValueA, EPXFValueB]
  · subst heq
    have hfl : ⌊(1 : ℝ)⌋ = 1 := Int.floor_one
    rw [hfl]
    refine ⟨?_, fun _ => ⟨rfl, by decide⟩⟩
    have hA := EPXFValueA_zero
    simp [List.range_succ, gainOf, hA, Clamp]

/-- Witness of C9: new operators and the control value `1/2`. -/
theorem C9_two_input_specialization_witness :
    (PerformCrossfadeOutput Real.cos (Real.pi / 2) (fun _ o _ _ => o) 2
      (TEPXFOperator.fresh 1 2) (1 / 2) []).Crossfader.CurrentGains
      = [((FEPXFOperator.construct 1 0 0).Execute Real.cos (Real.pi / 2) (fun _ o _ _ => o)
           (1 / 2) [] []).SignalOneFloat,
         ((FEPXFOperator.construct 1 0 0).Execute Real.cos (Real.pi / 2) (fun _ o _ _ => o)
           (1 / 2) [] []).SignalTwoFloat] :=
  (C9_two_input_specialization (fun _ o _ _ => o) (1 / 2) (by norm_num) (by norm_num)
    (FEPXFOperator.construct 1 0 0) (TEPXFOperator.fresh 1 2) [] [] []
    (by show (1 / 2 : ℝ) ≠ 11 / 10; norm_num)
    (IsNearlyEqual_neg_one (by norm_num)) rfl rfl).1

end Specialization

/-! ## C10: the parameter-mapped fader -/

section ParamFader

variable {α : Type} [LinearOrderedField α]

/-- C10. Parameter-mapped fader amplitude: on the first `Execute` (the one that finds
`bInit = false`, as on the constructed operator) and on every `Execute` whose control value `c`
differs from the stored previous one, `Amplitude = fadeInValue * fadeOutValue` with
`fadeInValue = lerp(0, 1, clamp((c - fadeInStart)/(fadeInEnd - fadeInStart), 0, 1))` and
`fadeOutValue = lerp(1, 0, clamp((c - fadeOutStart)/(fadeOutEnd - fadeOutStart), 0, 1))`; with
`fadeInStart = 0`, `fadeInEnd = 1`, `fadeOutStart = 1`, `fadeOutEnd = 0`, `c = 1/2` the two
values are `1/2` and the first `Execute` stores `Amplitude = 1/4`. -/
theorem C10_amplitude (ArrayFade : List α → α → α → List α) (s : FCBPOperator α)
    (c FadeInStart FadeInEnd FadeOutStart FadeOutEnd : α) (In : List α)
    (h : s.bInit = false ∨ c ≠ s.FloatInPrev) :
    (s.Execute ArrayFade c FadeInStart FadeInEnd FadeOutStart FadeOutEnd In).Amplitude
      = Lerp 0 1 (Clamp ((c - FadeInStart) / (FadeInEnd - FadeInStart)) 0 1)
        * Lerp 1 0 (Clamp ((c - FadeOutStart) / (FadeOutEnd - FadeOutStart)) 0 1) ∧
    (FCBPOperator.construct s.NumFramesPerBlock : FCBPOperator α).bInit = false ∧
    GetMappedRangeValueClamped ((0 : α), 1) (0, 1) (1 / 2) = 1 / 2 ∧
    GetMappedRangeValueClamped ((1 : α), 0) (1, 0) (1 / 2) = 1 / 2 ∧
    ((FCBPOperator.construct s.NumFramesPerBlock).Execute ArrayFade (1 / 2) 0 1 1 0
      In).Amplitude = 1 / 4 := by
  have hgen : ∀ (t : FCBPOperator α) (x a b p q : α), (t.bInit = false ∨ x ≠ t.FloatInPrev) →
      (t.Execute ArrayFade x a b p q In).Amplitude
        = GetMappedRangeValueClamped (a, b) (0, 1) x
          * GetMappedRangeValueClamped (p, q) (1, 0) x := by
    intro t x a b p q ht
    have hcond : x ≠ t.FloatInPrev ∨ t.bInit = false := ht.symm
    unfold FCBPOperator.Execute
    simp only [hcond, if_true]
  have hin : GetMappedRangeValueClamped ((0 : α), 1) (0, 1) (1 / 2) = 1 / 2 := by
    have : Clamp ((1 / 2 - 0) / (1 - 0) : α) 0 1 = 1 / 2 := by
      rw [sub_zero, sub_zero, div_one]
      exact Clamp_of_mem (by norm_num) (by norm_num)
    simp only [GetMappedRangeValueClamped, this, Lerp]
    norm_num
  have hout : GetMappedRangeValueClamped ((1 : α), 0) (1, 0) (1 / 2) = 1 / 2 := by
    have : Clamp ((1 / 2 - 1) / (0 - 1) : α) 0 1 = 1 / 2 := by
      rw [show ((1 / 2 - 1) / (0 - 1) : α) = 1 / 2 by norm_num]
      exact Clamp_of_mem (by norm_num) (by norm_num)
    simp only [GetMappedRangeValueClamped, this, Lerp]
    norm_num
  refine ⟨?_, rfl, hin, hout, ?_⟩
  · rw [hgen s c _ _ _ _ h]
    rfl
  · rw [hgen _ _ _ _ _ _ (Or.inl rfl), hin, hout]
    norm_num

/-- Witness of C10: the first `Execute` of a new operator, one-sample buffer, control `1/2`. -/
theorem C10_amplitude_witness :
    ((FCBPOperator.construct 1 : FCBPOperator ℚ).bInit = false ∨
      (1 / 2 : ℚ) ≠ (FCBPOperator.construct 1 : FCBPOperator ℚ).FloatInPrev) ∧
    ((FCBPOperator.construct 1 : FCBPOperator ℚ).Execute (fun b _ _ => b) (1 / 2) 0 1 1 0
      [1]).Amplitude = 1 / 4 :=
  ⟨Or.inl rfl,
    (C10_amplitude (fun b _ _ => b) (FCBPOperator.construct 1 : FCBPOperator ℚ) (1 / 2) 0 1 1 0
      [1] (Or.inl rfl)).2.2.2.2⟩

end ParamFader

/-! ## C11: the ramp of the parameter-mapped fader -/

section ParamFaderRamp

variable {α : Type} [LinearOrderedField α]

/-- Fields of the state after one `Execute` of the parameter-mapped fader. -/
theorem FCBPOperator.Execute_fields (ArrayFade : List α → α → α → List α)
    (s : FCBPOperator α) (c a b p q : α) (In : List α) :
    (s.Execute ArrayFade c a b p q In).AudioOutput
      = ArrayFade (In ++ s.AudioOutput.drop In.length) s.AmplitudePrev
          (s.Execute ArrayFade c a b p q In).Amplitude ∧
    (s.AmplitudePrev = s.Amplitude →
      (s.Execute ArrayFade c a b p q In).AmplitudePrev
        = (s.Execute ArrayFade c a b p q In).Amplitude) ∧
    ((s.Execute ArrayFade c a b p q In).Amplitude = s.Amplitude ∨
      (s.Execute ArrayFade c a b p q In).Amplitude
        = GetMappedRangeValueClamped (a, b) (0, 1) c
          * GetMappedRangeValueClamped (p, q) (1, 0) c) := by
  unfold FCBPOperator.Execute
  by_cases h : c ≠ s.FloatInPrev ∨ s.bInit = false
  · rw [if_pos h]
    cases hb : s.bInit
    · exact ⟨rfl, fun _ => rfl, Or.inr rfl⟩
    · exact ⟨rfl, fun _ => rfl, Or.inr rfl⟩
  · rw [if_neg h]
    exact ⟨rfl, fun e => e, Or.inl rfl⟩

theorem FCBP_run_snoc (ArrayFade : List α → α → α → List α) (F : ℕ)
    (blocks : List (FCBPInputs α)) (b : FCBPInputs α) :
    FCBPOperator.run ArrayFade F (blocks ++ [b])
      = (FCBPOperator.run ArrayFade F blocks).Execute ArrayFade b.FloatIn b.FadeInStart
          b.FadeInEnd b.FadeOutStart b.FadeOutEnd b.AudioInput := by
  unfold FCBPOperator.run
  rw [List.foldl_append]
  rfl

/-- In every state reached from construction the stored previous amplitude is the amplitude. -/
theorem FCBPOperator.run_amplitudePrev (ArrayFade : List α → α → α → List α) (F : ℕ)
    (blocks : List (FCBPInputs α)) :
    (FCBPOperator.run ArrayFade F blocks).AmplitudePrev
      = (FCBPOperator.run ArrayFade F blocks).Amplitude := by
  induction blocks using List.reverseRecOn with
  | nil => rfl
  | append_singleton bs b ih =>
    rw [FCBP_run_snoc]
    exact (FCBPOperator.Execute_fields ArrayFade _ _ _ _ _ _ _).2.1 ih

/-- C11. Parameter-mapped fader ramp: for every sequence of blocks from construction and every
further block `b`, whether or not the control changed, the output buffer of the `Execute` of
`b` is `ArrayFade` applied to the copy of the input buffer, from the amplitude stored at the
end of the previous `Execute` (`0` before the first) to the current `Amplitude`; and after the
`Execute` `AmplitudePrev = Amplitude`. -/
theorem C11_ramp (ArrayFade : List α → α → α → List α) (F : ℕ)
    (blocks : List (FCBPInputs α)) (b : FCBPInputs α) :
    (FCBPOperator.run ArrayFade F []).Amplitude = 0 ∧
    (FCBPOperator.run ArrayFade F (blocks ++ [b])).AudioOutput
      = ArrayFade
          (b.AudioInput ++ (FCBPOperator.run ArrayFade F blocks).AudioOutput.drop
            b.AudioInput.length)
          (FCBPOperator.run ArrayFade F blocks).Amplitude
          (FCBPOperator.run ArrayFade F (blocks ++ [b])).Amplitude ∧
    ((FCBPOperator.run ArrayFade F blocks).AudioOutput.length ≤ b.AudioInput.length →
      (FCBPOperator.run ArrayFade F (blocks ++ [b])).AudioOutput
        = ArrayFade b.AudioInput (FCBPOperator.run ArrayFade F blocks).Amplitude
            (FCBPOperator.run ArrayFade F (blocks ++ [b])).Amplitude) ∧
    (FCBPOperator.run ArrayFade F (blocks ++ [b])).AmplitudePrev
      = (FCBPOperator.run ArrayFade F (blocks ++ [b])).Amplitude := by
  have hout := (FCBPOperator.Execute_fields ArrayFade (FCBPOperator.run ArrayFade F blocks)
    b.FloatIn b.FadeInStart b.FadeInEnd b.FadeOutStart b.FadeOutEnd b.AudioInput).1
  rw [← FCBP_run_snoc, FCBPOperator.run_amplitudePrev] at hout
  refine ⟨rfl, hout, ?_, FCBPOperator.run_amplitudePrev ArrayFade F _⟩
  intro hlen
  rw [hout, List.drop_eq_nil_of_le hlen, List.append_nil]

/-- Witness of C11: two blocks of two samples on a new operator. -/
theorem C11_ramp_witness :
    (FCBPOperator.run (fun (buf : List ℚ) x y => buf.map (fun v => v * ((x + y) / 2))) 2
        []).AudioOutput.length ≤ (⟨1 / 2, 0, 1, 1, 0, [1, 1]⟩ : FCBPInputs ℚ).AudioInput.length ∧
    (FCBPOperator.run (fun (buf : List ℚ) x y => buf.map (fun v => v * ((x + y) / 2))) 2
        ([] ++ [⟨1 / 2, 0, 1, 1, 0, [1, 1]⟩])).AudioOutput
      = (fun (buf : List ℚ) x y => buf.map (fun v => v * ((x + y) / 2)))
          (⟨1 / 2, 0, 1, 1, 0, [1, 1]⟩ : FCBPInputs ℚ).AudioInput
          (FCBPOperator.run (fun (buf : List ℚ) x y => buf.map (fun v => v * ((x + y) / 2))) 2
            []).Amplitude
          (FCBPOperator.run (fun (buf : List ℚ) x y => buf.map (fun v => v * ((x + y) / 2))) 2
            ([] ++ [⟨1 / 2, 0, 1, 1, 0, [1, 1]⟩])).Amplitude :=
  ⟨by decide,
    (C11_ramp (fun (buf : List ℚ) x y => buf.map (fun v => v * ((x + y) / 2))) 2 []
      ⟨1 / 2, 0, 1, 1, 0, [1, 1]⟩).2.2.1 (by decide)⟩

end ParamFaderRamp

/-! ## C18: the first block of the multi-input crossfader -/

section FirstBlock

variable {α : Type} [LinearOrderedField α] [FloorRing α]

/-- C18. Multi-input first block: for every `N ≥ 2` and every control value `c`, the call of
`PerformCrossfadeOutput` made by the constructor finds the sentinel `PrevCrossfadeValue = -1`;
the clamped control value is at least `0`, hence not nearly equal to it, so the call detects a
change and stores the clamped control value and the `IndexA`, `IndexB`, `Alpha` computed
from it. -/
theorem C18_first_block (Cos : α → α) (HALF_PI : α)
    (ArrayMixIn : List α → List α → α → α → List α) (F N : ℕ) (hN : 2 ≤ N) (c : α)
    (In : List (List α)) :
    (TEPXFOperator.fresh F N : TEPXFOperator α).PrevCrossfadeValue = -1 ∧
    0 ≤ Clamp c 0 ((N : α) - 1) ∧
    IsNearlyEqual (Clamp c 0 ((N : α) - 1))
      (TEPXFOperator.fresh F N : TEPXFOperator α).PrevCrossfadeValue = false ∧
    (TEPXFOperator.construct Cos HALF_PI ArrayMixIn F N c In).PrevCrossfadeValue
      = Clamp c 0 ((N : α) - 1) ∧
    (TEPXFOperator.construct Cos HALF_PI ArrayMixIn F N c In).IndexA
      = ⌊Clamp c 0 ((N : α) - 1)⌋ ∧
    (TEPXFOperator.construct Cos HALF_PI ArrayMixIn F N c In).IndexB
      = min (⌊Clamp c 0 ((N : α) - 1)⌋ + 1) ((N : ℤ) - 1) ∧
    (TEPXFOperator.construct Cos HALF_PI ArrayMixIn F N c In).Alpha
      = Clamp c 0 ((N : α) - 1) - (⌊Clamp c 0 ((N : α) - 1)⌋ : α) := by
  have hcast : (((N : ℤ) - 1 : ℤ) : α) = (N : α) - 1 := by push_cast; rfl
  have hne := fresh_detects_change (α := α) F N c
  obtain ⟨e1, e2, e3, e4⟩ := PerformCrossfadeOutput_fields Cos HALF_PI ArrayMixIn N
    (TEPXFOperator.fresh F N) c In
  obtain ⟨-, -, -, f1, -⟩ := selection_facts (α := α) N (by omega) c
  unfold TEPXFOperator.construct
  rw [e1, e2, e3, e4, UpdateSelection_of_change N _ c hne]
  rw [hcast] at hne f1
  simp only [hcast]
  exact ⟨rfl, Clamp_ge, hne, trivial, trivial, f1, trivial⟩

/-- Witness of C18: two inputs, control value `7`. -/
theorem C18_first_block_witness :
    (2 ≤ 2) ∧
    (TEPXFOperator.construct (fun x : ℚ => x) 1 (fun _ o _ _ => o) 1 2 7 []).IndexA
      = ⌊Clamp (7 : ℚ) 0 (((2 : ℕ) : ℚ) - 1)⌋ :=
  ⟨le_refl 2,
    (C18_first_block (fun x : ℚ => x) 1 (fun _ o _ _ => o) 1 2 (le_refl 2) 7 []).2.2.2.2.1⟩

end FirstBlock

/-! ## C19: saturation of the parameter-mapped fader -/

section Saturation

variable {α : Type} [LinearOrderedField α]

theorem Lerp_zero (A B : α) : Lerp A B 0 = A := by simp [Lerp]

theorem Lerp_one (A B : α) : Lerp A B 1 = B := by simp [Lerp]

/-- At or before the start of a domain with `Start ≠ End` the clamped fraction is `0`. -/
theorem rangePct_at_start (S E v : α) (hne : S ≠ E)
    (hv : (S < E → v ≤ S) ∧ (E < S → S ≤ v)) : Clamp ((v - S) / (E - S)) 0 1 = 0 := by
  apply Clamp_of_le
  rcases lt_or_gt_of_ne hne with h | h
  · exact div_nonpos_of_nonpos_of_nonneg (by linarith [hv.1 h]) (by linarith)
  · exact div_nonpos_of_nonneg_of_nonpos (by linarith [hv.2 h]) (by linarith)

/-- At or after the end of a domain with `Start ≠ End` the clamped fraction is `1`. -/
theorem rangePct_at_end (S E v : α) (hne : S ≠ E)
    (hv : (S < E → E ≤ v) ∧ (E < S → v ≤ E)) : Clamp ((v - S) / (E - S)) 0 1 = 1 := by
  apply Clamp_of_ge zero_le_one
  rcases lt_or_gt_of_ne hne with h | h
  · rw [le_div_iff₀ (by linarith)]
    linarith [hv.1 h]
  · rw [le_div_iff_of_neg (by linarith)]
    linarith [hv.2 h]

/-- Both mapped values of the fader lie in `[0, 1]`, for every domain. -/
theorem mapped_mem (S E v : α) :
    (0 ≤ GetMappedRangeValueClamped (S, E) (0, 1) v ∧
      GetMappedRangeValueClamped (S, E) (0, 1) v ≤ 1) ∧
    (0 ≤ GetMappedRangeValueClamped (S, E) (1, 0) v ∧
      GetMappedRangeValueClamped (S, E) (1, 0) v ≤ 1) := by
  have h0 : (0 : α) ≤ Clamp ((v - S) / (E - S)) 0 1 := Clamp_ge
  have h1 : Clamp ((v - S) / (E - S)) 0 1 ≤ 1 := Clamp_le zero_le_one
  simp only [GetMappedRangeValueClamped, Lerp]
  constructor <;> constructor <;> linarith

/-- The amplitude of every state reached from construction lies in `[0, 1]`. -/
theorem FCBPOperator.run_amplitude_mem (ArrayFade : List α → α → α → List α) (F : ℕ)
    (blocks : List (FCBPInputs α)) :
    0 ≤ (FCBPOperator.run ArrayFade F blocks).Amplitude ∧
    (FCBPOperator.run ArrayFade F blocks).Amplitude ≤ 1 := by
  induction blocks using List.reverseRecOn with
  | nil => exact ⟨le_refl _, zero_le_one⟩
  | append_singleton bs b ih =>
    rw [FCBP_run_snoc]
    rcases (FCBPOperator.Execute_fields ArrayFade (FCBPOperator.run ArrayFade F bs) b.FloatIn
      b.FadeInStart b.FadeInEnd b.FadeOutStart b.FadeOutEnd b.AudioInput).2.2 with h | h
    · rw [h]; exact ih
    · rw [h]
      obtain ⟨⟨a0, a1⟩, -⟩ := mapped_mem b.FadeInStart b.FadeInEnd b.FloatIn
      obtain ⟨-, ⟨b0, b1⟩⟩ := mapped_mem b.FadeOutStart b.FadeOutEnd b.FloatIn
      exact ⟨mul_nonneg a0 b0, mul_le_one₀ a1 b0 b1⟩

/-- C19. Parameter-mapped fader saturation: for every domain with `Start ≠ End`, a control
value at or beyond `Start` on the side away from `End` maps to the first endpoint of the output
range (`0` for the fade-in value, `1` for the fade-out value) and a control value at or beyond
`End` maps to the second (`1` for the fade-in value, `0` for the fade-out value); and the
`Amplitude` of every state reached from construction lies in `[0, 1]`. -/
theorem C19_saturation (ArrayFade : List α → α → α → List α) (F : ℕ)
    (blocks : List (FCBPInputs α)) (Start End v : α) (hne : Start ≠ End) :
    (((Start < End → v ≤ Start) ∧ (End < Start → Start ≤ v)) →
      GetMappedRangeValueClamped (Start, End) (0, 1) v = 0 ∧
      GetMappedRangeValueClamped (Start, End) (1, 0) v = 1) ∧
    (((Start < End → End ≤ v) ∧ (End < Start → v ≤ End)) →
      GetMappedRangeValueClamped (Start, End) (0, 1) v = 1 ∧
      GetMappedRangeValueClamped (Start, End) (1, 0) v = 0) ∧
    0 ≤ (FCBPOperator.run ArrayFade F blocks).Amplitude ∧
    (FCBPOperator.run ArrayFade F blocks).Amplitude ≤ 1 := by
  refine ⟨fun hv => ?_, fun hv => ?_, FCBPOperator.run_amplitude_mem ArrayFade F blocks⟩
  · simp only [GetMappedRangeValueClamped, rangePct_at_start Start End v hne hv, Lerp_zero,
      and_self]
  · simp only [GetMappedRangeValueClamped, rangePct_at_end Start End v hne hv, Lerp_one,
      and_self]

/-- Witness of C19: the domain `[0, 1]` and the control value `2`, beyond its end. -/
theorem C19_saturation_witness :
    (0 : ℚ) ≠ 1 ∧ (((0 : ℚ) < 1 → (1 : ℚ) ≤ 2) ∧ ((1 : ℚ) < 0 → (2 : ℚ) ≤ 1)) ∧
    GetMappedRangeValueClamped ((0 : ℚ), 1) (0, 1) 2 = 1 ∧
    GetMappedRangeValueClamped ((0 : ℚ), 1) (1, 0) 2 = 0 :=
  ⟨by norm_num, by norm_num,
    (C19_saturation (fun (buf : List ℚ) _ _ => buf) 1 [] 0 1 2 (by norm_num)).2.1
      (by norm_num)⟩

end Saturation

/-! ## States of the multi-input crossfader reached from construction -/

section Reachable

variable {α : Type} [LinearOrderedField α]

theorem getD_map_range {β : Type} (f : ℕ → β) (n i : ℕ) (d : β) :
    ((List.range n).map f).getD i d = if i < n then f i else d := by
  rw [List.getD_eq_getElem?_getD, List.getElem?_map]
  by_cases h : i < n
  · simp [h, List.getElem?_range h]
  · simp [h, List.getElem?_eq_none (l := List.range n) (by simpa using not_lt.mp h)]

theorem getD_replicate_self {β : Type} (n i : ℕ) (d : β) :
    (List.replicate n d).getD i d = d := by
  rw [List.getD_eq_getElem?_getD, List.getElem?_replicate]
  split <;> rfl

theorem gainOf_ne_zero {ia ib : ℤ} {A B : α} {i : ℕ} (h : gainOf ia ib A B i ≠ 0) :
    (i : ℤ) = ia ∨ (i : ℤ) = ib := by
  unfold gainOf at h
  by_cases h1 : (i : ℤ) = ia
  · exact Or.inl h1
  · by_cases h2 : (i : ℤ) = ib
    · exact Or.inr h2
    · simp [h1, h2] at h

theorem flagOf_eq_false_iff (ia ib : ℤ) (P : List α) (i : ℕ) (old : Bool) :
    flagOf ia ib P i old = false ↔
      (i : ℤ) ≠ ia ∧ (i : ℤ) ≠ ib ∧ (P.getD i 0 = 0 ∨ old = false) := by
  unfold flagOf
  generalize P.getD i 0 = x
  by_cases h1 : (i : ℤ) = ia
  · simp [h1]
  · by_cases h2 : (i : ℤ) = ib
    · simp [h1, h2]
    · by_cases h3 : x = 0 <;> simp [h1, h2, h3]

variable [FloorRing α]

theorem UpdateSelection_crossfader (N : ℕ) (s : TEPXFOperator α) (c : α) :
    (UpdateSelection N s c).Crossfader = s.Crossfader ∧
    (UpdateSelection N s c).OutputValue = s.OutputValue := by
  cases hne : IsNearlyEqual (Clamp c 0 (((N : ℤ) - 1 : ℤ) : α)) s.PrevCrossfadeValue
  · rw [UpdateSelection_of_change N s c hne]
    exact ⟨rfl, rfl⟩
  · rw [UpdateSelection_of_same N s c hne]
    exact ⟨rfl, rfl⟩

theorem TEPXF_run_snoc (Cos : α → α) (HALF_PI : α)
    (ArrayMixIn : List α → List α → α → α → List α) (F N : ℕ)
    (blocks : List (α × List (List α))) (b : α × List (List α)) :
    TEPXFOperator.run Cos HALF_PI ArrayMixIn F N (blocks ++ [b])
      = PerformCrossfadeOutput Cos HALF_PI ArrayMixIn N
          (TEPXFOperator.run Cos HALF_PI ArrayMixIn F N blocks) b.1 b.2 := by
  unfold TEPXFOperator.run
  rw [List.foldl_append]
  rfl

/-- One block from a state with `N` entries in each array: closed form of the helper. -/
theorem PerformCrossfadeOutput_crossfader (Cos : α → α) (HALF_PI : α)
    (ArrayMixIn : List α → List α → α → α → List α) (N F : ℕ) (s : TEPXFOperator α) (c : α)
    (In : List (List α)) (hn : s.Crossfader.InputAmount = N)
    (hF : s.Crossfader.NumFramesPerBlock = F)
    (hC : s.Crossfader.CurrentGains.length = N) (hM : s.Crossfader.NeedsMixing.length = N) :
    (PerformCrossfadeOutput Cos HALF_PI ArrayMixIn N s c In).Crossfader =
      { InputAmount := N
        NumFramesPerBlock := F
        PrevGains := (List.range N).map
          (gainOf (UpdateSelection N s c).IndexA (UpdateSelection N s c).IndexB
            (EPXFValueA Cos HALF_PI (UpdateSelection N s c).Alpha)
            (EPXFValueB Cos HALF_PI (UpdateSelection N s c).Alpha))
        CurrentGains := (List.range N).map
          (gainOf (UpdateSelection N s c).IndexA (UpdateSelection N s c).IndexB
            (EPXFValueA Cos HALF_PI (UpdateSelection N s c).Alpha)
            (EPXFValueB Cos HALF_PI (UpdateSelection N s c).Alpha))
        NeedsMixing := (List.range N).map
          (fun j => flagOf (UpdateSelection N s c).IndexA (UpdateSelection N s c).IndexB
            s.Crossfader.PrevGains j (s.Crossfader.NeedsMixing.getD j false)) } := by
  rw [(PerformCrossfadeOutput_outputs Cos HALF_PI ArrayMixIn N s c In).1,
    (UpdateSelection_crossfader N s c).1]
  have hfr := DetermineGains_frame Cos HALF_PI s.Crossfader (UpdateSelection N s c).IndexA
    (UpdateSelection N s c).IndexB (UpdateSelection N s c).Alpha
  have h1 := DetermineGains_currentGains Cos HALF_PI s.Crossfader (UpdateSelection N s c).IndexA
    (UpdateSelection N s c).IndexB (UpdateSelection N s c).Alpha (hC.trans hn.symm)
  have h2 := DetermineGains_needsMixing Cos HALF_PI s.Crossfader (UpdateSelection N s c).IndexA
    (UpdateSelection N s c).IndexB (UpdateSelection N s c).Alpha (hM.trans hn.symm)
  rw [hn] at h1 h2
  simp only [h1, h2, hfr.2.1, hfr.2.2, hn, hF]

/-- Invariant of the states reached from construction: the arrays have `N` entries and every
channel with a non-zero previous gain is flagged. -/
theorem TEPXFOperator.run_inv (Cos : α → α) (HALF_PI : α)
    (ArrayMixIn : List α → List α → α → α → List α) (F N : ℕ)
    (blocks : List (α × List (List α))) :
    (TEPXFOperator.run Cos HALF_PI ArrayMixIn F N blocks).Crossfader.InputAmount = N ∧
    (TEPXFOperator.run Cos HALF_PI ArrayMixIn F N blocks).Crossfader.NumFramesPerBlock = F ∧
    (TEPXFOperator.run Cos HALF_PI ArrayMixIn F N blocks).Crossfader.CurrentGains.length = N ∧
    (TEPXFOperator.run Cos HALF_PI ArrayMixIn F N blocks).Crossfader.NeedsMixing.length = N ∧
    ∀ i : ℕ,
      (TEPXFOperator.run Cos HALF_PI ArrayMixIn F N blocks).Crossfader.PrevGains.getD i 0 ≠ 0 →
      (TEPXFOperator.run Cos HALF_PI ArrayMixIn F N blocks).Crossfader.NeedsMixing.getD i false
        = true := by
  induction blocks using List.reverseRecOn with
  | nil =>
    refine ⟨rfl, rfl, ?_, ?_, ?_⟩
    · simp [TEPXFOperator.run, TEPXFOperator.fresh, TEPXFHelper.create]
    · simp [TEPXFOperator.run, TEPXFOperator.fresh, TEPXFHelper.create]
    · intro i hi
      exact absurd (getD_replicate_self N i (0 : α)) hi
  | append_singleton bs b ih =>
    obtain ⟨hn, hF, hC, hM, -⟩ := ih
    rw [TEPXF_run_snoc,
      PerformCrossfadeOutput_crossfader Cos HALF_PI ArrayMixIn N F _ b.1 b.2 hn hF hC hM]
    refine ⟨rfl, rfl, by simp, by simp, ?_⟩
    intro i hi
    simp only [getD_map_range] at hi ⊢
    by_cases hlt : i < N
    · simp only [hlt, if_true] at hi ⊢
      unfold flagOf
      rcases gainOf_ne_zero hi with h | h
      · simp [h]
      · by_cases h1 : (i : ℤ) = (UpdateSelection N
            (TEPXFOperator.run Cos HALF_PI ArrayMixIn F N bs) b.1).IndexA
        · simp [h1]
        · simp [h1, h]
    · simp [hlt] at hi

end Reachable

/-! ## C17, C20: the needs-mixing flags -/

section Flags

variable {α : Type} [LinearOrderedField α] [FloorRing α]

omit [FloorRing α] in
theorem foldl_congr_mem {β γ : Type} (f g : β → γ → β) (l : List γ) (b : β)
    (h : ∀ x ∈ l, ∀ acc : β, f acc x = g acc x) : l.foldl f b = l.foldl g b := by
  induction l generalizing b with
  | nil => rfl
  | cons x t ih =>
    rw [List.foldl_cons, List.foldl_cons, h x (List.mem_cons_self x t) b]
    exact ih _ (fun y hy acc => h y (List.mem_cons_of_mem x hy) acc)

theorem run_gains_inputAmount (Cos : α → α) (HALF_PI : α)
    (ArrayMixIn : List α → List α → α → α → List α) (F N : ℕ)
    (blocks : List (α × List (List α))) (c : α) :
    (DetermineGains Cos HALF_PI
      (UpdateSelection N (TEPXFOperator.run Cos HALF_PI ArrayMixIn F N blocks) c).Crossfader
      (UpdateSelection N (TEPXFOperator.run Cos HALF_PI ArrayMixIn F N blocks) c).IndexA
      (UpdateSelection N (TEPXFOperator.run Cos HALF_PI ArrayMixIn F N blocks) c).IndexB
      (UpdateSelection N (TEPXFOperator.run Cos HALF_PI ArrayMixIn F N blocks)
        c).Alpha).InputAmount = N := by
  rw [(DetermineGains_frame _ _ _ _ _ _).2.1, (UpdateSelection_crossfader N _ c).1]
  exact (TEPXFOperator.run_inv Cos HALF_PI ArrayMixIn F N blocks).1

/-- The helper after the gain computation of a block that starts in a state reached from
construction: frame, gains and flags of channel `i < N`. -/
theorem run_gains_flags (Cos : α → α) (HALF_PI : α)
    (ArrayMixIn : List α → List α → α → α → List α) (F N : ℕ)
    (blocks : List (α × List (List α))) (c : α) (i : ℕ) (hi : i < N) :
    (DetermineGains Cos HALF_PI
      (UpdateSelection N (TEPXFOperator.run Cos HALF_PI ArrayMixIn F N blocks) c).Crossfader
      (UpdateSelection N (TEPXFOperator.run Cos HALF_PI ArrayMixIn F N blocks) c).IndexA
      (UpdateSelection N (TEPXFOperator.run Cos HALF_PI ArrayMixIn F N blocks) c).IndexB
      (UpdateSelection N (TEPXFOperator.run Cos HALF_PI ArrayMixIn F N blocks)
        c).Alpha).InputAmount = N ∧
    (DetermineGains Cos HALF_PI
      (UpdateSelection N (TEPXFOperator.run Cos HALF_PI ArrayMixIn F N blocks) c).Crossfader
      (UpdateSelection N (TEPXFOperator.run Cos HALF_PI ArrayMixIn F N blocks) c).IndexA
      (UpdateSelection N (TEPXFOperator.run Cos HALF_PI ArrayMixIn F N blocks) c).IndexB
      (UpdateSelection N (TEPXFOperator.run Cos HALF_PI ArrayMixIn F N blocks)
        c).Alpha).PrevGains
      = (TEPXFOperator.run Cos HALF_PI ArrayMixIn F N blocks).Crossfader.PrevGains ∧
    (DetermineGains Cos HALF_PI
      (UpdateSelection N (TEPXFOperator.run Cos HALF_PI ArrayMixIn F N blocks) c).Crossfader
      (UpdateSelection N (TEPXFOperator.run Cos HALF_PI ArrayMixIn F N blocks) c).IndexA
      (UpdateSelection N (TEPXFOperator.run Cos HALF_PI ArrayMixIn F N blocks) c).IndexB
      (UpdateSelection N (TEPXFOperator.run Cos HALF_PI ArrayMixIn F N blocks)
        c).Alpha).CurrentGains.getD i 0
      = gainOf (UpdateSelection N (TEPXFOperator.run Cos HALF_PI ArrayMixIn F N blocks) c).IndexA
          (UpdateSelection N (TEPXFOperator.run Cos HALF_PI ArrayMixIn F N blocks) c).IndexB
          (EPXFValueA Cos HALF_PI
            (UpdateSelection N (TEPXFOperator.run Cos HALF_PI ArrayMixIn F N blocks) c).Alpha)
          (EPXFValueB Cos HALF_PI
            (UpdateSelection N (TEPXFOperator.run Cos HALF_PI ArrayMixIn F N blocks) c).Alpha)
          i ∧
    ((DetermineGains Cos HALF_PI
      (UpdateSelection N (TEPXFOperator.run Cos HALF_PI ArrayMixIn F N blocks) c).Crossfader
      (UpdateSelection N (TEPXFOperator.run Cos HALF_PI ArrayMixIn F N blocks) c).IndexA
      (UpdateSelection N (TEPXFOperator.run Cos HALF_PI ArrayMixIn F N blocks) c).IndexB
      (UpdateSelection N (TEPXFOperator.run Cos HALF_PI ArrayMixIn F N blocks)
        c).Alpha).NeedsMixing.getD i false = false ↔
      (i : ℤ)
        ≠ (UpdateSelection N (TEPXFOperator.run Cos HALF_PI ArrayMixIn F N blocks) c).IndexA ∧
      (i : ℤ)
        ≠ (UpdateSelection N (TEPXFOperator.run Cos HALF_PI ArrayMixIn F N blocks) c).IndexB ∧
      (TEPXFOperator.run Cos HALF_PI ArrayMixIn F N blocks).Crossfader.PrevGains.getD i 0
        = 0) := by
  obtain ⟨hn, -, hC, hM, hinv⟩ := TEPXFOperator.run_inv Cos HALF_PI ArrayMixIn F N blocks
  have hU := (UpdateSelection_crossfader N
    (TEPXFOperator.run Cos HALF_PI ArrayMixIn F N blocks) c).1
  rw [hU]
  have hfr := DetermineGains_frame Cos HALF_PI
    (TEPXFOperator.run Cos HALF_PI ArrayMixIn F N blocks).Crossfader
    (UpdateSelection N (TEPXFOperator.run Cos HALF_PI ArrayMixIn F N blocks) c).IndexA
    (UpdateSelection N (TEPXFOperator.run Cos HALF_PI ArrayMixIn F N blocks) c).IndexB
    (UpdateSelection N (TEPXFOperator.run Cos HALF_PI ArrayMixIn F N blocks) c).Alpha
  refine ⟨hfr.2.1.trans hn, hfr.1, ?_, ?_⟩
  · rw [DetermineGains_currentGains _ _ _ _ _ _ (hC.trans hn.symm), hn, getD_map_range,
      if_pos hi]
  · rw [DetermineGains_needsMixing _ _ _ _ _ _ (hM.trans hn.symm), hn, getD_map_range,
      if_pos hi, flagOf_eq_false_iff]
    constructor
    · rintro ⟨h1, h2, h3⟩
      refine ⟨h1, h2, ?_⟩
      rcases h3 with h3 | h3
      · exact h3
      · by_contra hne
        rw [hinv i hne] at h3
        exact Bool.noConfusion h3
    · rintro ⟨h1, h2, h3⟩
      exact ⟨h1, h2, Or.inl h3⟩

/-- C17 (amended). Multi-input needs-mixing flags: in every block (a block that starts in a
state reached from construction) and for every channel `i < N`, after the gain computation of
`GetCrossfadeOutput` the flag `NeedsMixing[i]` is false if and only if `i` is neither `IndexA`
nor `IndexB` and its previous gain `PrevGains[i]` was already `0`; its new gain
`CurrentGains[i]` is then `0`.  Every other channel is flagged true; the two selected channels
are flagged whatever their gains are. -/
theorem C17_needs_mixing (Cos : α → α) (HALF_PI : α)
    (ArrayMixIn : List α → List α → α → α → List α) (F N : ℕ)
    (blocks : List (α × List (List α))) (c : α) (i : ℕ) (hi : i < N) :
    ((DetermineGains Cos HALF_PI
      (UpdateSelection N (TEPXFOperator.run Cos HALF_PI ArrayMixIn F N blocks) c).Crossfader
      (UpdateSelection N (TEPXFOperator.run Cos HALF_PI ArrayMixIn F N blocks) c).IndexA
      (UpdateSelection N (TEPXFOperator.run Cos HALF_PI ArrayMixIn F N blocks) c).IndexB
      (UpdateSelection N (TEPXFOperator.run Cos HALF_PI ArrayMixIn F N blocks)
        c).Alpha).NeedsMixing.getD i false = false ↔
      (i : ℤ)
        ≠ (UpdateSelection N (TEPXFOperator.run Cos HALF_PI ArrayMixIn F N blocks) c).IndexA ∧
      (i : ℤ)
        ≠ (UpdateSelection N (TEPXFOperator.run Cos HALF_PI ArrayMixIn F N blocks) c).IndexB ∧
      (TEPXFOperator.run Cos HALF_PI ArrayMixIn F N blocks).Crossfader.PrevGains.getD i 0
        = 0) ∧
    ((DetermineGains Cos HALF_PI
      (UpdateSelection N (TEPXFOperator.run Cos HALF_PI ArrayMixIn F N blocks) c).Crossfader
      (UpdateSelection N (TEPXFOperator.run Cos HALF_PI ArrayMixIn F N blocks) c).IndexA
      (UpdateSelection N (TEPXFOperator.run Cos HALF_PI ArrayMixIn F N blocks) c).IndexB
      (UpdateSelection N (TEPXFOperator.run Cos HALF_PI ArrayMixIn F N blocks)
        c).Alpha).NeedsMixing.getD i false = false →
      (DetermineGains Cos HALF_PI
        (UpdateSelection N (TEPXFOperator.run Cos HALF_PI ArrayMixIn F N blocks) c).Crossfader
        (UpdateSelection N (TEPXFOperator.run Cos HALF_PI ArrayMixIn F N blocks) c).IndexA
        (UpdateSelection N (TEPXFOperator.run Cos HALF_PI ArrayMixIn F N blocks) c).IndexB
        (UpdateSelection N (TEPXFOperator.run Cos HALF_PI ArrayMixIn F N blocks)
          c).Alpha).CurrentGains.getD i 0 = 0 ∧
      (TEPXFOperator.run Cos HALF_PI ArrayMixIn F N blocks).Crossfader.PrevGains.getD i 0
        = 0) := by
  obtain ⟨-, -, hcur, hiff⟩ := run_gains_flags Cos HALF_PI ArrayMixIn F N blocks c i hi
  refine ⟨hiff, fun hfalse => ?_⟩
  obtain ⟨h1, h2, h3⟩ := hiff.mp hfalse
  refine ⟨?_, h3⟩
  rw [hcur]
  unfold gainOf
  rw [if_neg h1, if_neg h2]

/-- C20. Skip optimisation is sound: in every state reached from construction every channel
with `PrevGains[i] ≠ 0` has `NeedsMixing[i] = true` at the start of a block; and, for an
`ArrayMixIn` that mixes nothing in along a ramp from `0` to `0`, the output buffer written by
the next block equals the buffer obtained by mixing every one of the `N` channels with its ramp
`PrevGains[i] → CurrentGains[i]`, ignoring the flags. -/
theorem C20_skip_sound (Cos : α → α) (HALF_PI : α)
    (ArrayMixIn : List α → List α → α → α → List α) (F N : ℕ)
    (hmix : ∀ In Out : List α, ArrayMixIn In Out 0 0 = Out)
    (blocks : List (α × List (List α))) (b : α × List (List α)) (i : ℕ) :
    ((TEPXFOperator.run Cos HALF_PI ArrayMixIn F N blocks).Crossfader.PrevGains.getD i 0 ≠ 0 →
      (TEPXFOperator.run Cos HALF_PI ArrayMixIn F N blocks).Crossfader.NeedsMixing.getD i false
        = true) ∧
    (TEPXFOperator.run Cos HALF_PI ArrayMixIn F N (blocks ++ [b])).OutputValue
      = MixAllInputs ArrayMixIn b.2
          (DetermineGains Cos HALF_PI
            (UpdateSelection N (TEPXFOperator.run Cos HALF_PI ArrayMixIn F N blocks)
              b.1).Crossfader
            (UpdateSelection N (TEPXFOperator.run Cos HALF_PI ArrayMixIn F N blocks) b.1).IndexA
            (UpdateSelection N (TEPXFOperator.run Cos HALF_PI ArrayMixIn F N blocks) b.1).IndexB
            (UpdateSelection N (TEPXFOperator.run Cos HALF_PI ArrayMixIn F N blocks) b.1).Alpha)
          (List.replicate
            (TEPXFOperator.run Cos HALF_PI ArrayMixIn F N blocks).OutputValue.length 0) := by
  refine ⟨(TEPXFOperator.run_inv Cos HALF_PI ArrayMixIn F N blocks).2.2.2.2 i, ?_⟩
  rw [TEPXF_run_snoc, (PerformCrossfadeOutput_outputs Cos HALF_PI ArrayMixIn N _ b.1
    b.2).2, (UpdateSelection_crossfader N _ b.1).2]
  unfold MixInputs MixAllInputs
  apply foldl_congr_mem
  intro j hj acc
  obtain ⟨hn, hprev, hcur, hiff⟩ := run_gains_flags Cos HALF_PI ArrayMixIn F N blocks b.1 j
    (by
      have := List.mem_range.mp hj
      rwa [run_gains_inputAmount Cos HALF_PI ArrayMixIn F N blocks b.1] at this)
  unfold mixStep
  cases hflag : (DetermineGains Cos HALF_PI
      (UpdateSelection N (TEPXFOperator.run Cos HALF_PI ArrayMixIn F N blocks) b.1).Crossfader
      (UpdateSelection N (TEPXFOperator.run Cos HALF_PI ArrayMixIn F N blocks) b.1).IndexA
      (UpdateSelection N (TEPXFOperator.run Cos HALF_PI ArrayMixIn F N blocks) b.1).IndexB
      (UpdateSelection N (TEPXFOperator.run Cos HALF_PI ArrayMixIn F N blocks)
        b.1).Alpha).NeedsMixing.getD j false
  · obtain ⟨h1, h2, h3⟩ := hiff.mp hflag
    have hc0 : gainOf
        (UpdateSelection N (TEPXFOperator.run Cos HALF_PI ArrayMixIn F N blocks) b.1).IndexA
        (UpdateSelection N (TEPXFOperator.run Cos HALF_PI ArrayMixIn F N blocks) b.1).IndexB
        (EPXFValueA Cos HALF_PI
          (UpdateSelection N (TEPXFOperator.run Cos HALF_PI ArrayMixIn F N blocks) b.1).Alpha)
        (EPXFValueB Cos HALF_PI
          (UpdateSelection N (TEPXFOperator.run Cos HALF_PI ArrayMixIn F N blocks) b.1).Alpha)
        j = 0 := by
      unfold gainOf
      rw [if_neg h1, if_neg h2]
    rw [hprev, hcur, h3, hc0, hmix]
    rfl
  · rfl

end Flags

/-! ## Integer control values -/

section IntegerControl

variable {α : Type} [LinearOrderedField α] [FloorRing α]

/-- The selection stored for a control value that is a whole number `k ≤ N - 1`, when the
change is detected. -/
theorem UpdateSelection_natCast (N k : ℕ) (hk : k + 1 ≤ N) (s : TEPXFOperator α)
    (h : IsNearlyEqual (k : α) s.PrevCrossfadeValue = false) :
    UpdateSelection N s (k : α) =
      { s with
        PrevCrossfadeValue := (k : α)
        IndexA := (k : ℤ)
        IndexB := min ((k : ℤ) + 1) ((N : ℤ) - 1)
        Alpha := 0 } := by
  have hcc : Clamp (k : α) 0 (((N : ℤ) - 1 : ℤ) : α) = (k : α) := by
    apply Clamp_of_mem (Nat.cast_nonneg k)
    have : ((k : ℤ) : α) ≤ (((N : ℤ) - 1 : ℤ) : α) := by
      apply Int.cast_le.mpr
      omega
    simpa using this
  have hfl : ⌊(k : α)⌋ = (k : ℤ) := Int.floor_natCast k
  rw [UpdateSelection_of_change N s _ (by rw [hcc]; exact h), hcc, hfl, Clamp_intCast,
    TruncToInt_intCast]
  have h3 : max (min ((k : ℤ) + 1) ((N : ℤ) - 1)) 0 = min ((k : ℤ) + 1) ((N : ℤ) - 1) :=
    max_eq_left (le_min (by omega) (by omega))
  rw [h3]
  simp

end IntegerControl

section FlagsExamples

/-- Selection of the constructor call for control value `1` on `N ≥ 2` inputs. -/
theorem fresh_selection_one (F N : ℕ) (hN : 2 ≤ N) :
    UpdateSelection N (TEPXFOperator.fresh F N : TEPXFOperator ℝ) 1 =
      { (TEPXFOperator.fresh F N : TEPXFOperator ℝ) with
        PrevCrossfadeValue := 1, IndexA := 1, IndexB := min 2 ((N : ℤ) - 1), Alpha := 0 } := by
  have h := UpdateSelection_natCast (α := ℝ) N 1 (by omega) (TEPXFOperator.fresh F N)
    (by rw [Nat.cast_one]; exact IsNearlyEqual_neg_one zero_le_one)
  rw [Nat.cast_one] at h
  rw [h]
  norm_num

/-- Counterexample to C17 as stated: in the constructor call of a four-input crossfader with
control value `1` (`IndexA = 1`, `IndexB = 2`, `Alpha = 0`) channel 2 has new gain `0` and
previous gain `0`, and is flagged all the same. -/
theorem C17_counterexample :
    ¬ ((DetermineGains Real.cos (Real.pi / 2)
        (UpdateSelection 4
          (TEPXFOperator.run Real.cos (Real.pi / 2) (fun _ o _ _ => o) 1 4 []) 1).Crossfader
        (UpdateSelection 4
          (TEPXFOperator.run Real.cos (Real.pi / 2) (fun _ o _ _ => o) 1 4 []) 1).IndexA
        (UpdateSelection 4
          (TEPXFOperator.run Real.cos (Real.pi / 2) (fun _ o _ _ => o) 1 4 []) 1).IndexB
        (UpdateSelection 4
          (TEPXFOperator.run Real.cos (Real.pi / 2) (fun _ o _ _ => o) 1 4 [])
          1).Alpha).NeedsMixing.getD 2 false = false ↔
      ((DetermineGains Real.cos (Real.pi / 2)
        (UpdateSelection 4
          (TEPXFOperator.run Real.cos (Real.pi / 2) (fun _ o _ _ => o) 1 4 []) 1).Crossfader
        (UpdateSelection 4
          (TEPXFOperator.run Real.cos (Real.pi / 2) (fun _ o _ _ => o) 1 4 []) 1).IndexA
        (UpdateSelection 4
          (TEPXFOperator.run Real.cos (Real.pi / 2) (fun _ o _ _ => o) 1 4 []) 1).IndexB
        (UpdateSelection 4
          (TEPXFOperator.run Real.cos (Real.pi / 2) (fun _ o _ _ => o) 1 4 [])
          1).Alpha).CurrentGains.getD 2 0 = 0 ∧
       (TEPXFOperator.run Real.cos (Real.pi / 2) (fun _ o _ _ => o) 1 4
          []).Crossfader.PrevGains.getD 2 0 = 0)) := by
  obtain ⟨-, -, hcur, hiff⟩ := run_gains_flags Real.cos (Real.pi / 2)
    (fun _ o _ _ => o) 1 4 [] (1 : ℝ) 2 (by decide)
  have hU : UpdateSelection 4
      (TEPXFOperator.run Real.cos (Real.pi / 2) (fun _ o _ _ => o) 1 4 []) (1 : ℝ)
      = { (TEPXFOperator.fresh 1 4 : TEPXFOperator ℝ) with
          PrevCrossfadeValue := 1, IndexA := 1, IndexB := 2, Alpha := 0 } := by
    have h := fresh_selection_one 1 4 (by decide)
    norm_num at h
    exact h
  have hB : (UpdateSelection 4
      (TEPXFOperator.run Real.cos (Real.pi / 2) (fun _ o _ _ => o) 1 4 []) (1 : ℝ)).IndexB
      = 2 := by rw [hU]
  have hA : (UpdateSelection 4
      (TEPXFOperator.run Real.cos (Real.pi / 2) (fun _ o _ _ => o) 1 4 []) (1 : ℝ)).IndexA
      = 1 := by rw [hU]
  have hα : (UpdateSelection 4
      (TEPXFOperator.run Real.cos (Real.pi / 2) (fun _ o _ _ => o) 1 4 []) (1 : ℝ)).Alpha
      = 0 := by rw [hU]
  intro h
  rw [hcur] at h
  have hrhs : gainOf
      (UpdateSelection 4
        (TEPXFOperator.run Real.cos (Real.pi / 2) (fun _ o _ _ => o) 1 4 []) 1).IndexA
      (UpdateSelection 4
        (TEPXFOperator.run Real.cos (Real.pi / 2) (fun _ o _ _ => o) 1 4 []) 1).IndexB
      (EPXFValueA Real.cos (Real.pi / 2)
        (UpdateSelection 4
          (TEPXFOperator.run Real.cos (Real.pi / 2) (fun _ o _ _ => o) 1 4 []) 1).Alpha)
      (EPXFValueB Real.cos (Real.pi / 2)
        (UpdateSelection 4
          (TEPXFOperator.run Real.cos (Real.pi / 2) (fun _ o _ _ => o) 1 4 []) 1).Alpha) 2
      = 0 ∧
      (TEPXFOperator.run Real.cos (Real.pi / 2) (fun _ o _ _ => o) 1 4
        []).Crossfader.PrevGains.getD 2 0 = (0 : ℝ) := by
    rw [hA, hB, hα, EPXFValueB_zero]
    refine ⟨?_, getD_replicate_self 4 2 (0 : ℝ)⟩
    simp [gainOf]
  have hfalse := hiff.mp (h.mpr hrhs)
  rw [hB] at hfalse
  exact hfalse.2.1 rfl

end FlagsExamples

section FlagsWitnesses

/-- Witness of C17 (amended): the constructor call for two inputs and control value `1/2`,
channel `0`. -/
theorem C17_needs_mixing_witness :
    (0 < 2) ∧
    ((DetermineGains (fun x : ℚ => x) 1
      (UpdateSelection 2
        (TEPXFOperator.run (fun x : ℚ => x) 1 (fun _ o _ _ => o) 1 2 []) (1 / 2)).Crossfader
      (UpdateSelection 2
        (TEPXFOperator.run (fun x : ℚ => x) 1 (fun _ o _ _ => o) 1 2 []) (1 / 2)).IndexA
      (UpdateSelection 2
        (TEPXFOperator.run (fun x : ℚ => x) 1 (fun _ o _ _ => o) 1 2 []) (1 / 2)).IndexB
      (UpdateSelection 2
        (TEPXFOperator.run (fun x : ℚ => x) 1 (fun _ o _ _ => o) 1 2 [])
        (1 / 2)).Alpha).NeedsMixing.getD 0 false = false ↔
      ((0 : ℕ) : ℤ)
        ≠ (UpdateSelection 2
            (TEPXFOperator.run (fun x : ℚ => x) 1 (fun _ o _ _ => o) 1 2 []) (1 / 2)).IndexA ∧
      ((0 : ℕ) : ℤ)
        ≠ (UpdateSelection 2
            (TEPXFOperator.run (fun x : ℚ => x) 1 (fun _ o _ _ => o) 1 2 []) (1 / 2)).IndexB ∧
      (TEPXFOperator.run (fun x : ℚ => x) 1 (fun _ o _ _ => o) 1 2
        []).Crossfader.PrevGains.getD 0 0 = 0) :=
  ⟨by decide,
    (C17_needs_mixing (fun x : ℚ => x) 1 (fun _ o _ _ => o) 1 2 [] (1 / 2) 0 (by decide)).1⟩

/-- Witness of C20: `ArrayMixIn` returns at once for the ramp from `0` to `0` and otherwise
adds the input scaled by the mean of the two gains; one block
after the constructor call, two inputs. -/
theorem C20_skip_sound_witness :
    (∀ In Out : List ℚ,
      (fun (I O : List ℚ) (x y : ℚ) =>
        if x = 0 ∧ y = 0 then O else List.zipWith (fun a b => b + a * ((x + y) / 2)) I O)
        In Out 0 0 = Out) ∧
    (TEPXFOperator.run (fun x : ℚ => x) 1
      (fun (I O : List ℚ) (x y : ℚ) =>
        if x = 0 ∧ y = 0 then O else List.zipWith (fun a b => b + a * ((x + y) / 2)) I O)
      1 2 ([(0, [[1], [1]])] ++ [(1, [[1], [1]])])).OutputValue
      = MixAllInputs
          (fun (I O : List ℚ) (x y : ℚ) =>
        if x = 0 ∧ y = 0 then O else List.zipWith (fun a b => b + a * ((x + y) / 2)) I O)
          [[1], [1]]
          (DetermineGains (fun x : ℚ => x) 1
            (UpdateSelection 2
              (TEPXFOperator.run (fun x : ℚ => x) 1
                (fun (I O : List ℚ) (x y : ℚ) =>
                  if x = 0 ∧ y = 0 then O
                  else List.zipWith (fun a b => b + a * ((x + y) / 2)) I O)
                1 2 [(0, [[1], [1]])]) 1).Crossfader
            (UpdateSelection 2
              (TEPXFOperator.run (fun x : ℚ => x) 1
                (fun (I O : List ℚ) (x y : ℚ) =>
                  if x = 0 ∧ y = 0 then O
                  else List.zipWith (fun a b => b + a * ((x + y) / 2)) I O)
                1 2 [(0, [[1], [1]])]) 1).IndexA
            (UpdateSelection 2
              (TEPXFOperator.run (fun x : ℚ => x) 1
                (fun (I O : List ℚ) (x y : ℚ) =>
                  if x = 0 ∧ y = 0 then O
                  else List.zipWith (fun a b => b + a * ((x + y) / 2)) I O)
                1 2 [(0, [[1], [1]])]) 1).IndexB
            (UpdateSelection 2
              (TEPXFOperator.run (fun x : ℚ => x) 1
                (fun (I O : List ℚ) (x y : ℚ) =>
                  if x = 0 ∧ y = 0 then O
                  else List.zipWith (fun a b => b + a * ((x + y) / 2)) I O)
                1 2 [(0, [[1], [1]])]) 1).Alpha)
          (List.replicate
            (TEPXFOperator.run (fun x : ℚ => x) 1
              (fun (I O : List ℚ) (x y : ℚ) =>
                if x = 0 ∧ y = 0 then O
                else List.zipWith (fun a b => b + a * ((x + y) / 2)) I O)
              1 2 [(0, [[1], [1]])]).OutputValue.length 0) :=
  have hmix : ∀ In Out : List ℚ,
      (fun (I O : List ℚ) (x y : ℚ) =>
        if x = 0 ∧ y = 0 then O else List.zipWith (fun a b => b + a * ((x + y) / 2)) I O)
        In Out 0 0 = Out := by
    intro In Out
    simp
  ⟨hmix,
    (C20_skip_sound (fun x : ℚ => x) 1 _ 1 2 hmix [(0, [[1], [1]])] (1, [[1], [1]]) 0).2⟩

end FlagsWitnesses

/-! ## C16: `Reset` of the multi-input crossfader -/

section ResetLifecycle

variable {α : Type} [LinearOrderedField α] [FloorRing α]

end ResetLifecycle

section ResetExamples

end ResetExamples

section ResetWitness

end ResetWitness

/-! ## The envelope generators, block by block -/

section FadeSteps

variable {α : Type} [LinearOrderedField α]

/-- Fade-in, a block with no reset edge and no start edge: closed form of the state. -/
theorem fadeIn_Execute_none (N : ℕ) (s : FSimpleFIOperator α) (t : α) :
    s.Execute N none none t =
      if s.ProcessFade = true then
        if s.FadeBlockCount ≤ s.FadeCounter then
          { s with
            TriggerStartIn := []
            TriggerFinished := [N]
            OutEnvelopeValue := ClampFloat (FloatDiv s.FadeCounter s.FadeBlockCount) 0 1
            OutEnvelope := ClampFloat (FloatDiv s.FadeCounter s.FadeBlockCount) 0 1
            FadeCounter := 1
            ProcessFade := false }
        else
          { s with
            TriggerStartIn := []
            TriggerFinished := []
            OutEnvelopeValue := ClampFloat (FloatDiv s.FadeCounter s.FadeBlockCount) 0 1
            OutEnvelope := ClampFloat (FloatDiv s.FadeCounter s.FadeBlockCount) 0 1
            FadeCounter := s.FadeCounter + 1 }
      else { s with TriggerStartIn := [], TriggerFinished := [] } := by
  unfold FSimpleFIOperator.Execute ExecuteBlock AdvanceBlock TriggerFrame
  by_cases hp : s.ProcessFade = true
  · by_cases hk : s.FadeBlockCount ≤ s.FadeCounter
    · simp [hp, hk]
    · simp [hp, hk]
  · simp [hp]

/-- Fade-out, a block with no reset edge and no start edge: closed form of the state. -/
theorem fadeOut_Execute_none (N : ℕ) (s : FSimpleFOOperator α) (t : α) :
    s.Execute N none none t =
      if s.ProcessFade = true then
        if s.FadeBlockCount ≤ s.FadeCounter then
          { s with
            TriggerStartOut := []
            TriggerFinished := [N]
            OutEnvelopeValue := ClampFloat (FloatSub 1 (FloatDiv s.FadeCounter s.FadeBlockCount)) 0 1
            OutEnvelope := ClampFloat (FloatSub 1 (FloatDiv s.FadeCounter s.FadeBlockCount)) 0 1
            FadeCounter := 1
            ProcessFade := false }
        else
          { s with
            TriggerStartOut := []
            TriggerFinished := []
            OutEnvelopeValue := ClampFloat (FloatSub 1 (FloatDiv s.FadeCounter s.FadeBlockCount)) 0 1
            OutEnvelope := ClampFloat (FloatSub 1 (FloatDiv s.FadeCounter s.FadeBlockCount)) 0 1
            FadeCounter := s.FadeCounter + 1 }
      else { s with TriggerStartOut := [], TriggerFinished := [] } := by
  unfold FSimpleFOOperator.Execute ExecuteBlock AdvanceBlock TriggerFrame
  by_cases hp : s.ProcessFade = true
  · by_cases hk : s.FadeBlockCount ≤ s.FadeCounter
    · simp [hp, hk]
    · simp [hp, hk]
  · simp [hp]

/-- Fade-in, a block with a reset edge and no start edge. -/
theorem fadeIn_Execute_reset (N f : ℕ) (s : FSimpleFIOperator α) (t : α) :
    s.Execute N (some f) none t =
      { s with
        TriggerStartIn := []
        TriggerFinished := []
        ProcessFade := false
        OutEnvelopeValue := 0
        OutEnvelope := 0
        FadeCounter := 1 } := by
  simp [FSimpleFIOperator.Execute, ExecuteBlock, AdvanceBlock]

/-- Fade-out, a block with a reset edge and no start edge. -/
theorem fadeOut_Execute_reset (N f : ℕ) (s : FSimpleFOOperator α) (t : α) :
    s.Execute N (some f) none t =
      { s with
        TriggerStartOut := []
        TriggerFinished := []
        ProcessFade := false
        OutEnvelopeValue := 1
        OutEnvelope := 1
        FadeCounter := 1 } := by
  simp [FSimpleFOOperator.Execute, ExecuteBlock, AdvanceBlock]

/-- Fade-in, a block with a start edge at frame `g` and no reset edge: the step of a block with
no edge whose end frame is `g`, then the edge handling. -/
theorem fadeIn_Execute_start (N g : ℕ) (s : FSimpleFIOperator α) (t : α) :
    s.Execute N none (some g) t =
      { s.Execute g none none t with
        TriggerStartIn := [g]
        ProcessFade := true
        FadeBlockCount := s.BlockRate * t } := by
  rw [fadeIn_Execute_none]
  unfold FSimpleFIOperator.Execute ExecuteBlock AdvanceBlock TriggerFrame
  by_cases hp : s.ProcessFade = true
  · by_cases hk : s.FadeBlockCount ≤ s.FadeCounter
    · simp [hp, hk]
    · simp [hp, hk]
  · simp [hp]

/-- Fade-out, a block with a start edge at frame `g` and no reset edge. -/
theorem fadeOut_Execute_start (N g : ℕ) (s : FSimpleFOOperator α) (t : α) :
    s.Execute N none (some g) t =
      { s.Execute g none none t with
        TriggerStartOut := [g]
        ProcessFade := true
        FadeBlockCount := s.BlockRate * t } := by
  rw [fadeOut_Execute_none]
  unfold FSimpleFOOperator.Execute ExecuteBlock AdvanceBlock TriggerFrame
  by_cases hp : s.ProcessFade = true
  · by_cases hk : s.FadeBlockCount ≤ s.FadeCounter
    · simp [hp, hk]
    · simp [hp, hk]
  · simp [hp]

/-- Fade-in, a block with a reset edge and a start edge. -/
theorem fadeIn_Execute_reset_start (N f g : ℕ) (s : FSimpleFIOperator α) (t : α) :
    s.Execute N (some f) (some g) t =
      { s with
        TriggerStartIn := [g]
        TriggerFinished := []
        ProcessFade := true
        OutEnvelopeValue := 0
        OutEnvelope := 0
        FadeCounter := 1
        FadeBlockCount := s.BlockRate * t } := by
  simp [FSimpleFIOperator.Execute, ExecuteBlock, AdvanceBlock, TriggerFrame]

/-- Fade-out, a block with a reset edge and a start edge. -/
theorem fadeOut_Execute_reset_start (N f g : ℕ) (s : FSimpleFOOperator α) (t : α) :
    s.Execute N (some f) (some g) t =
      { s with
        TriggerStartOut := [g]
        TriggerFinished := []
        ProcessFade := true
        OutEnvelopeValue := 1
        OutEnvelope := 1
        FadeCounter := 1
        FadeBlockCount := s.BlockRate * t } := by
  simp [FSimpleFOOperator.Execute, ExecuteBlock, AdvanceBlock, TriggerFrame]

end FadeSteps

/-! ## C15: one ramp step -/

section RampStep

variable {α : Type} [LinearOrderedField α]

/-- C15. Envelope ramp step: in a block with no reset edge and no start edge, while Ramping
with counter value `k = FadeCounter` and block count `n = FadeBlockCount`, the generator writes
the envelope `clamp(k/n, 0, 1)` (fade-in) or `clamp(1 - k/n, 0, 1)` (fade-out), where `k/n` is
the `float` quotient: for `n ≠ 0` the quotient of the field, and for `n = 0` and `k > 0` the
value `+inf`, so that the end value of the ramp is written (`1` for fade-in, `0` for
fade-out); it emits the finished event at the end frame of the block, sets `FadeCounter` to `1`
and leaves Ramping if and only if `k ≥ n`, and otherwise stays Ramping with
`FadeCounter = k + 1` and emits no finished event.  In a block while not Ramping and with no
edge nothing changes and no event is emitted. -/
theorem C15_ramp_step (N : ℕ) (si : FSimpleFIOperator α) (so : FSimpleFOOperator α) (t : α) :
    (si.ProcessFade = true →
      (si.Execute N none none t).OutEnvelope
        = ClampFloat (FloatDiv si.FadeCounter si.FadeBlockCount) 0 1 ∧
      (si.FadeBlockCount ≠ 0 →
        (si.Execute N none none t).OutEnvelope
          = Clamp (si.FadeCounter / si.FadeBlockCount) 0 1) ∧
      (si.FadeBlockCount = 0 → 0 < si.FadeCounter →
        (si.Execute N none none t).OutEnvelope = 1) ∧
      (((si.Execute N none none t).TriggerFinished = [N] ∧
          (si.Execute N none none t).FadeCounter = 1 ∧
          (si.Execute N none none t).ProcessFade = false) ↔
        si.FadeBlockCount ≤ si.FadeCounter) ∧
      (¬ si.FadeBlockCount ≤ si.FadeCounter →
        (si.Execute N none none t).TriggerFinished = [] ∧
        (si.Execute N none none t).FadeCounter = si.FadeCounter + 1 ∧
        (si.Execute N none none t).ProcessFade = true) ∧
      (si.Execute N none none t).TriggerStartIn = [] ∧
      (si.Execute N none none t).FadeBlockCount = si.FadeBlockCount) ∧
    (si.ProcessFade = false →
      si.Execute N none none t = { si with TriggerStartIn := [], TriggerFinished := [] }) ∧
    (so.ProcessFade = true →
      (so.Execute N none none t).OutEnvelope
        = ClampFloat (FloatSub 1 (FloatDiv so.FadeCounter so.FadeBlockCount)) 0 1 ∧
      (so.FadeBlockCount ≠ 0 →
        (so.Execute N none none t).OutEnvelope
          = Clamp (1 - so.FadeCounter / so.FadeBlockCount) 0 1) ∧
      (so.FadeBlockCount = 0 → 0 < so.FadeCounter →
        (so.Execute N none none t).OutEnvelope = 0) ∧
      (((so.Execute N none none t).TriggerFinished = [N] ∧
          (so.Execute N none none t).FadeCounter = 1 ∧
          (so.Execute N none none t).ProcessFade = false) ↔
        so.FadeBlockCount ≤ so.FadeCounter) ∧
      (¬ so.FadeBlockCount ≤ so.FadeCounter →
        (so.Execute N none none t).TriggerFinished = [] ∧
        (so.Execute N none none t).FadeCounter = so.FadeCounter + 1 ∧
        (so.Execute N none none t).ProcessFade = true) ∧
      (so.Execute N none none t).TriggerStartOut = [] ∧
      (so.Execute N none none t).FadeBlockCount = so.FadeBlockCount) ∧
    (so.ProcessFade = false →
      so.Execute N none none t = { so with TriggerStartOut := [], TriggerFinished := [] }) := by
  refine ⟨fun hp => ?_, fun hp => ?_, fun hp => ?_, fun hp => ?_⟩
  · have he : (si.Execute N none none t).OutEnvelope
        = ClampFloat (FloatDiv si.FadeCounter si.FadeBlockCount) 0 1 := by
      rw [fadeIn_Execute_none, if_pos hp]
      split_ifs <;> rfl
    refine ⟨he, fun hn => ?_, fun hz hk => ?_, ?_⟩
    · rw [he, ClampFloat_FloatDiv _ _ _ _ hn]
    · rw [he, hz]
      exact ClampFloat_FloatDiv_zero _ hk
    · rw [fadeIn_Execute_none, if_pos hp]
      by_cases hk : si.FadeBlockCount ≤ si.FadeCounter
      · simp [hk]
      · simp [hk, hp]
  · rw [fadeIn_Execute_none, if_neg (by simp [hp])]
  · have he : (so.Execute N none none t).OutEnvelope
        = ClampFloat (FloatSub 1 (FloatDiv so.FadeCounter so.FadeBlockCount)) 0 1 := by
      rw [fadeOut_Execute_none, if_pos hp]
      split_ifs <;> rfl
    refine ⟨he, fun hn => ?_, fun hz hk => ?_, ?_⟩
    · rw [he, ClampFloat_FloatSub_FloatDiv _ _ _ _ _ hn]
    · rw [he, hz]
      exact ClampFloat_FloatSub_FloatDiv_zero _ hk
    · rw [fadeOut_Execute_none, if_pos hp]
      by_cases hk : so.FadeBlockCount ≤ so.FadeCounter
      · simp [hk]
      · simp [hk, hp]
  · rw [fadeOut_Execute_none, if_neg (by simp [hp])]

/-- Witness of C15: a fade-in generator in the last block of a ramp of 50 blocks, and a
fade-in generator that was started with the fade time `0` (`FadeBlockCount = 0`). -/
theorem C15_ramp_step_witness :
    ((⟨[], [], 49 / 50, 100, 50, 49 / 50, 50, true⟩ : FSimpleFIOperator ℚ).ProcessFade = true ∧
      (⟨[], [], 49 / 50, 100, 50, 49 / 50, 50, true⟩ : FSimpleFIOperator ℚ).FadeBlockCount ≠ 0 ∧
      ((⟨[], [], 49 / 50, 100, 50, 49 / 50, 50, true⟩ : FSimpleFIOperator ℚ).Execute 64 none
        none (1 / 2)).OutEnvelope = Clamp ((50 : ℚ) / 50) 0 1) ∧
    ((⟨[], [], 0, 100, 0, 0, 1, true⟩ : FSimpleFIOperator ℚ).ProcessFade = true ∧
      (⟨[], [], 0, 100, 0, 0, 1, true⟩ : FSimpleFIOperator ℚ).FadeBlockCount = 0 ∧
      (0 : ℚ) < (⟨[], [], 0, 100, 0, 0, 1, true⟩ : FSimpleFIOperator ℚ).FadeCounter ∧
      ((⟨[], [], 0, 100, 0, 0, 1, true⟩ : FSimpleFIOperator ℚ).Execute 64 none none
        0).OutEnvelope = 1) :=
  have hn : (⟨[], [], 49 / 50, 100, 50, 49 / 50, 50, true⟩ : FSimpleFIOperator ℚ).FadeBlockCount
      ≠ 0 := by
    show (50 : ℚ) ≠ 0
    norm_num
  have hk : (0 : ℚ) < (⟨[], [], 0, 100, 0, 0, 1, true⟩ : FSimpleFIOperator ℚ).FadeCounter :=
    zero_lt_one
  ⟨⟨rfl, hn,
      ((C15_ramp_step 64 (⟨[], [], 49 / 50, 100, 50, 49 / 50, 50, true⟩ : FSimpleFIOperator ℚ)
        (FSimpleFOOperator.construct 100) (1 / 2)).1 rfl).2.1 hn⟩,
    ⟨rfl, rfl, hk,
      ((C15_ramp_step 64 (⟨[], [], 0, 100, 0, 0, 1, true⟩ : FSimpleFIOperator ℚ)
        (FSimpleFOOperator.construct 100) 0).1 rfl).2.2.1 rfl hk⟩⟩

end RampStep

/-! ## C14: reset of the envelope generators -/

section EnvelopeReset

variable {α : Type} [LinearOrderedField α]

/-- Fade-in: blocks with no edge keep the rest state reached by a reset. -/
theorem fadeIn_idle_rest (N : ℕ) (idle : List α) (s : FSimpleFIOperator α)
    (hp : s.ProcessFade = false) :
    (idle.foldl (fun u x => u.Execute N none none x) s).ProcessFade = false ∧
    (idle.foldl (fun u x => u.Execute N none none x) s).OutEnvelope = s.OutEnvelope ∧
    (idle.foldl (fun u x => u.Execute N none none x) s).FadeCounter = s.FadeCounter ∧
    (idle.foldl (fun u x => u.Execute N none none x) s).BlockRate = s.BlockRate := by
  induction idle generalizing s with
  | nil => exact ⟨hp, rfl, rfl, rfl⟩
  | cons x rest ih =>
    rw [List.foldl_cons, fadeIn_Execute_none, if_neg (by simp [hp])]
    exact ih _ hp

/-- Fade-out: blocks with no edge keep the rest state reached by a reset. -/
theorem fadeOut_idle_rest (N : ℕ) (idle : List α) (s : FSimpleFOOperator α)
    (hp : s.ProcessFade = false) :
    (idle.foldl (fun u x => u.Execute N none none x) s).ProcessFade = false ∧
    (idle.foldl (fun u x => u.Execute N none none x) s).OutEnvelope = s.OutEnvelope ∧
    (idle.foldl (fun u x => u.Execute N none none x) s).FadeCounter = s.FadeCounter ∧
    (idle.foldl (fun u x => u.Execute N none none x) s).BlockRate = s.BlockRate := by
  induction idle generalizing s with
  | nil => exact ⟨hp, rfl, rfl, rfl⟩
  | cons x rest ih =>
    rw [List.foldl_cons, fadeOut_Execute_none, if_neg (by simp [hp])]
    exact ih _ hp

/-- Fade-in: a start edge received at rest (not Ramping, counter `1`) begins the ramp at its
first step. -/
theorem fadeIn_start_at_rest (N g : ℕ) (r : Option ℕ) (s : FSimpleFIOperator α)
    (d t : α) (hp : s.ProcessFade = false) (hc : s.FadeCounter = 1) (he : s.OutEnvelope = 0) :
    (s.Execute N r (some g) d).ProcessFade = true ∧
    (s.Execute N r (some g) d).FadeCounter = 1 ∧
    (s.Execute N r (some g) d).FadeBlockCount = s.BlockRate * d ∧
    (s.Execute N r (some g) d).OutEnvelope = 0 ∧
    (s.Execute N r (some g) d).TriggerStartIn = [g] ∧
    ((s.Execute N r (some g) d).Execute N none none t).OutEnvelope
      = ClampFloat (FloatDiv 1 (s.BlockRate * d)) 0 1 := by
  cases r with
  | none =>
    rw [fadeIn_Execute_none, fadeIn_Execute_start,
      fadeIn_Execute_none, if_neg (by simp [hp])]
    simp only [hc, he]
    split_ifs <;> simp
  | some f =>
    rw [fadeIn_Execute_none, fadeIn_Execute_reset_start]
    simp only []
    split_ifs <;> simp

/-- Fade-out: a start edge received at rest (not Ramping, counter `1`) begins the ramp at its
first step. -/
theorem fadeOut_start_at_rest (N g : ℕ) (r : Option ℕ) (s : FSimpleFOOperator α)
    (d t : α) (hp : s.ProcessFade = false) (hc : s.FadeCounter = 1) (he : s.OutEnvelope = 1) :
    (s.Execute N r (some g) d).ProcessFade = true ∧
    (s.Execute N r (some g) d).FadeCounter = 1 ∧
    (s.Execute N r (some g) d).FadeBlockCount = s.BlockRate * d ∧
    (s.Execute N r (some g) d).OutEnvelope = 1 ∧
    (s.Execute N r (some g) d).TriggerStartOut = [g] ∧
    ((s.Execute N r (some g) d).Execute N none none t).OutEnvelope
      = ClampFloat (FloatSub 1 (FloatDiv 1 (s.BlockRate * d))) 0 1 := by
  cases r with
  | none =>
    rw [fadeOut_Execute_none, fadeOut_Execute_start,
      fadeOut_Execute_none, if_neg (by simp [hp])]
    simp only [hc, he]
    split_ifs <;> simp
  | some f =>
    rw [fadeOut_Execute_none, fadeOut_Execute_reset_start]
    simp only []
    split_ifs <;> simp

/-- C14 (amended). Envelope reset: for both envelope generators and from every state, a block
carrying a reset edge and no start edge ends with `ProcessFade = false`, the envelope output at
the rest value (`0` for fade-in, `1` for fade-out) and `FadeCounter = 1`.  After any number of
blocks with no edge, a block with a start edge (and the fade time `d`) begins a ramp at its
first step: Ramping, `FadeCounter = 1`, `FadeBlockCount = BlockRate * d`, the envelope still at
rest; the next block writes the clamped first step `clamp(1 / FadeBlockCount, 0, 1)` (fade-in)
or `clamp(1 - 1 / FadeBlockCount, 0, 1)` (fade-out), which is `1 / FadeBlockCount` away from
the rest value when `1 ≤ FadeBlockCount`, the end value of the ramp when
`0 ≤ FadeBlockCount ≤ 1`, and the rest value when `FadeBlockCount < 0`. -/
theorem C14_reset (N f g : ℕ) (r : Option ℕ) (si : FSimpleFIOperator α)
    (so : FSimpleFOOperator α) (t d t' : α) (idle : List α) :
    ((si.Execute N (some f) none t).ProcessFade = false ∧
      (si.Execute N (some f) none t).OutEnvelope = 0 ∧
      (si.Execute N (some f) none t).FadeCounter = 1) ∧
    (((idle.foldl (fun u x => u.Execute N none none x)
          (si.Execute N (some f) none t)).Execute N r (some g) d).ProcessFade = true ∧
      ((idle.foldl (fun u x => u.Execute N none none x)
          (si.Execute N (some f) none t)).Execute N r (some g) d).FadeCounter = 1 ∧
      ((idle.foldl (fun u x => u.Execute N none none x)
          (si.Execute N (some f) none t)).Execute N r (some g) d).FadeBlockCount = si.BlockRate * d ∧
      ((idle.foldl (fun u x => u.Execute N none none x)
          (si.Execute N (some f) none t)).Execute N r (some g) d).OutEnvelope = 0 ∧
      ((idle.foldl (fun u x => u.Execute N none none x)
          (si.Execute N (some f) none t)).Execute N r (some g) d).TriggerStartIn = [g]) ∧
    ((((idle.foldl (fun u x => u.Execute N none none x)
          (si.Execute N (some f) none t)).Execute N r (some g) d).Execute N none none t').OutEnvelope
        = ClampFloat (FloatDiv 1 (si.BlockRate * d)) 0 1 ∧
      (1 ≤ si.BlockRate * d →
        (((idle.foldl (fun u x => u.Execute N none none x)
          (si.Execute N (some f) none t)).Execute N r (some g) d).Execute N none none t').OutEnvelope
          = 0 + 1 / (si.BlockRate * d)) ∧
      (0 ≤ si.BlockRate * d → si.BlockRate * d ≤ 1 →
        (((idle.foldl (fun u x => u.Execute N none none x)
          (si.Execute N (some f) none t)).Execute N r (some g) d).Execute N none none t').OutEnvelope
          = 1) ∧
      (si.BlockRate * d < 0 →
        (((idle.foldl (fun u x => u.Execute N none none x)
          (si.Execute N (some f) none t)).Execute N r (some g) d).Execute N none none t').OutEnvelope
          = 0)) ∧
    ((so.Execute N (some f) none t).ProcessFade = false ∧
      (so.Execute N (some f) none t).OutEnvelope = 1 ∧
      (so.Execute N (some f) none t).FadeCounter = 1) ∧
    (((idle.foldl (fun u x => u.Execute N none none x)
          (so.Execute N (some f) none t)).Execute N r (some g) d).ProcessFade = true ∧
      ((idle.foldl (fun u x => u.Execute N none none x)
          (so.Execute N (some f) none t)).Execute N r (some g) d).FadeCounter = 1 ∧
      ((idle.foldl (fun u x => u.Execute N none none x)
          (so.Execute N (some f) none t)).Execute N r (some g) d).FadeBlockCount = so.BlockRate * d ∧
      ((idle.foldl (fun u x => u.Execute N none none x)
          (so.Execute N (some f) none t)).Execute N r (some g) d).OutEnvelope = 1 ∧
      ((idle.foldl (fun u x => u.Execute N none none x)
          (so.Execute N (some f) none t)).Execute N r (some g) d).TriggerStartOut = [g]) ∧
    ((((idle.foldl (fun u x => u.Execute N none none x)
          (so.Execute N (some f) none t)).Execute N r (some g) d).Execute N none none t').OutEnvelope
        = ClampFloat (FloatSub 1 (FloatDiv 1 (so.BlockRate * d))) 0 1 ∧
      (1 ≤ so.BlockRate * d →
        (((idle.foldl (fun u x => u.Execute N none none x)
          (so.Execute N (some f) none t)).Execute N r (some g) d).Execute N none none t').OutEnvelope
          = 1 - 1 / (so.BlockRate * d)) ∧
      (0 ≤ so.BlockRate * d → so.BlockRate * d ≤ 1 →
        (((idle.foldl (fun u x => u.Execute N none none x)
          (so.Execute N (some f) none t)).Execute N r (some g) d).Execute N none none t').OutEnvelope
          = 0) ∧
      (so.BlockRate * d < 0 →
        (((idle.foldl (fun u x => u.Execute N none none x)
          (so.Execute N (some f) none t)).Execute N r (some g) d).Execute N none none t').OutEnvelope
          = 1)) := by
  have hi1 := fadeIn_Execute_reset N f si t
  have ho1 := fadeOut_Execute_reset N f so t
  have hi2 := fadeIn_idle_rest N idle (si.Execute N (some f) none t)
    (by rw [hi1])
  have ho2 := fadeOut_idle_rest N idle (so.Execute N (some f) none t)
    (by rw [ho1])
  have hi3 := fadeIn_start_at_rest N g r _ d t' hi2.1
    (by rw [hi2.2.2.1, hi1]) (by rw [hi2.2.1, hi1])
  have ho3 := fadeOut_start_at_rest N g r _ d t' ho2.1
    (by rw [ho2.2.2.1, ho1]) (by rw [ho2.2.1, ho1])
  have hir : (idle.foldl (fun u x => u.Execute N none none x)
      (si.Execute N (some f) none t)).BlockRate = si.BlockRate := by rw [hi2.2.2.2, hi1]
  have hor : (idle.foldl (fun u x => u.Execute N none none x)
      (so.Execute N (some f) none t)).BlockRate = so.BlockRate := by rw [ho2.2.2.2, ho1]
  rw [hir] at hi3
  rw [hor] at ho3
  refine ⟨⟨by rw [hi1], by rw [hi1], by rw [hi1]⟩,
    ⟨hi3.1, hi3.2.1, hi3.2.2.1, hi3.2.2.2.1, hi3.2.2.2.2.1⟩,
    ⟨hi3.2.2.2.2.2, fun hn => ?_, fun h0 h1 => ?_, fun hneg => ?_⟩,
    ⟨by rw [ho1], by rw [ho1], by rw [ho1]⟩,
    ⟨ho3.1, ho3.2.1, ho3.2.2.1, ho3.2.2.2.1, ho3.2.2.2.2.1⟩,
    ⟨ho3.2.2.2.2.2, fun hn => ?_, fun h0 h1 => ?_, fun hneg => ?_⟩⟩
  · have hpos : (0 : α) < si.BlockRate * d := lt_of_lt_of_le zero_lt_one hn
    rw [hi3.2.2.2.2.2, zero_add, ClampFloat_FloatDiv _ _ _ _ (ne_of_gt hpos)]
    exact Clamp_of_mem (by positivity) ((div_le_one hpos).mpr hn)
  · rw [hi3.2.2.2.2.2]
    rcases eq_or_lt_of_le h0 with hz | hpos
    · rw [← hz]
      exact ClampFloat_FloatDiv_zero 1 zero_lt_one
    · rw [ClampFloat_FloatDiv _ _ _ _ (ne_of_gt hpos)]
      exact Clamp_of_ge zero_le_one ((one_le_div hpos).mpr h1)
  · rw [hi3.2.2.2.2.2, ClampFloat_FloatDiv _ _ _ _ (ne_of_lt hneg)]
    exact Clamp_of_le (le_of_lt (div_neg_of_pos_of_neg zero_lt_one hneg))
  · have hpos : (0 : α) < so.BlockRate * d := lt_of_lt_of_le zero_lt_one hn
    rw [ho3.2.2.2.2.2, ClampFloat_FloatSub_FloatDiv _ _ _ _ _ (ne_of_gt hpos)]
    have h1 : 1 / (so.BlockRate * d) ≤ 1 := (div_le_one hpos).mpr hn
    have h0 : (0 : α) ≤ 1 / (so.BlockRate * d) := by positivity
    exact Clamp_of_mem (by linarith) (by linarith)
  · rw [ho3.2.2.2.2.2]
    rcases eq_or_lt_of_le h0 with hz | hpos
    · rw [← hz]
      exact ClampFloat_FloatSub_FloatDiv_zero 1 zero_lt_one
    · rw [ClampFloat_FloatSub_FloatDiv _ _ _ _ _ (ne_of_gt hpos)]
      have h2 : 1 ≤ 1 / (so.BlockRate * d) := (one_le_div hpos).mpr h1
      exact Clamp_of_le (by linarith)
  · rw [ho3.2.2.2.2.2, ClampFloat_FloatSub_FloatDiv _ _ _ _ _ (ne_of_lt hneg)]
    have h2 : 1 / (so.BlockRate * d) < 0 := div_neg_of_pos_of_neg zero_lt_one hneg
    exact Clamp_of_ge zero_le_one (by linarith)

/-- Counterexample to C14 as stated: a fade-in generator at block rate 100 is started, reset,
and started again with the fade time `1/200` (`FadeBlockCount = 1/2`); the first step of the
new ramp writes the envelope `1`, which is not `1 / FadeBlockCount = 2` away from the rest
value `0`. -/
theorem C14_counterexample :
    (FSimpleFIOperator.run 64 (100 : ℚ)
      [⟨none, some 0, 1 / 2⟩, ⟨some 7, none, 1 / 2⟩, ⟨none, some 3, 1 / 200⟩]).FadeBlockCount
      = 1 / 2 ∧
    (FSimpleFIOperator.run 64 (100 : ℚ)
      [⟨none, some 0, 1 / 2⟩, ⟨some 7, none, 1 / 2⟩, ⟨none, some 3, 1 / 200⟩,
        ⟨none, none, 1 / 200⟩]).OutEnvelope = 1 ∧
    (FSimpleFIOperator.run 64 (100 : ℚ)
      [⟨none, some 0, 1 / 2⟩, ⟨some 7, none, 1 / 2⟩, ⟨none, some 3, 1 / 200⟩,
        ⟨none, none, 1 / 200⟩]).OutEnvelope ≠ 0 + 1 / (1 / 2) := by
  have hrun : FSimpleFIOperator.run 64 (100 : ℚ)
      [⟨none, some 0, 1 / 2⟩, ⟨some 7, none, 1 / 2⟩, ⟨none, some 3, 1 / 200⟩,
        ⟨none, none, 1 / 200⟩]
      = ((((FSimpleFIOperator.construct (100 : ℚ)).Execute 64 none (some 0) (1 / 2)).Execute 64
          (some 7) none (1 / 2)).Execute 64 none (some 3) (1 / 200)).Execute 64 none none
            (1 / 200) := rfl
  have hrun3 : FSimpleFIOperator.run 64 (100 : ℚ)
      [⟨none, some 0, 1 / 2⟩, ⟨some 7, none, 1 / 2⟩, ⟨none, some 3, 1 / 200⟩]
      = (((FSimpleFIOperator.construct (100 : ℚ)).Execute 64 none (some 0) (1 / 2)).Execute 64
          (some 7) none (1 / 2)).Execute 64 none (some 3) (1 / 200) := rfl
  have hr := fadeIn_Execute_reset 64 7
    ((FSimpleFIOperator.construct (100 : ℚ)).Execute 64 none (some 0) (1 / 2)) (1 / 2)
  have hb : (((FSimpleFIOperator.construct (100 : ℚ)).Execute 64 none (some 0) (1 / 2)).Execute
      64 (some 7) none (1 / 2)).BlockRate = 100 := by
    rw [hr, fadeIn_Execute_start]
    show ((FSimpleFIOperator.construct (100 : ℚ)).Execute 0 none none (1 / 2)).BlockRate = 100
    rw [fadeIn_Execute_none]
    rfl
  have h := fadeIn_start_at_rest 64 3 none
    (((FSimpleFIOperator.construct (100 : ℚ)).Execute 64 none (some 0) (1 / 2)).Execute 64
      (some 7) none (1 / 2)) (1 / 200) (1 / 200) (by rw [hr]) (by rw [hr]) (by rw [hr])
  rw [hb] at h
  have hn : (100 : ℚ) * (1 / 200) = 1 / 2 := by norm_num
  have he : (FSimpleFIOperator.run 64 (100 : ℚ)
      [⟨none, some 0, 1 / 2⟩, ⟨some 7, none, 1 / 2⟩, ⟨none, some 3, 1 / 200⟩,
        ⟨none, none, 1 / 200⟩]).OutEnvelope = 1 := by
    rw [hrun, h.2.2.2.2.2, hn, ClampFloat_FloatDiv _ _ _ _ (by norm_num)]
    exact Clamp_of_ge zero_le_one (by norm_num)
  refine ⟨?_, he, ?_⟩
  · rw [hrun3, h.2.2.1, hn]
  · rw [he]
    norm_num

/-- Witness of C14 (amended): a fade-in generator at block rate 100 reset in the middle of a
ramp, then started with the fade time `1/2` (50 blocks): the first step is `1/50`. -/
theorem C14_reset_witness :
    (1 : ℚ) ≤ (⟨[], [], 2 / 5, 100, 50, 2 / 5, 21, true⟩ : FSimpleFIOperator ℚ).BlockRate
      * (1 / 2) ∧
    ((((List.foldl (fun u x => u.Execute 64 none none x)
          ((⟨[], [], 2 / 5, 100, 50, 2 / 5, 21, true⟩ : FSimpleFIOperator ℚ).Execute 64
            (some 0) none (1 / 2)) [1 / 2]).Execute 64 none (some 3) (1 / 2)).Execute 64 none
        none (1 / 2)).OutEnvelope
      = 0 + 1 / ((⟨[], [], 2 / 5, 100, 50, 2 / 5, 21, true⟩ : FSimpleFIOperator ℚ).BlockRate
          * (1 / 2))) :=
  have h : (1 : ℚ) ≤ (⟨[], [], 2 / 5, 100, 50, 2 / 5, 21, true⟩ : FSimpleFIOperator ℚ).BlockRate
      * (1 / 2) := by
    show (1 : ℚ) ≤ 100 * (1 / 2)
    norm_num
  ⟨h,
    (C14_reset 64 0 3 none (⟨[], [], 2 / 5, 100, 50, 2 / 5, 21, true⟩ : FSimpleFIOperator ℚ)
      (FSimpleFOOperator.construct 100) (1 / 2) (1 / 2) (1 / 2) [1 / 2]).2.2.1.2.1 h⟩

end EnvelopeReset

/-! ## C12: the fade-in trigger scenario -/

section FadeInScenario

variable {α : Type} [LinearOrderedField α]

theorem fadeIn_run_snoc (N : ℕ) (rate : α) (blocks : List (FadeInputs α))
    (b : FadeInputs α) :
    FSimpleFIOperator.run N rate (blocks ++ [b])
      = (FSimpleFIOperator.run N rate blocks).Execute N b.Reset b.Trigger b.Time := by
  unfold FSimpleFIOperator.run
  rw [List.foldl_append]
  rfl

/-- State of the scenario after block `j`: block `0` carries the start edge, the `j` later
blocks carry no edge. -/
theorem fade_in_scenario_state (N g : ℕ) (idle : List α) :
    (FSimpleFIOperator.run N 100
      (⟨none, some g, 1 / 2⟩ :: idle.map (fun t => ⟨none, none, t⟩))).ProcessFade
      = decide (idle.length < 50) ∧
    (FSimpleFIOperator.run N 100
      (⟨none, some g, 1 / 2⟩ :: idle.map (fun t => ⟨none, none, t⟩))).FadeCounter
      = (if idle.length < 50 then (idle.length : α) + 1 else 1) ∧
    (FSimpleFIOperator.run N 100
      (⟨none, some g, 1 / 2⟩ :: idle.map (fun t => ⟨none, none, t⟩))).FadeBlockCount = 50 ∧
    (FSimpleFIOperator.run N 100
      (⟨none, some g, 1 / 2⟩ :: idle.map (fun t => ⟨none, none, t⟩))).OutEnvelope
      = ((min idle.length 50 : ℕ) : α) / 50 ∧
    (FSimpleFIOperator.run N 100
      (⟨none, some g, 1 / 2⟩ :: idle.map (fun t => ⟨none, none, t⟩))).TriggerFinished
      = (if idle.length = 50 then [N] else []) := by
  induction idle using List.reverseRecOn with
  | nil =>
    have h : FSimpleFIOperator.run N (100 : α) [⟨none, some g, 1 / 2⟩]
        = (FSimpleFIOperator.construct (100 : α)).Execute N none (some g) (1 / 2) := rfl
    rw [List.map_nil, h, fadeIn_Execute_start, fadeIn_Execute_none]
    simp [FSimpleFIOperator.construct]
    norm_num
  | append_singleton l x ih =>
    obtain ⟨h1, h2, h3, h4, -⟩ := ih
    have hrun : FSimpleFIOperator.run N (100 : α)
        (⟨none, some g, 1 / 2⟩ :: (l ++ [x]).map (fun t => ⟨none, none, t⟩))
        = (FSimpleFIOperator.run N (100 : α)
            (⟨none, some g, 1 / 2⟩ :: l.map (fun t => ⟨none, none, t⟩))).Execute N none none
              x := by
      rw [List.map_append, ← List.cons_append]
      exact fadeIn_run_snoc N 100 _ ⟨none, none, x⟩
    rw [hrun, fadeIn_Execute_none, List.length_append, List.length_singleton]
    by_cases hlt : l.length < 50
    · have hp : (FSimpleFIOperator.run N (100 : α)
          (⟨none, some g, 1 / 2⟩ :: l.map (fun t => ⟨none, none, t⟩))).ProcessFade = true := by
        rw [h1]; simpa using hlt
      rw [if_pos hp, h2, h3, if_pos hlt]
      have hmin : min (l.length + 1) 50 = l.length + 1 := min_eq_left (by omega)
      have hle : ((l.length : α) + 1) / 50 ≤ 1 := by
        rw [div_le_one (by norm_num)]
        have : l.length + 1 ≤ 50 := by omega
        exact_mod_cast this
      have hcl : ClampFloat (FloatDiv ((l.length : α) + 1) 50) 0 1
          = ((l.length : α) + 1) / 50 := by
        rw [ClampFloat_FloatDiv _ _ _ _ (by norm_num)]
        exact Clamp_of_mem (by positivity) hle
      by_cases h49 : l.length + 1 = 50
      · have hk : (50 : α) ≤ (l.length : α) + 1 := by
          have : (50 : ℕ) ≤ l.length + 1 := by omega
          exact_mod_cast this
        rw [if_pos hk]
        simp only [hcl, hmin, h49]
        have hc : (l.length : α) + 1 = 50 := by exact_mod_cast h49
        refine ⟨by simp, by simp, trivial, ?_, by simp⟩
        rw [hc]
        simp
      · have hk : ¬ (50 : α) ≤ (l.length : α) + 1 := by
          have : ¬ (50 : ℕ) ≤ l.length + 1 := by omega
          exact_mod_cast this
        have hlt2 : l.length + 1 < 50 := by omega
        rw [if_neg hk]
        simp only [hcl, hmin, h49, hlt2, if_true, if_false]
        refine ⟨by simpa using hp, by push_cast; ring, trivial, ?_, trivial⟩
        push_cast
        rfl
    · have hp : ¬ (FSimpleFIOperator.run N (100 : α)
          (⟨none, some g, 1 / 2⟩ :: l.map (fun t => ⟨none, none, t⟩))).ProcessFade = true := by
        rw [h1]; simpa using hlt
      have hlt2 : ¬ l.length + 1 < 50 := by omega
      have hne : ¬ l.length + 1 = 50 := by omega
      have hmin : min (l.length + 1) 50 = 50 := min_eq_right (by omega)
      have hmin0 : min l.length 50 = 50 := min_eq_right (by omega)
      rw [if_neg hp]
      simp only [h2, h3, h4, hlt, hlt2, hne, hmin, hmin0, if_false]
      refine ⟨?_, trivial, trivial, trivial, trivial⟩
      simpa using hp

end FadeInScenario

section FadeInScenarioClaims

variable {α : Type} [LinearOrderedField α]

/-- C12 (amended). Fade-in trigger scenario: with block rate 100 and fade time 0.5 s
(`FadeBlockCount = 50`), on a new fade-in generator a start edge in block 0 and no further
edge leaves the envelope at `0` in block 0 (the ramp step of a block runs before its edge
handling) and emits the start event there; block `j ≥ 1` writes the envelope `j/50`, up to
`1` at block 50 and from then on; the finished event is emitted exactly at block 50, at the end
frame of the block. -/
theorem C12_fade_in_scenario (N g : ℕ) (idle : List α) :
    (FSimpleFIOperator.run N (100 : α) [⟨none, some g, 1 / 2⟩]).OutEnvelope = 0 ∧
    (FSimpleFIOperator.run N (100 : α) [⟨none, some g, 1 / 2⟩]).TriggerStartIn = [g] ∧
    (FSimpleFIOperator.run N 100
      (⟨none, some g, 1 / 2⟩ :: idle.map (fun t => ⟨none, none, t⟩))).FadeBlockCount = 50 ∧
    (FSimpleFIOperator.run N 100
      (⟨none, some g, 1 / 2⟩ :: idle.map (fun t => ⟨none, none, t⟩))).OutEnvelope
      = ((min idle.length 50 : ℕ) : α) / 50 ∧
    (FSimpleFIOperator.run N 100
      (⟨none, some g, 1 / 2⟩ :: idle.map (fun t => ⟨none, none, t⟩))).TriggerFinished
      = (if idle.length = 50 then [N] else []) := by
  obtain ⟨-, -, h3, h4, h5⟩ := fade_in_scenario_state (α := α) N g idle
  obtain ⟨-, -, -, k4, -⟩ := fade_in_scenario_state (α := α) N g []
  refine ⟨?_, ?_, h3, h4, h5⟩
  · rw [List.map_nil] at k4
    rw [k4]
    simp
  · have h : FSimpleFIOperator.run N (100 : α) [⟨none, some g, 1 / 2⟩]
        = (FSimpleFIOperator.construct (100 : α)).Execute N none (some g) (1 / 2) := rfl
    rw [h, fadeIn_Execute_start]

/-- Counterexample to C12 as stated: at block 0, the block of the start edge, the envelope of
the new fade-in generator is not `1/50` (it is still `0`). -/
theorem C12_counterexample :
    (FSimpleFIOperator.run 64 (100 : ℚ) [⟨none, some 0, 1 / 2⟩]).OutEnvelope ≠ 1 / 50 := by
  obtain ⟨-, -, -, k4, -⟩ := fade_in_scenario_state (α := ℚ) 64 0 []
  rw [List.map_nil] at k4
  rw [k4]
  norm_num

end FadeInScenarioClaims

/-! ## C13: a start edge during a ramp -/

section Restart

variable {α : Type} [LinearOrderedField α]

/-- C13 (amended). Envelope restart: for both envelope generators, a start edge arriving (with
no reset edge) in a block while a ramp is in progress (`ProcessFade`, `FadeCounter = k > 1`)
does not reset `FadeCounter`.  The block first makes the ramp step with the old
`FadeBlockCount = n` (the envelope `clamp(k/n, 0, 1)`, resp. `clamp(1 - k/n, 0, 1)`, of the
`float` quotient `k/n` is written, the end value of the ramp when `n = 0`; `FadeCounter`
becomes `k + 1`, or `1`
with a finished event at the frame of the edge when `k ≥ n`), then emits the start event, stays
Ramping and stores the new `FadeBlockCount = BlockRate * d`: unless the old ramp ended
in this block, the ramp goes on from `FadeCounter = k + 1 ≠ 1` with the new `FadeBlockCount`. -/
theorem C13_start_while_ramping (N g : ℕ) (si : FSimpleFIOperator α)
    (so : FSimpleFOOperator α) (d : α) (hpi : si.ProcessFade = true) (hki : 1 < si.FadeCounter)
    (hpo : so.ProcessFade = true) (hko : 1 < so.FadeCounter) :
    ((si.Execute N none (some g) d).FadeCounter
        = (if si.FadeBlockCount ≤ si.FadeCounter then 1 else si.FadeCounter + 1) ∧
      (si.Execute N none (some g) d).OutEnvelope
        = ClampFloat (FloatDiv si.FadeCounter si.FadeBlockCount) 0 1 ∧
      (si.Execute N none (some g) d).TriggerFinished
        = (if si.FadeBlockCount ≤ si.FadeCounter then [g] else []) ∧
      (si.Execute N none (some g) d).TriggerStartIn = [g] ∧
      (si.Execute N none (some g) d).ProcessFade = true ∧
      (si.Execute N none (some g) d).FadeBlockCount = si.BlockRate * d ∧
      (¬ si.FadeBlockCount ≤ si.FadeCounter →
        (si.Execute N none (some g) d).FadeCounter ≠ 1) ∧
      (si.FadeBlockCount ≠ 0 →
        (si.Execute N none (some g) d).OutEnvelope
          = Clamp (si.FadeCounter / si.FadeBlockCount) 0 1) ∧
      (si.FadeBlockCount = 0 → (si.Execute N none (some g) d).OutEnvelope = 1)) ∧
    ((so.Execute N none (some g) d).FadeCounter
        = (if so.FadeBlockCount ≤ so.FadeCounter then 1 else so.FadeCounter + 1) ∧
      (so.Execute N none (some g) d).OutEnvelope
        = ClampFloat (FloatSub 1 (FloatDiv so.FadeCounter so.FadeBlockCount)) 0 1 ∧
      (so.Execute N none (some g) d).TriggerFinished
        = (if so.FadeBlockCount ≤ so.FadeCounter then [g] else []) ∧
      (so.Execute N none (some g) d).TriggerStartOut = [g] ∧
      (so.Execute N none (some g) d).ProcessFade = true ∧
      (so.Execute N none (some g) d).FadeBlockCount = so.BlockRate * d ∧
      (¬ so.FadeBlockCount ≤ so.FadeCounter →
        (so.Execute N none (some g) d).FadeCounter ≠ 1) ∧
      (so.FadeBlockCount ≠ 0 →
        (so.Execute N none (some g) d).OutEnvelope
          = Clamp (1 - so.FadeCounter / so.FadeBlockCount) 0 1) ∧
      (so.FadeBlockCount = 0 → (so.Execute N none (some g) d).OutEnvelope = 0)) := by
  have hei : (si.Execute N none (some g) d).OutEnvelope
      = ClampFloat (FloatDiv si.FadeCounter si.FadeBlockCount) 0 1 := by
    rw [fadeIn_Execute_start, fadeIn_Execute_none, if_pos hpi]
    split_ifs <;> rfl
  have heo : (so.Execute N none (some g) d).OutEnvelope
      = ClampFloat (FloatSub 1 (FloatDiv so.FadeCounter so.FadeBlockCount)) 0 1 := by
    rw [fadeOut_Execute_start, fadeOut_Execute_none, if_pos hpo]
    split_ifs <;> rfl
  have hi0 : (0 : α) < si.FadeCounter := lt_trans zero_lt_one hki
  have ho0 : (0 : α) < so.FadeCounter := lt_trans zero_lt_one hko
  refine ⟨⟨?_, hei, ?_, ?_, ?_, ?_, ?_, fun hn => ?_, fun hz => ?_⟩,
    ⟨?_, heo, ?_, ?_, ?_, ?_, ?_, fun hn => ?_, fun hz => ?_⟩⟩
  · rw [fadeIn_Execute_start, fadeIn_Execute_none, if_pos hpi]
    split_ifs <;> rfl
  · rw [fadeIn_Execute_start, fadeIn_Execute_none, if_pos hpi]
    split_ifs <;> rfl
  · rw [fadeIn_Execute_start]
  · rw [fadeIn_Execute_start]
  · rw [fadeIn_Execute_start]
  · intro hk
    rw [fadeIn_Execute_start, fadeIn_Execute_none, if_pos hpi, if_neg hk]
    show si.FadeCounter + 1 ≠ 1
    intro h
    linarith
  · rw [hei, ClampFloat_FloatDiv _ _ _ _ hn]
  · rw [hei, hz]
    exact ClampFloat_FloatDiv_zero _ hi0
  · rw [fadeOut_Execute_start, fadeOut_Execute_none, if_pos hpo]
    split_ifs <;> rfl
  · rw [fadeOut_Execute_start, fadeOut_Execute_none, if_pos hpo]
    split_ifs <;> rfl
  · rw [fadeOut_Execute_start]
  · rw [fadeOut_Execute_start]
  · rw [fadeOut_Execute_start]
  · intro hk
    rw [fadeOut_Execute_start, fadeOut_Execute_none, if_pos hpo, if_neg hk]
    show so.FadeCounter + 1 ≠ 1
    intro h
    linarith
  · rw [heo, ClampFloat_FloatSub_FloatDiv _ _ _ _ _ hn]
  · rw [heo, hz]
    exact ClampFloat_FloatSub_FloatDiv_zero _ ho0

/-- Counterexample to C13 as stated: a fade-in generator at block rate 100, started with fade
time `1/2` and one block into its ramp (`FadeCounter = 2 > 1`), receives a start edge; after
that block `FadeCounter` is `3`, not `1`. -/
theorem C13_counterexample :
    (FSimpleFIOperator.run 64 (100 : ℚ)
      [⟨none, some 0, 1 / 2⟩, ⟨none, none, 1 / 2⟩]).ProcessFade = true ∧
    1 < (FSimpleFIOperator.run 64 (100 : ℚ)
      [⟨none, some 0, 1 / 2⟩, ⟨none, none, 1 / 2⟩]).FadeCounter ∧
    ((FSimpleFIOperator.run 64 (100 : ℚ)
      [⟨none, some 0, 1 / 2⟩, ⟨none, none, 1 / 2⟩]).Execute 64 none (some 5)
        (1 / 2)).FadeCounter ≠ 1 := by
  obtain ⟨h1, h2, h3, -, -⟩ := fade_in_scenario_state (α := ℚ) 64 0 [1 / 2]
  have hl : [(1 / 2 : ℚ)].map (fun t => (⟨none, none, t⟩ : FadeInputs ℚ))
      = [⟨none, none, 1 / 2⟩] := rfl
  rw [hl] at h1 h2 h3
  have hp : (FSimpleFIOperator.run 64 (100 : ℚ)
      [⟨none, some 0, 1 / 2⟩, ⟨none, none, 1 / 2⟩]).ProcessFade = true := by
    rw [h1]; rfl
  have hc : (FSimpleFIOperator.run 64 (100 : ℚ)
      [⟨none, some 0, 1 / 2⟩, ⟨none, none, 1 / 2⟩]).FadeCounter = 2 := by
    rw [h2]; norm_num
  refine ⟨hp, by rw [hc]; norm_num, ?_⟩
  rw [fadeIn_Execute_start, fadeIn_Execute_none, if_pos hp, h3, hc]
  norm_num

/-- Witness of C13 (amended): both generators two blocks into a ramp of 50 blocks. -/
theorem C13_start_while_ramping_witness :
    (⟨[], [], 1 / 25, 100, 50, 1 / 25, 3, true⟩ : FSimpleFIOperator ℚ).ProcessFade = true ∧
    (1 : ℚ) < (⟨[], [], 1 / 25, 100, 50, 1 / 25, 3, true⟩ : FSimpleFIOperator ℚ).FadeCounter ∧
    (⟨[], [], 24 / 25, 100, 50, 24 / 25, 3, true⟩ : FSimpleFOOperator ℚ).ProcessFade = true ∧
    (1 : ℚ) < (⟨[], [], 24 / 25, 100, 50, 24 / 25, 3, true⟩ : FSimpleFOOperator ℚ).FadeCounter ∧
    ((⟨[], [], 1 / 25, 100, 50, 1 / 25, 3, true⟩ : FSimpleFIOperator ℚ).Execute 64 none
      (some 5) 1).FadeBlockCount
      = (⟨[], [], 1 / 25, 100, 50, 1 / 25, 3, true⟩ : FSimpleFIOperator ℚ).BlockRate * 1 :=
  have h3 : (1 : ℚ) < 3 := by norm_num
  ⟨rfl, h3, rfl, h3,
    (C13_start_while_ramping 64 5
      (⟨[], [], 1 / 25, 100, 50, 1 / 25, 3, true⟩ : FSimpleFIOperator ℚ)
      (⟨[], [], 24 / 25, 100, 50, 24 / 25, 3, true⟩ : FSimpleFOOperator ℚ) 1 rfl h3 rfl
      h3).1.2.2.2.2.2.1⟩

end Restart

/-! ## C21: the envelope written with the finished event -/

section FinishedValue

variable {α : Type} [LinearOrderedField α]

/-- Fade-in: fields of a block with a start edge and no reset edge that come from its ramp
step. -/
theorem fadeIn_start_fields (N g : ℕ) (s : FSimpleFIOperator α) (t : α) :
    (s.Execute N none (some g) t).TriggerFinished = (s.Execute g none none t).TriggerFinished ∧
    (s.Execute N none (some g) t).OutEnvelope = (s.Execute g none none t).OutEnvelope ∧
    (s.Execute N none (some g) t).FadeCounter = (s.Execute g none none t).FadeCounter := by
  rw [fadeIn_Execute_start]
  exact ⟨rfl, rfl, rfl⟩

/-- Fade-out: fields of a block with a start edge and no reset edge that come from its ramp
step. -/
theorem fadeOut_start_fields (N g : ℕ) (s : FSimpleFOOperator α) (t : α) :
    (s.Execute N none (some g) t).TriggerFinished = (s.Execute g none none t).TriggerFinished ∧
    (s.Execute N none (some g) t).OutEnvelope = (s.Execute g none none t).OutEnvelope ∧
    (s.Execute N none (some g) t).FadeCounter = (s.Execute g none none t).FadeCounter := by
  rw [fadeOut_Execute_start]
  exact ⟨rfl, rfl, rfl⟩

/-- Fade-in, a block with no edge that emits the finished event. -/
theorem fadeIn_finished_none (N : ℕ) (s : FSimpleFIOperator α) (t : α)
    (hn : 0 < s.FadeBlockCount) (hfin : (s.Execute N none none t).TriggerFinished ≠ []) :
    (s.Execute N none none t).OutEnvelope = 1 := by
  rw [fadeIn_Execute_none] at hfin ⊢
  by_cases hp : s.ProcessFade = true
  · by_cases hk : s.FadeBlockCount ≤ s.FadeCounter
    · rw [if_pos hp, if_pos hk]
      show ClampFloat (FloatDiv s.FadeCounter s.FadeBlockCount) 0 1 = 1
      rw [ClampFloat_FloatDiv _ _ _ _ (ne_of_gt hn)]
      exact Clamp_of_ge zero_le_one ((one_le_div hn).mpr hk)
    · rw [if_pos hp, if_neg hk] at hfin
      exact absurd rfl hfin
  · rw [if_neg hp] at hfin
    exact absurd rfl hfin

/-- Fade-out, a block with no edge that emits the finished event. -/
theorem fadeOut_finished_none (N : ℕ) (s : FSimpleFOOperator α) (t : α)
    (hn : 0 < s.FadeBlockCount) (hfin : (s.Execute N none none t).TriggerFinished ≠ []) :
    (s.Execute N none none t).OutEnvelope = 0 := by
  rw [fadeOut_Execute_none] at hfin ⊢
  by_cases hp : s.ProcessFade = true
  · by_cases hk : s.FadeBlockCount ≤ s.FadeCounter
    · rw [if_pos hp, if_pos hk]
      have h1 : 1 ≤ s.FadeCounter / s.FadeBlockCount := (one_le_div hn).mpr hk
      show ClampFloat (FloatSub 1 (FloatDiv s.FadeCounter s.FadeBlockCount)) 0 1 = 0
      rw [ClampFloat_FloatSub_FloatDiv _ _ _ _ _ (ne_of_gt hn)]
      exact Clamp_of_le (by linarith)
    · rw [if_pos hp, if_neg hk] at hfin
      exact absurd rfl hfin
  · rw [if_neg hp] at hfin
    exact absurd rfl hfin

/-- C21. Finished implies end value: for both envelope generators, from every state whose
`FadeBlockCount` is positive (whole or not) and for every block (any reset edge, start edge and
fade time), if the finished event is emitted in the block then the envelope written in that
block is the end value of the ramp, `1` for fade-in and `0` for fade-out. -/
theorem C21_finished_end_value (N : ℕ) (r g : Option ℕ) (t : α) (si : FSimpleFIOperator α)
    (so : FSimpleFOOperator α) :
    (0 < si.FadeBlockCount → (si.Execute N r g t).TriggerFinished ≠ [] →
      (si.Execute N r g t).OutEnvelope = 1) ∧
    (0 < so.FadeBlockCount → (so.Execute N r g t).TriggerFinished ≠ [] →
      (so.Execute N r g t).OutEnvelope = 0) := by
  constructor
  · intro hn hfin
    cases r with
    | none =>
      cases g with
      | none => exact fadeIn_finished_none N si t hn hfin
      | some g =>
        obtain ⟨e1, e2, -⟩ := fadeIn_start_fields N g si t
        rw [e1] at hfin
        rw [e2]
        exact fadeIn_finished_none g si t hn hfin
    | some f =>
      cases g with
      | none =>
        rw [fadeIn_Execute_reset] at hfin
        exact absurd rfl hfin
      | some g =>
        rw [fadeIn_Execute_reset_start] at hfin
        exact absurd rfl hfin
  · intro hn hfin
    cases r with
    | none =>
      cases g with
      | none => exact fadeOut_finished_none N so t hn hfin
      | some g =>
        obtain ⟨e1, e2, -⟩ := fadeOut_start_fields N g so t
        rw [e1] at hfin
        rw [e2]
        exact fadeOut_finished_none g so t hn hfin
    | some f =>
      cases g with
      | none =>
        rw [fadeOut_Execute_reset] at hfin
        exact absurd rfl hfin
      | some g =>
        rw [fadeOut_Execute_reset_start] at hfin
        exact absurd rfl hfin

/-- Witness of C21: a fade-in generator with `FadeBlockCount = 5/2` and `FadeCounter = 3`. -/
theorem C21_finished_end_value_witness :
    (0 : ℚ) < (⟨[], [], 4 / 5, 5, 5 / 2, 4 / 5, 3, true⟩ : FSimpleFIOperator ℚ).FadeBlockCount ∧
    ((⟨[], [], 4 / 5, 5, 5 / 2, 4 / 5, 3, true⟩ : FSimpleFIOperator ℚ).Execute 64 none none
      (1 / 2)).TriggerFinished ≠ [] ∧
    ((⟨[], [], 4 / 5, 5, 5 / 2, 4 / 5, 3, true⟩ : FSimpleFIOperator ℚ).Execute 64 none none
      (1 / 2)).OutEnvelope = 1 :=
  have hn : (0 : ℚ)
      < (⟨[], [], 4 / 5, 5, 5 / 2, 4 / 5, 3, true⟩ : FSimpleFIOperator ℚ).FadeBlockCount := by
    show (0 : ℚ) < 5 / 2
    norm_num
  have hfin : ((⟨[], [], 4 / 5, 5, 5 / 2, 4 / 5, 3, true⟩ : FSimpleFIOperator ℚ).Execute 64
      none none (1 / 2)).TriggerFinished ≠ [] := by
    rw [fadeIn_Execute_none, if_pos rfl,
      if_pos (show (5 / 2 : ℚ) ≤ 3 by norm_num)]
    simp
  ⟨hn, hfin,
    (C21_finished_end_value 64 none none (1 / 2)
      (⟨[], [], 4 / 5, 5, 5 / 2, 4 / 5, 3, true⟩ : FSimpleFIOperator ℚ)
      (FSimpleFOOperator.construct 5)).1 hn hfin⟩

end FinishedValue

/-! ## C24: not Ramping implies `FadeCounter = 1` -/

section IdleCounter

variable {α : Type} [LinearOrderedField α]

/-- Fade-in: one block keeps the two facts that not Ramping implies `FadeCounter = 1` and
that `1 ≤ FadeCounter`. -/
theorem fadeIn_step_counter (N : ℕ) (r g : Option ℕ) (t : α) (s : FSimpleFIOperator α)
    (h1 : s.ProcessFade = false → s.FadeCounter = 1) (h2 : 1 ≤ s.FadeCounter) :
    ((s.Execute N r g t).ProcessFade = false → (s.Execute N r g t).FadeCounter = 1) ∧
    1 ≤ (s.Execute N r g t).FadeCounter ∧
    (s.Execute N r g t).BlockRate = s.BlockRate := by
  have hnone : ∀ M : ℕ,
      ((s.Execute M none none t).ProcessFade = false →
        (s.Execute M none none t).FadeCounter = 1) ∧
      1 ≤ (s.Execute M none none t).FadeCounter ∧
      (s.Execute M none none t).BlockRate = s.BlockRate := by
    intro M
    rw [fadeIn_Execute_none]
    by_cases hp : s.ProcessFade = true
    · by_cases hk : s.FadeBlockCount ≤ s.FadeCounter
      · rw [if_pos hp, if_pos hk]
        exact ⟨fun _ => rfl, le_refl _, rfl⟩
      · rw [if_pos hp, if_neg hk]
        refine ⟨fun h => ?_, ?_, rfl⟩
        · rw [hp] at h
          exact Bool.noConfusion h
        · show 1 ≤ s.FadeCounter + 1
          linarith
    · rw [if_neg hp]
      exact ⟨h1, h2, rfl⟩
  cases r with
  | none =>
    cases g with
    | none => exact hnone N
    | some g =>
      rw [fadeIn_Execute_start]
      exact ⟨fun h => Bool.noConfusion h, (hnone g).2.1, (hnone g).2.2⟩
  | some f =>
    cases g with
    | none =>
      rw [fadeIn_Execute_reset]
      exact ⟨fun _ => rfl, le_refl _, rfl⟩
    | some g =>
      rw [fadeIn_Execute_reset_start]
      exact ⟨fun _ => rfl, le_refl _, rfl⟩

/-- Fade-in: every state reached from construction has `FadeCounter = 1` when not Ramping,
`1 ≤ FadeCounter`, and the block rate of the construction. -/
theorem fadeIn_run_counter (N : ℕ) (rate : α) (blocks : List (FadeInputs α)) :
    ((FSimpleFIOperator.run N rate blocks).ProcessFade = false →
      (FSimpleFIOperator.run N rate blocks).FadeCounter = 1) ∧
    1 ≤ (FSimpleFIOperator.run N rate blocks).FadeCounter ∧
    (FSimpleFIOperator.run N rate blocks).BlockRate = rate := by
  induction blocks using List.reverseRecOn with
  | nil => exact ⟨fun _ => rfl, le_refl _, rfl⟩
  | append_singleton bs b ih =>
    have hrun : FSimpleFIOperator.run N rate (bs ++ [b])
        = (FSimpleFIOperator.run N rate bs).Execute N b.Reset b.Trigger b.Time := by
      unfold FSimpleFIOperator.run
      rw [List.foldl_append]
      rfl
    rw [hrun]
    obtain ⟨k1, k2, k3⟩ := fadeIn_step_counter N b.Reset b.Trigger b.Time _ ih.1 ih.2.1
    exact ⟨k1, k2, k3.trans ih.2.2⟩

/-- Fade-in: a start edge received while not Ramping with `FadeCounter = 1` begins the ramp at
its first step. -/
theorem fadeIn_start_idle (N g : ℕ) (r : Option ℕ) (s : FSimpleFIOperator α) (d t : α)
    (hp : s.ProcessFade = false) (hc : s.FadeCounter = 1) :
    (s.Execute N r (some g) d).ProcessFade = true ∧
    (s.Execute N r (some g) d).FadeCounter = 1 ∧
    (s.Execute N r (some g) d).FadeBlockCount = s.BlockRate * d ∧
    (s.Execute N r (some g) d).TriggerStartIn = [g] ∧
    ((s.Execute N r (some g) d).Execute N none none t).OutEnvelope
      = ClampFloat (FloatDiv 1 (s.BlockRate * d)) 0 1 := by
  cases r with
  | none =>
    rw [fadeIn_Execute_none, fadeIn_Execute_start, fadeIn_Execute_none, if_neg (by simp [hp])]
    simp only [hc]
    split_ifs <;> simp
  | some f =>
    rw [fadeIn_Execute_none, fadeIn_Execute_reset_start]
    simp only []
    split_ifs <;> simp

/-- Fade-out: one block keeps the two facts that not Ramping implies `FadeCounter = 1` and
that `1 ≤ FadeCounter`. -/
theorem fadeOut_step_counter (N : ℕ) (r g : Option ℕ) (t : α) (s : FSimpleFOOperator α)
    (h1 : s.ProcessFade = false → s.FadeCounter = 1) (h2 : 1 ≤ s.FadeCounter) :
    ((s.Execute N r g t).ProcessFade = false → (s.Execute N r g t).FadeCounter = 1) ∧
    1 ≤ (s.Execute N r g t).FadeCounter ∧
    (s.Execute N r g t).BlockRate = s.BlockRate := by
  have hnone : ∀ M : ℕ,
      ((s.Execute M none none t).ProcessFade = false →
        (s.Execute M none none t).FadeCounter = 1) ∧
      1 ≤ (s.Execute M none none t).FadeCounter ∧
      (s.Execute M none none t).BlockRate = s.BlockRate := by
    intro M
    rw [fadeOut_Execute_none]
    by_cases hp : s.ProcessFade = true
    · by_cases hk : s.FadeBlockCount ≤ s.FadeCounter
      · rw [if_pos hp, if_pos hk]
        exact ⟨fun _ => rfl, le_refl _, rfl⟩
      · rw [if_pos hp, if_neg hk]
        refine ⟨fun h => ?_, ?_, rfl⟩
        · rw [hp] at h
          exact Bool.noConfusion h
        · show 1 ≤ s.FadeCounter + 1
          linarith
    · rw [if_neg hp]
      exact ⟨h1, h2, rfl⟩
  cases r with
  | none =>
    cases g with
    | none => exact hnone N
    | some g =>
      rw [fadeOut_Execute_start]
      exact ⟨fun h => Bool.noConfusion h, (hnone g).2.1, (hnone g).2.2⟩
  | some f =>
    cases g with
    | none =>
      rw [fadeOut_Execute_reset]
      exact ⟨fun _ => rfl, le_refl _, rfl⟩
    | some g =>
      rw [fadeOut_Execute_reset_start]
      exact ⟨fun _ => rfl, le_refl _, rfl⟩

/-- Fade-out: every state reached from construction has `FadeCounter = 1` when not Ramping,
`1 ≤ FadeCounter`, and the block rate of the construction. -/
theorem fadeOut_run_counter (N : ℕ) (rate : α) (blocks : List (FadeInputs α)) :
    ((FSimpleFOOperator.run N rate blocks).ProcessFade = false →
      (FSimpleFOOperator.run N rate blocks).FadeCounter = 1) ∧
    1 ≤ (FSimpleFOOperator.run N rate blocks).FadeCounter ∧
    (FSimpleFOOperator.run N rate blocks).BlockRate = rate := by
  induction blocks using List.reverseRecOn with
  | nil => exact ⟨fun _ => rfl, le_refl _, rfl⟩
  | append_singleton bs b ih =>
    have hrun : FSimpleFOOperator.run N rate (bs ++ [b])
        = (FSimpleFOOperator.run N rate bs).Execute N b.Reset b.Trigger b.Time := by
      unfold FSimpleFOOperator.run
      rw [List.foldl_append]
      rfl
    rw [hrun]
    obtain ⟨k1, k2, k3⟩ := fadeOut_step_counter N b.Reset b.Trigger b.Time _ ih.1 ih.2.1
    exact ⟨k1, k2, k3.trans ih.2.2⟩

/-- Fade-out: a start edge received while not Ramping with `FadeCounter = 1` begins the ramp at
its first step. -/
theorem fadeOut_start_idle (N g : ℕ) (r : Option ℕ) (s : FSimpleFOOperator α) (d t : α)
    (hp : s.ProcessFade = false) (hc : s.FadeCounter = 1) :
    (s.Execute N r (some g) d).ProcessFade = true ∧
    (s.Execute N r (some g) d).FadeCounter = 1 ∧
    (s.Execute N r (some g) d).FadeBlockCount = s.BlockRate * d ∧
    (s.Execute N r (some g) d).TriggerStartOut = [g] ∧
    ((s.Execute N r (some g) d).Execute N none none t).OutEnvelope
      = ClampFloat (FloatSub 1 (FloatDiv 1 (s.BlockRate * d))) 0 1 := by
  cases r with
  | none =>
    rw [fadeOut_Execute_none, fadeOut_Execute_start, fadeOut_Execute_none, if_neg (by simp [hp])]
    simp only [hc]
    split_ifs <;> simp
  | some f =>
    rw [fadeOut_Execute_none, fadeOut_Execute_reset_start]
    simp only []
    split_ifs <;> simp

/-- C24. Idle implies counter at 1: for both envelope generators, in every state reached from
construction by any sequence of blocks, `ProcessFade = false` implies `FadeCounter = 1`, and
`FadeCounter ≥ 1` always; hence a start edge received while idle (with or without a reset edge
in the same block) begins a ramp from its first step: Ramping with `FadeCounter = 1` and
`FadeBlockCount = BlockRate * d`, and the next block writes the envelope of the counter value
`1`: `clamp(1 / FadeBlockCount, 0, 1)` (fade-in) or `clamp(1 - 1 / FadeBlockCount, 0, 1)`
(fade-out) with the `float` quotient, which for `FadeBlockCount = 0` is the end value of the
ramp (`1` for fade-in, `0` for fade-out). -/
theorem C24_idle_counter (N g : ℕ) (r : Option ℕ) (rate d t : α)
    (blocks : List (FadeInputs α)) :
    (((FSimpleFIOperator.run N rate blocks).ProcessFade = false →
        (FSimpleFIOperator.run N rate blocks).FadeCounter = 1) ∧
      1 ≤ (FSimpleFIOperator.run N rate blocks).FadeCounter ∧
      ((FSimpleFIOperator.run N rate blocks).ProcessFade = false →
        ((FSimpleFIOperator.run N rate blocks).Execute N r (some g) d).ProcessFade = true ∧
        ((FSimpleFIOperator.run N rate blocks).Execute N r (some g) d).FadeCounter = 1 ∧
        ((FSimpleFIOperator.run N rate blocks).Execute N r (some g) d).FadeBlockCount = rate * d ∧
        ((FSimpleFIOperator.run N rate blocks).Execute N r (some g) d).TriggerStartIn = [g] ∧
        (((FSimpleFIOperator.run N rate blocks).Execute N r (some g) d).Execute N none none t).OutEnvelope
          = ClampFloat (FloatDiv 1 (rate * d)) 0 1 ∧
        (rate * d ≠ 0 →
          (((FSimpleFIOperator.run N rate blocks).Execute N r (some g) d).Execute N none none t).OutEnvelope
            = Clamp (1 / (rate * d)) 0 1) ∧
        (rate * d = 0 →
          (((FSimpleFIOperator.run N rate blocks).Execute N r (some g) d).Execute N none none t).OutEnvelope
            = 1))) ∧
    (((FSimpleFOOperator.run N rate blocks).ProcessFade = false →
        (FSimpleFOOperator.run N rate blocks).FadeCounter = 1) ∧
      1 ≤ (FSimpleFOOperator.run N rate blocks).FadeCounter ∧
      ((FSimpleFOOperator.run N rate blocks).ProcessFade = false →
        ((FSimpleFOOperator.run N rate blocks).Execute N r (some g) d).ProcessFade = true ∧
        ((FSimpleFOOperator.run N rate blocks).Execute N r (some g) d).FadeCounter = 1 ∧
        ((FSimpleFOOperator.run N rate blocks).Execute N r (some g) d).FadeBlockCount = rate * d ∧
        ((FSimpleFOOperator.run N rate blocks).Execute N r (some g) d).TriggerStartOut = [g] ∧
        (((FSimpleFOOperator.run N rate blocks).Execute N r (some g) d).Execute N none none t).OutEnvelope
          = ClampFloat (FloatSub 1 (FloatDiv 1 (rate * d))) 0 1 ∧
        (rate * d ≠ 0 →
          (((FSimpleFOOperator.run N rate blocks).Execute N r (some g) d).Execute N none none t).OutEnvelope
            = Clamp (1 - 1 / (rate * d)) 0 1) ∧
        (rate * d = 0 →
          (((FSimpleFOOperator.run N rate blocks).Execute N r (some g) d).Execute N none none t).OutEnvelope
            = 0))) := by
  obtain ⟨i1, i2, i3⟩ := fadeIn_run_counter N rate blocks
  obtain ⟨o1, o2, o3⟩ := fadeOut_run_counter N rate blocks
  refine ⟨⟨i1, i2, fun hp => ?_⟩, ⟨o1, o2, fun hp => ?_⟩⟩
  · have h := fadeIn_start_idle N g r _ d t hp (i1 hp)
    rw [i3] at h
    refine ⟨h.1, h.2.1, h.2.2.1, h.2.2.2.1, h.2.2.2.2, fun hn => ?_, fun hz => ?_⟩
    · rw [h.2.2.2.2, ClampFloat_FloatDiv _ _ _ _ hn]
    · rw [h.2.2.2.2, hz]
      exact ClampFloat_FloatDiv_zero 1 zero_lt_one
  · have h := fadeOut_start_idle N g r _ d t hp (o1 hp)
    rw [o3] at h
    refine ⟨h.1, h.2.1, h.2.2.1, h.2.2.2.1, h.2.2.2.2, fun hn => ?_, fun hz => ?_⟩
    · rw [h.2.2.2.2, ClampFloat_FloatSub_FloatDiv _ _ _ _ _ hn]
    · rw [h.2.2.2.2, hz]
      exact ClampFloat_FloatSub_FloatDiv_zero 1 zero_lt_one

/-- Witness of C24: a fade-in generator at block rate 100 that was started and reset, then
receives a start edge with fade time `1/2`. -/
theorem C24_idle_counter_witness :
    (FSimpleFIOperator.run 64 (100 : ℚ)
      [⟨none, some 0, 1 / 2⟩, ⟨some 7, none, 1 / 2⟩]).ProcessFade = false ∧
    (FSimpleFIOperator.run 64 (100 : ℚ)
      [⟨none, some 0, 1 / 2⟩, ⟨some 7, none, 1 / 2⟩]).FadeCounter = 1 ∧
    ((FSimpleFIOperator.run 64 (100 : ℚ)
      [⟨none, some 0, 1 / 2⟩, ⟨some 7, none, 1 / 2⟩]).Execute 64 none (some 3)
        (1 / 2)).FadeCounter = 1 :=
  have hp : (FSimpleFIOperator.run 64 (100 : ℚ)
      [⟨none, some 0, 1 / 2⟩, ⟨some 7, none, 1 / 2⟩]).ProcessFade = false := by
    show (((FSimpleFIOperator.construct (100 : ℚ)).Execute 64 none (some 0) (1 / 2)).Execute 64
      (some 7) none (1 / 2)).ProcessFade = false
    rw [fadeIn_Execute_reset]
  ⟨hp,
    (C24_idle_counter 64 3 none (100 : ℚ) (1 / 2) (1 / 2)
      [⟨none, some 0, 1 / 2⟩, ⟨some 7, none, 1 / 2⟩]).1.1 hp,
    ((C24_idle_counter 64 3 none (100 : ℚ) (1 / 2) (1 / 2)
      [⟨none, some 0, 1 / 2⟩, ⟨some 7, none, 1 / 2⟩]).1.2.2 hp).2.1⟩

end IdleCounter

/-! ## C22: fade-in and fade-out are mirror images -/

section Mirror

variable {α : Type} [LinearOrderedField α]

theorem Clamp_one_sub (x : α) : Clamp (1 - x) 0 1 = 1 - Clamp x 0 1 := by
  unfold Clamp
  rcases le_total x 0 with h0 | h0
  · rw [min_eq_right (by linarith), min_eq_left (by linarith), max_eq_left zero_le_one,
      max_eq_right h0, sub_zero]
  · rcases le_total x 1 with h1 | h1
    · rw [min_eq_left (by linarith), min_eq_left h1, max_eq_left (by linarith),
        max_eq_left h0]
    · rw [min_eq_left (by linarith), min_eq_right h1, max_eq_right (by linarith),
        max_eq_left zero_le_one, sub_self]

/-- The two clamped ramp values of a positive counter mirror each other, also for the block
count zero. -/
theorem ClampFloat_mirror (k n : α) (hk : 0 < k) :
    ClampFloat (FloatSub 1 (FloatDiv k n)) 0 1 = 1 - ClampFloat (FloatDiv k n) 0 1 := by
  by_cases hn : n = 0
  · rw [hn, ClampFloat_FloatSub_FloatDiv_zero k hk, ClampFloat_FloatDiv_zero k hk, sub_self]
  · rw [ClampFloat_FloatSub_FloatDiv _ _ _ _ _ hn, ClampFloat_FloatDiv _ _ _ _ hn]
    exact Clamp_one_sub _

/-- One block fed to a fade-in and a fade-out generator that mirror each other, with a positive
counter, leaves them mirroring each other. -/
theorem mirror_step (N : ℕ) (r g : Option ℕ) (t : α) (si : FSimpleFIOperator α)
    (so : FSimpleFOOperator α) (hpos : 0 < si.FadeCounter)
    (h : so.OutEnvelope = 1 - si.OutEnvelope ∧ so.ProcessFade = si.ProcessFade ∧
      so.FadeCounter = si.FadeCounter ∧ so.FadeBlockCount = si.FadeBlockCount ∧
      so.BlockRate = si.BlockRate) :
    ((so.Execute N r g t).OutEnvelope = 1 - (si.Execute N r g t).OutEnvelope ∧
      (so.Execute N r g t).ProcessFade = (si.Execute N r g t).ProcessFade ∧
      (so.Execute N r g t).FadeCounter = (si.Execute N r g t).FadeCounter ∧
      (so.Execute N r g t).FadeBlockCount = (si.Execute N r g t).FadeBlockCount ∧
      (so.Execute N r g t).BlockRate = (si.Execute N r g t).BlockRate) ∧
    (so.Execute N r g t).TriggerStartOut = (si.Execute N r g t).TriggerStartIn ∧
    (so.Execute N r g t).TriggerFinished = (si.Execute N r g t).TriggerFinished := by
  obtain ⟨he, hp, hc, hn, hr⟩ := h
  have hnone : ∀ M : ℕ,
      ((so.Execute M none none t).OutEnvelope = 1 - (si.Execute M none none t).OutEnvelope ∧
        (so.Execute M none none t).ProcessFade = (si.Execute M none none t).ProcessFade ∧
        (so.Execute M none none t).FadeCounter = (si.Execute M none none t).FadeCounter ∧
        (so.Execute M none none t).FadeBlockCount
          = (si.Execute M none none t).FadeBlockCount ∧
        (so.Execute M none none t).BlockRate = (si.Execute M none none t).BlockRate) ∧
      (so.Execute M none none t).TriggerStartOut = (si.Execute M none none t).TriggerStartIn ∧
      (so.Execute M none none t).TriggerFinished
        = (si.Execute M none none t).TriggerFinished := by
    intro M
    rw [fadeOut_Execute_none, fadeIn_Execute_none, hp, hc, hn]
    by_cases hpi : si.ProcessFade = true
    · by_cases hk : si.FadeBlockCount ≤ si.FadeCounter
      · rw [if_pos hpi, if_pos hk, if_pos hpi, if_pos hk]
        exact ⟨⟨ClampFloat_mirror _ _ hpos, rfl, rfl, rfl, hr⟩, rfl, rfl⟩
      · rw [if_pos hpi, if_neg hk, if_pos hpi, if_neg hk]
        exact ⟨⟨ClampFloat_mirror _ _ hpos, rfl, rfl, rfl, hr⟩, rfl, rfl⟩
    · rw [if_neg hpi, if_neg hpi]
      exact ⟨⟨he, rfl, rfl, rfl, hr⟩, rfl, rfl⟩
  cases r with
  | none =>
    cases g with
    | none => exact hnone N
    | some g =>
      obtain ⟨⟨k1, -, k3, -, k5⟩, -, k7⟩ := hnone g
      rw [fadeOut_Execute_start, fadeIn_Execute_start]
      exact ⟨⟨k1, rfl, k3, by simp only [hr], k5⟩, rfl, k7⟩
  | some f =>
    cases g with
    | none =>
      rw [fadeOut_Execute_reset, fadeIn_Execute_reset]
      exact ⟨⟨by simp, rfl, rfl, hn, hr⟩, rfl, rfl⟩
    | some g =>
      rw [fadeOut_Execute_reset_start, fadeIn_Execute_reset_start]
      exact ⟨⟨by simp, rfl, rfl, by simp only [hr], hr⟩, rfl, rfl⟩

/-- C22. Fade-in / fade-out mirror: for every sequence of per-block inputs (reset edges, start
edges with their frames, fade times) fed identically to a new fade-in and a new fade-out
generator with the same block rate, after every block the fade-out envelope equals `1` minus
the fade-in envelope, the two generators have the same `ProcessFade`, `FadeCounter` and
`FadeBlockCount`, and they have emitted the same start events and the same finished events in
the block, at the same frames. -/
theorem C22_mirror (N : ℕ) (rate : α) (blocks : List (FadeInputs α)) :
    (FSimpleFOOperator.run N rate blocks).OutEnvelope
      = 1 - (FSimpleFIOperator.run N rate blocks).OutEnvelope ∧
    (FSimpleFOOperator.run N rate blocks).ProcessFade
      = (FSimpleFIOperator.run N rate blocks).ProcessFade ∧
    (FSimpleFOOperator.run N rate blocks).FadeCounter
      = (FSimpleFIOperator.run N rate blocks).FadeCounter ∧
    (FSimpleFOOperator.run N rate blocks).FadeBlockCount
      = (FSimpleFIOperator.run N rate blocks).FadeBlockCount ∧
    (FSimpleFOOperator.run N rate blocks).TriggerStartOut
      = (FSimpleFIOperator.run N rate blocks).TriggerStartIn ∧
    (FSimpleFOOperator.run N rate blocks).TriggerFinished
      = (FSimpleFIOperator.run N rate blocks).TriggerFinished := by
  have key : ((FSimpleFOOperator.run N rate blocks).OutEnvelope
        = 1 - (FSimpleFIOperator.run N rate blocks).OutEnvelope ∧
      (FSimpleFOOperator.run N rate blocks).ProcessFade
        = (FSimpleFIOperator.run N rate blocks).ProcessFade ∧
      (FSimpleFOOperator.run N rate blocks).FadeCounter
        = (FSimpleFIOperator.run N rate blocks).FadeCounter ∧
      (FSimpleFOOperator.run N rate blocks).FadeBlockCount
        = (FSimpleFIOperator.run N rate blocks).FadeBlockCount ∧
      (FSimpleFOOperator.run N rate blocks).BlockRate
        = (FSimpleFIOperator.run N rate blocks).BlockRate) ∧
      (FSimpleFOOperator.run N rate blocks).TriggerStartOut
        = (FSimpleFIOperator.run N rate blocks).TriggerStartIn ∧
      (FSimpleFOOperator.run N rate blocks).TriggerFinished
        = (FSimpleFIOperator.run N rate blocks).TriggerFinished := by
    induction blocks using List.reverseRecOn with
    | nil =>
      refine ⟨⟨?_, rfl, rfl, rfl, rfl⟩, rfl, rfl⟩
      show (1 : α) = 1 - 0
      rw [sub_zero]
    | append_singleton bs b ih =>
      have hro : FSimpleFOOperator.run N rate (bs ++ [b])
          = (FSimpleFOOperator.run N rate bs).Execute N b.Reset b.Trigger b.Time := by
        unfold FSimpleFOOperator.run
        rw [List.foldl_append]
        rfl
      rw [hro, fadeIn_run_snoc]
      exact mirror_step N b.Reset b.Trigger b.Time _ _
        (lt_of_lt_of_le zero_lt_one (fadeIn_run_counter N rate bs).2.1) ih.1
  obtain ⟨⟨k1, k2, k3, k4, -⟩, k6, k7⟩ := key
  exact ⟨k1, k2, k3, k4, k6, k7⟩

end Mirror

/-! ## C23: equal power across the channels of the multi-input crossfader -/

section ChannelPower

variable {α : Type} [LinearOrderedField α]

/-- Squares of the gains written by one pass of the gain loop, summed over the channels. -/
theorem sum_gainOf_sq (N a b : ℕ) (A B : α) (ha : a < N) (hb : b < N) :
    Finset.sum (Finset.range N) (fun i => gainOf (a : ℤ) (b : ℤ) A B i ^ 2)
      = if a = b then A ^ 2 else A ^ 2 + B ^ 2 := by
  have hterm : ∀ i : ℕ, gainOf (a : ℤ) (b : ℤ) A B i ^ 2
      = (if i = a then A ^ 2 else 0) + (if i = b then (if a = b then 0 else B ^ 2) else 0) := by
    intro i
    unfold gainOf
    by_cases h1 : i = a
    · by_cases h2 : a = b
      · simp [h1, h2]
      · simp [h1, h2]
    · by_cases h2 : i = b
      · have h3 : ¬ a = b := fun h => h1 (h2.trans h.symm)
        have h4 : ¬ b = a := fun h => h3 h.symm
        simp [h2, h3, h4]
      · have h3 : ¬ (i : ℤ) = (a : ℤ) := fun h => h1 (Nat.cast_injective h)
        have h4 : ¬ (i : ℤ) = (b : ℤ) := fun h => h2 (Nat.cast_injective h)
        simp [h1, h2, h3, h4]
  simp only [hterm]
  rw [Finset.sum_add_distrib, Finset.sum_ite_eq' (Finset.range N) a (fun _ => A ^ 2),
    Finset.sum_ite_eq' (Finset.range N) b (fun _ => if a = b then 0 else B ^ 2),
    if_pos (Finset.mem_range.mpr ha), if_pos (Finset.mem_range.mpr hb)]
  by_cases h : a = b
  · simp [h]
  · simp [h]

variable [FloorRing α]

/-- After every `PerformCrossfadeOutput` of a run the stored selection is the one computed
from the stored clamped control value. -/
theorem run_selection (Cos : α → α) (HALF_PI : α)
    (ArrayMixIn : List α → List α → α → α → List α) (F N : ℕ)
    (blocks : List (α × List (List α))) :
    ∀ b : α × List (List α), ∃ c : α,
      (TEPXFOperator.run Cos HALF_PI ArrayMixIn F N (blocks ++ [b])).IndexA
        = ⌊Clamp c 0 (((N : ℤ) - 1 : ℤ) : α)⌋ ∧
      (TEPXFOperator.run Cos HALF_PI ArrayMixIn F N (blocks ++ [b])).IndexB
        = TruncToInt (Clamp ((⌊Clamp c 0 (((N : ℤ) - 1 : ℤ) : α)⌋ + 1 : ℤ) : α) 0
            (((N : ℤ) - 1 : ℤ) : α)) ∧
      (TEPXFOperator.run Cos HALF_PI ArrayMixIn F N (blocks ++ [b])).Alpha
        = Clamp c 0 (((N : ℤ) - 1 : ℤ) : α) - (⌊Clamp c 0 (((N : ℤ) - 1 : ℤ) : α)⌋ : α) := by
  induction blocks using List.reverseRecOn with
  | nil =>
    intro b
    refine ⟨b.1, ?_⟩
    rw [List.nil_append]
    have hrun : TEPXFOperator.run Cos HALF_PI ArrayMixIn F N [b]
        = PerformCrossfadeOutput Cos HALF_PI ArrayMixIn N (TEPXFOperator.fresh F N) b.1 b.2 :=
      rfl
    obtain ⟨h1, h2, h3, -⟩ := PerformCrossfadeOutput_fields Cos HALF_PI ArrayMixIn N
      (TEPXFOperator.fresh F N) b.1 b.2
    rw [hrun, h1, h2, h3, UpdateSelection_of_change N _ b.1 (fresh_detects_change F N b.1)]
    exact ⟨rfl, rfl, rfl⟩
  | append_singleton bs b0 ih =>
    intro b
    obtain ⟨h1, h2, h3, -⟩ := PerformCrossfadeOutput_fields Cos HALF_PI ArrayMixIn N
      (TEPXFOperator.run Cos HALF_PI ArrayMixIn F N (bs ++ [b0])) b.1 b.2
    rw [TEPXF_run_snoc, h1, h2, h3]
    cases hne : IsNearlyEqual (Clamp b.1 0 (((N : ℤ) - 1 : ℤ) : α))
        (TEPXFOperator.run Cos HALF_PI ArrayMixIn F N (bs ++ [b0])).PrevCrossfadeValue
    · rw [UpdateSelection_of_change N _ b.1 hne]
      exact ⟨b.1, rfl, rfl, rfl⟩
    · rw [UpdateSelection_of_same N _ b.1 hne]
      exact ih b0

end ChannelPower

section ChannelPowerReal

/-- C23. Multi-input equal power across channels: for every `N ≥ 2` and every control value,
after every `PerformCrossfadeOutput` of a crossfader run from construction (the constructor
call and any number of `Execute` calls, with any control values and inputs), `CurrentGains`
has `N` entries, `0 ≤ IndexA ≤ IndexB ≤ N - 1`, every channel with a non-zero entry of
`CurrentGains` is `IndexA` or `IndexB`, so at most two channels have a non-zero entry, and the
sum over the `N` channels of `CurrentGains[i]^2` is `1` over the reals with the real cosine,
also at the boundary where `IndexA = IndexB`. -/
theorem C23_equal_power_channels (ArrayMixIn : List ℝ → List ℝ → ℝ → ℝ → List ℝ) (F N : ℕ)
    (hN : 2 ≤ N) (blocks : List (ℝ × List (List ℝ))) (b : ℝ × List (List ℝ)) :
    (TEPXFOperator.run Real.cos (Real.pi / 2) ArrayMixIn F N
      (blocks ++ [b])).Crossfader.CurrentGains.length = N ∧
    0 ≤ (TEPXFOperator.run Real.cos (Real.pi / 2) ArrayMixIn F N (blocks ++ [b])).IndexA ∧
    (TEPXFOperator.run Real.cos (Real.pi / 2) ArrayMixIn F N (blocks ++ [b])).IndexA
      ≤ (TEPXFOperator.run Real.cos (Real.pi / 2) ArrayMixIn F N (blocks ++ [b])).IndexB ∧
    (TEPXFOperator.run Real.cos (Real.pi / 2) ArrayMixIn F N (blocks ++ [b])).IndexB
      ≤ (N : ℤ) - 1 ∧
    (∀ i : ℕ,
      (TEPXFOperator.run Real.cos (Real.pi / 2) ArrayMixIn F N
        (blocks ++ [b])).Crossfader.CurrentGains.getD i 0 ≠ 0 →
      (i : ℤ) = (TEPXFOperator.run Real.cos (Real.pi / 2) ArrayMixIn F N
          (blocks ++ [b])).IndexA ∨
        (i : ℤ) = (TEPXFOperator.run Real.cos (Real.pi / 2) ArrayMixIn F N
          (blocks ++ [b])).IndexB) ∧
    ((Finset.range N).filter (fun i =>
      (TEPXFOperator.run Real.cos (Real.pi / 2) ArrayMixIn F N
        (blocks ++ [b])).Crossfader.CurrentGains.getD i 0 ≠ 0)).card ≤ 2 ∧
    Finset.sum (Finset.range N) (fun i =>
      (TEPXFOperator.run Real.cos (Real.pi / 2) ArrayMixIn F N
        (blocks ++ [b])).Crossfader.CurrentGains.getD i 0 ^ 2) = 1 := by
  have hN1 : 1 ≤ N := by omega
  obtain ⟨c, hA, hB, hAl⟩ := run_selection Real.cos (Real.pi / 2) ArrayMixIn F N blocks b
  obtain ⟨-, -, f2, f3, f4, f5, f6, f7, f8⟩ := selection_facts N hN1 c
  have hia0 : 0 ≤ (TEPXFOperator.run Real.cos (Real.pi / 2) ArrayMixIn F N
      (blocks ++ [b])).IndexA := by
    rw [hA]
    exact f6
  have hiab : (TEPXFOperator.run Real.cos (Real.pi / 2) ArrayMixIn F N (blocks ++ [b])).IndexA
      ≤ (TEPXFOperator.run Real.cos (Real.pi / 2) ArrayMixIn F N (blocks ++ [b])).IndexB := by
    rw [hA, hB]
    exact f7
  have hibN : (TEPXFOperator.run Real.cos (Real.pi / 2) ArrayMixIn F N (blocks ++ [b])).IndexB
      ≤ (N : ℤ) - 1 := by
    rw [hB]
    exact f8
  have hal0 : 0 ≤ (TEPXFOperator.run Real.cos (Real.pi / 2) ArrayMixIn F N
      (blocks ++ [b])).Alpha := by
    rw [hAl]
    exact f4
  have hal1 : (TEPXFOperator.run Real.cos (Real.pi / 2) ArrayMixIn F N
      (blocks ++ [b])).Alpha < 1 := by
    rw [hAl]
    exact f5
  have hal : (TEPXFOperator.run Real.cos (Real.pi / 2) ArrayMixIn F N (blocks ++ [b])).IndexA
      = (TEPXFOperator.run Real.cos (Real.pi / 2) ArrayMixIn F N (blocks ++ [b])).IndexB →
      (TEPXFOperator.run Real.cos (Real.pi / 2) ArrayMixIn F N (blocks ++ [b])).Alpha = 0 := by
    rw [hA, hB, hAl, f3]
    intro hAB
    have hAN : ⌊Clamp c 0 (((N : ℤ) - 1 : ℤ) : ℝ)⌋ = (N : ℤ) - 1 := by
      rcases min_choice (⌊Clamp c 0 (((N : ℤ) - 1 : ℤ) : ℝ)⌋ + 1) ((N : ℤ) - 1) with h | h
      · rw [h] at hAB
        omega
      · rw [h] at hAB
        exact hAB
    have h1 : Clamp c 0 (((N : ℤ) - 1 : ℤ) : ℝ)
        ≤ ((⌊Clamp c 0 (((N : ℤ) - 1 : ℤ) : ℝ)⌋ : ℤ) : ℝ) := by
      rw [hAN]
      exact f2.trans (le_of_eq (by push_cast; rfl))
    linarith
  obtain ⟨hn, hF, hC, hM, -⟩ := TEPXFOperator.run_inv Real.cos (Real.pi / 2) ArrayMixIn F N
    blocks
  have hG : (TEPXFOperator.run Real.cos (Real.pi / 2) ArrayMixIn F N
      (blocks ++ [b])).Crossfader.CurrentGains
      = (List.range N).map
        (gainOf (TEPXFOperator.run Real.cos (Real.pi / 2) ArrayMixIn F N (blocks ++ [b])).IndexA
          (TEPXFOperator.run Real.cos (Real.pi / 2) ArrayMixIn F N (blocks ++ [b])).IndexB
          (EPXFValueA Real.cos (Real.pi / 2)
            (TEPXFOperator.run Real.cos (Real.pi / 2) ArrayMixIn F N (blocks ++ [b])).Alpha)
          (EPXFValueB Real.cos (Real.pi / 2)
            (TEPXFOperator.run Real.cos (Real.pi / 2) ArrayMixIn F N (blocks ++ [b])).Alpha)) := by
    obtain ⟨k1, k2, k3, -⟩ := PerformCrossfadeOutput_fields Real.cos (Real.pi / 2) ArrayMixIn N
      (TEPXFOperator.run Real.cos (Real.pi / 2) ArrayMixIn F N blocks) b.1 b.2
    rw [TEPXF_run_snoc, k1, k2, k3,
      PerformCrossfadeOutput_crossfader Real.cos (Real.pi / 2) ArrayMixIn N F _ b.1 b.2
        hn hF hC hM]
  generalize (TEPXFOperator.run Real.cos (Real.pi / 2) ArrayMixIn F N (blocks ++ [b])) = s
    at hA hB hAl hal hal0 hal1 hia0 hiab hibN hG ⊢
  have hnz : ∀ i : ℕ, s.Crossfader.CurrentGains.getD i 0 ≠ 0 →
      (i : ℤ) = s.IndexA ∨ (i : ℤ) = s.IndexB := by
    intro i hi
    rw [hG, getD_map_range] at hi
    by_cases hlt : i < N
    · rw [if_pos hlt] at hi
      exact gainOf_ne_zero hi
    · rw [if_neg hlt] at hi
      exact absurd rfl hi
  refine ⟨by rw [hG]; simp, hia0, hiab, hibN, hnz, ?_, ?_⟩
  · have hsub : (Finset.range N).filter (fun i => s.Crossfader.CurrentGains.getD i 0 ≠ 0)
        ⊆ {s.IndexA.toNat, s.IndexB.toNat} := by
      intro i hi
      rw [Finset.mem_filter] at hi
      rw [Finset.mem_insert, Finset.mem_singleton]
      rcases hnz i hi.2 with h | h
      · left
        rw [← h, Int.toNat_natCast]
      · right
        rw [← h, Int.toNat_natCast]
    exact (Finset.card_le_card hsub).trans Finset.card_le_two
  · have hsum : Finset.sum (Finset.range N) (fun i => s.Crossfader.CurrentGains.getD i 0 ^ 2)
        = Finset.sum (Finset.range N) (fun i =>
            gainOf ((s.IndexA.toNat : ℕ) : ℤ) ((s.IndexB.toNat : ℕ) : ℤ)
              (EPXFValueA Real.cos (Real.pi / 2) s.Alpha)
              (EPXFValueB Real.cos (Real.pi / 2) s.Alpha) i ^ 2) := by
      apply Finset.sum_congr rfl
      intro i hi
      rw [hG, getD_map_range, if_pos (Finset.mem_range.mp hi), Int.toNat_of_nonneg hia0,
        Int.toNat_of_nonneg (hia0.trans hiab)]
    rw [hsum, sum_gainOf_sq N s.IndexA.toNat s.IndexB.toNat _ _ (by omega) (by omega)]
    by_cases hab : s.IndexA.toNat = s.IndexB.toNat
    · rw [if_pos hab]
      have hAB : s.IndexA = s.IndexB := by omega
      rw [hal hAB, EPXFValueA_zero]
      norm_num
    · rw [if_neg hab, EPXFValueA_real s.Alpha hal0 hal1.le, EPXFValueB_real s.Alpha hal0 hal1.le]
      exact Real.cos_sq_add_sin_sq _

theorem C23_equal_power_channels_witness :
    2 ≤ 3 ∧
    Finset.sum (Finset.range 3) (fun i =>
      (TEPXFOperator.run Real.cos (Real.pi / 2) (fun _ o _ _ => o) 1 3
        ([((1 / 2 : ℝ), [[0], [0], [0]])] ++ [((2 : ℝ), [[0], [0], [0]])])
        ).Crossfader.CurrentGains.getD i 0 ^ 2) = 1 :=
  ⟨by decide, (C23_equal_power_channels (fun _ o _ _ => o) 1 3 (by decide)
    [((1 / 2 : ℝ), [[0], [0], [0]])] ((2 : ℝ), [[0], [0], [0]])).2.2.2.2.2.2⟩

end ChannelPowerReal

end MSUtils
